import Mathlib

/-!
# UnrealSharp glue generator: `FCSGenerator` (Source/GlueGenerator/CSGenerator.cpp)

A shallow embedding of the binding generator.  Reflection objects are records
holding the answers the generator asks of them, the generator's member
variables are the record `FCSGenerator`, and the script builder is the ordered
list of calls made on it.
-/

namespace GlueGenerator

/-- Engine names and strings.  Two names are the same when their texts are equal: texts are
taken in the one spelling the engine compares them by. -/
abbrev FName := String
abbrev FString := String

/-- Identity of a reflection object: its index in the object graph. -/
abbrev ObjId := Nat

/-! ## Engine strings -/

/-- Modelled from the spec: `FString::Find` belongs to the engine; it is taken as the
position of the first exact occurrence of the searched text (`none` is `INDEX_NONE`). -/
def FindChars (sub : List Char) : List Char → Option Nat
  | [] => if sub.isEmpty then some 0 else none
  | c :: cs =>
    if sub.isPrefixOf (c :: cs) then some 0
    else (FindChars sub cs).map (fun i => i + 1)

def FString.Find (s sub : FString) : Option Nat := FindChars sub.data s.data

/-- The engine's `FString::Mid(Start)`: the text from position `Start` on. -/
def FString.Mid (s : FString) (start : Nat) : FString := String.mk (s.data.drop start)

/-- Modelled from the spec: `FString::EndsWith` belongs to the engine; the spec takes the
sentinel test as an exact literal suffix match. -/
def FString.EndsWith (s suffix : FString) : Bool := suffix.data.isSuffixOf s.data

def FString.IsEmpty (s : FString) : Bool := s.data.isEmpty

/-- Modelled from the spec: the comparison of `FString` keys belongs to the engine, which
compares and hashes them without regard to the case of letters; a key stands for its
characters with the letters `A` to `Z` in lower case. -/
def FString.CaseInsensitiveKey (s : FString) : List Char := s.data.map Char.toLower

/-- Modelled from the spec: `TSet<FString>::Contains` belongs to the engine; a set, kept as
the list of the strings added to it, contains a string when one of them is the same up to
the case of letters. -/
def TSetFString.Contains (Keys : List FString) (Key : FString) : Bool :=
  Keys.any (fun Used => Used.CaseInsensitiveKey == Key.CaseInsensitiveKey)

/-- Modelled from the spec: `FPaths::Combine` belongs to the engine; two path parts are joined
with one separator. -/
def FPaths.Combine (a b : FString) : FString := a ++ "/" ++ b

/-! ## Reflection data -/

/-- The answers of the translator that `PropertyTranslators->Find(Property)` returns,
for the property that carries this record. -/
structure FPropertyTranslator where
  IsSupportedAsProperty : Bool
  IsSupportedAsStructProperty : Bool
  IsSupportedAsParameter : Bool
  IsSupportedAsReturnValue : Bool
  IsSupportedAsOverridableFunctionParameter : Bool
  IsSupportedAsOverridableFunctionReturnValue : Bool
  IsSupportedInStaticArray : Bool
  CanHandleProperty : Bool
  deriving DecidableEq, Repr

structure FProperty where
  Name : FName
  /-- `Property->GetClass()->GetFName()`: the property kind. -/
  ClassFName : FName
  ArrayDim : Nat
  CPF_ReturnParm : Bool
  CPF_Deprecated : Bool
  /-- Answer of `ShouldExportProperty(Property)`. -/
  ShouldExportProperty : Bool
  /-- `Property->GetOutermost()->IsA(UClass::StaticClass())`. -/
  OutermostIsClass : Bool
  /-- `NameMapper.MapPropertyName(Property)`. -/
  ManagedName : FString
  Handler : FPropertyTranslator
  deriving DecidableEq, Repr

structure UFunction where
  Name : FName
  MetaData : List (FName × FString)
  FUNC_Static : Bool
  FUNC_BlueprintEvent : Bool
  /-- Answer of `ShouldExportFunction(Function)`. -/
  ShouldExportFunction : Bool
  NumParms : Nat
  /-- `Function->GetReturnProperty()`. -/
  ReturnProperty : Option FProperty
  /-- The properties of the function in declaration order (`TFieldIterator<FProperty>`). -/
  ChildProperties : List FProperty
  deriving DecidableEq, Repr

def UFunction.HasMetaData (F : UFunction) (Key : FName) : Bool :=
  (F.MetaData.lookup Key).isSome

def UFunction.GetMetaData (F : UFunction) (Key : FName) : FString :=
  (F.MetaData.lookup Key).getD ""

def UFunction.FindPropertyByName (F : UFunction) (Name : FName) : Option FProperty :=
  F.ChildProperties.find? (fun P => P.Name == Name)

/-- The part every `UObject` has. -/
structure UObjectBase where
  Name : FString
  /-- `Object->GetOutermost() == GetTransientPackage()`. -/
  InTransientPackage : Bool
  /-- `GetModuleFName(Object)`. -/
  ModuleFName : FName
  deriving DecidableEq, Repr

/-- One entry of `Class->Interfaces`, with what the generator reads of the interface class. -/
structure FImplementedInterface where
  ClassName : FString
  ClassModuleFName : FName
  /-- `FKismetEditorUtilities::IsClassABlueprintImplementableInterface(InterfaceClass)`. -/
  IsBlueprintImplementable : Bool
  /-- `TFieldIterator<UFunction>(Interface.Class)`. -/
  Functions : List UFunction
  deriving DecidableEq, Repr

structure UClass where
  Base : UObjectBase
  RF_ClassDefaultObject : Bool
  RF_Transient : Bool
  CLASS_CompiledFromBlueprint : Bool
  CLASS_NewerVersionExists : Bool
  CLASS_Deprecated : Bool
  CLASS_Abstract : Bool
  /-- `Class->ClassGeneratedBy` is not null. -/
  ClassGeneratedBy : Bool
  /-- `Class->IsChildOf(UInterface::StaticClass())`. -/
  IsChildOfUInterface : Bool
  /-- `Class->IsChildOf(USubsystem::StaticClass())`. -/
  IsChildOfUSubsystem : Bool
  /-- `Class->IsChildOf(UBlueprintFunctionLibrary::StaticClass())`. -/
  IsChildOfUBlueprintFunctionLibrary : Bool
  /-- Answer of `IsBlueprintFunctionLibrary(Class)`. -/
  IsBlueprintFunctionLibrary : Bool
  /-- `FKismetEditorUtilities::CanCreateBlueprintOfClass(Class)`. -/
  CanCreateBlueprintOfClass : Bool
  /-- Answer of `ShouldExportClass(Class)`. -/
  ShouldExportClass : Bool
  /-- `Class == UObject::StaticClass()`. -/
  IsUObjectStaticClass : Bool
  /-- `Class->GetSuperClass()`. -/
  SuperClass : Option ObjId
  /-- `NameMapper.GetQualifiedName(SuperClass)`. -/
  SuperClassQualifiedName : FString
  /-- `NameMapper.GetScriptClassName(Class)`. -/
  ScriptClassName : FString
  /-- `NameMapper.GetTypeScriptName(Class)`. -/
  TypeScriptName : FString
  /-- `TFieldIterator<FProperty>(Class, ExcludeSuper)`. -/
  Properties : List FProperty
  /-- `TFieldIterator<UFunction>(Class, ExcludeSuper)`. -/
  Functions : List UFunction
  Interfaces : List FImplementedInterface
  deriving DecidableEq, Repr

structure UScriptStruct where
  Base : UObjectBase
  /-- Answer of `ShouldExportStruct(Struct)`. -/
  ShouldExportStruct : Bool
  /-- `PropertyTranslators->IsStructBlittable(*Struct)`. -/
  IsStructBlittable : Bool
  /-- `NameMapper.GetStructScriptName(Struct)`. -/
  StructScriptName : FString
  /-- `NameMapper.GetTypeScriptName(Struct)`. -/
  TypeScriptName : FString
  /-- `TFieldIterator<FProperty>(Struct, ExcludeSuper)`. -/
  Properties : List FProperty
  deriving DecidableEq, Repr

structure UEnumEntry where
  /-- `Enum->GetNameByIndex(i)`. -/
  Name : FName
  /-- Answer of `ShouldExportEnumEntry(Enum, i)`. -/
  ShouldExportEnumEntry : Bool
  deriving DecidableEq, Repr

structure UEnum where
  Base : UObjectBase
  /-- Answer of `ShouldExportEnum(Enum)`. -/
  ShouldExportEnum : Bool
  /-- The entries at the native indices `0 .. NumEnums()-1`. -/
  Entries : List UEnumEntry
  deriving DecidableEq, Repr

/-- A `UObject*` handed to the generator, by its dynamic type. -/
inductive UObject where
  | Class (C : UClass)
  | ScriptStruct (S : UScriptStruct)
  | Enum (E : UEnum)
  | Other (O : UObjectBase)
  deriving DecidableEq, Repr

def UObject.Base : UObject → UObjectBase
  | .Class C => C.Base
  | .ScriptStruct S => S.Base
  | .Enum E => E.Base
  | .Other O => O

/-- The loaded reflection objects; an `ObjId` is a position in this list. -/
abbrev ObjectGraph := List UObject

/-- A `const UStruct*` owner of members: a class or a script struct (the two dynamic types
the `check` in `CanExportProperty` admits). -/
structure UStruct where
  Id : ObjId
  /-- `Struct->IsA(UClass::StaticClass())`; otherwise it is a `UScriptStruct`. -/
  IsClass : Bool
  deriving DecidableEq, Repr

/-! ## The script builder -/

/-- Modelled from the spec: `FCSPropertyBuilder` is not part of this file; an attribute under
construction is kept as the attribute name and the arguments added to it. -/
structure FCSPropertyBuilder where
  Attributes : List FString
  Arguments : List FString
  deriving DecidableEq, Repr

/-- How a function is exported (`FPropertyTranslator::FunctionType`). -/
inductive FunctionType where
  | Normal
  | ExtensionOnAnotherClass
  deriving DecidableEq, Repr

/-- Modelled from the spec: `FCSScriptBuilder` and the property translators are external
collaborators; the builder is kept as the ordered list of calls made on it, the translator
calls that write into it included.  Arguments a call site leaves to their defaults are `none`. -/
inductive BuilderOp where
  | AppendLine (Line : FString)
  | AppendEmptyLine
  | AppendAttribute (PropBuilder : FCSPropertyBuilder)
  | OpenBrace
  | CloseBrace
  | BeginUnsafeBlock
  | EndUnsafeBlock
  | GenerateScriptSkeleton (Namespace : FString)
  | DeclareDirective (Namespace : FString)
  | DeclareType (Kind Name : FString) (SuperType : Option FString)
      (IsAbstract IsPartialType : Option Bool) (Interfaces : List FString)
  | ExportWrapperProperty (Property : FProperty) (IsGreylisted IsWhitelisted : Bool)
  | ExportMirrorProperty (Property : FProperty) (IsGreylisted SuppressOffsets : Bool)
  | ExportFunction (Function : UFunction) (FuncType : FunctionType)
  | ExportOverridableFunction (Function : UFunction)
  | ExportInterfaceFunction (Function : UFunction)
  | ExportPropertyStaticConstruction (Property : FProperty) (NativePropertyName : FString)
  | ExportParameterStaticConstruction (NativeMethodName : FString) (Property : FProperty)
  | ExportMarshalFromNativeBuffer (Property : FProperty) (NativePropertyName : FString)
      (AssignmentOrReturn SourceBuffer Offset : FString)
  | ExportMarshalToNativeBuffer (Property : FProperty) (NativePropertyName : FString)
      (DestinationBuffer Offset Source : FString)
  deriving DecidableEq, Repr

abbrev FCSScriptBuilder := List BuilderOp

/-- Every builder call writes text, so the builder is empty exactly when no call was made. -/
def FCSScriptBuilder.IsEmpty (Builder : FCSScriptBuilder) : Bool := List.isEmpty Builder

/-! ## Generator state and its collaborators -/

inductive EPluginType where
  | Engine
  | Enterprise
  | Project
  | External
  | Mod
  deriving DecidableEq, Repr

/-- The inclusion lists as the generator consults them.  `FCSInclusionLists` is declared
outside this file; a list is the answers of its `Has...` queries. -/
structure FCSInclusionLists where
  HasClass : ObjId → Bool
  HasStruct : ObjId → Bool
  HasEnum : ObjId → Bool
  HasProperty : UStruct → FProperty → Bool
  HasFunction : UStruct → UFunction → Bool

/-- The generator members that are fixed once `StartGenerator` has run. -/
structure FCSPolicy where
  Blacklist : FCSInclusionLists
  Whitelist : FCSInclusionLists
  Greylist : FCSInclusionLists
  BlueprintInternalWhitelist : FCSInclusionLists

/-- What the engine answers about plugins, modules and the file system. -/
structure FHost where
  ProjectDir : FString
  /-- `IPluginManager::Get().FindPlugin("UnrealSharp")`, by plugin type. -/
  ThisPlugin : Option EPluginType
  /-- `IPluginManager::Get().GetModuleOwnerPlugin(ModuleName)`, by plugin type. -/
  GetModuleOwnerPlugin : FName → Option EPluginType
  /-- `FModuleManager::Get().GetModule(ModuleName)`, by its `IsGameModule()`. -/
  GetModule : FName → Option Bool
  /-- Whether `CreateDirectoryTree` succeeds for a directory. -/
  CreateDirectoryTree : FString → Bool
  /-- `FCSModule::GetNamespace()` of the module built from a name and a directory. -/
  ModuleNamespace : FName → FString → FString
  /-- `FCSModule::GetGeneratedSourceDirectory()` of that module. -/
  ModuleGeneratedSourceDirectory : FName → FString → FString
  /-- Text of the header constant `UNREAL_SHARP_OBJECT`. -/
  UNREAL_SHARP_OBJECT : FString
  /-- Text of the header constant `CoreUObjectCallbacks`. -/
  CoreUObjectCallbacks : FString
  /-- Text of the header constant `UScriptStructCallbacks`. -/
  UScriptStructCallbacks : FString
  /-- Text of the header constant `UClassCallbacks`. -/
  UClassCallbacks : FString
  /-- Text of the header constant `UFunctionCallbacks`. -/
  UFunctionCallbacks : FString

structure FCSModule where
  ModuleName : FName
  Directory : FString
  Namespace : FString
  GeneratedSourceDirectory : FString
  deriving DecidableEq, Repr

structure ExtensionMethod where
  Function : UFunction
  SelfParameter : FProperty
  /-- `nullptr` or a class; the only class ever stored is `UWorld::StaticClass()`. -/
  OverrideClassBeingExtended : Option FName
  deriving DecidableEq, Repr

def UWorld_StaticClass : FName := "World"

/-- Calls that leave the generator, in the order made, together with the calls of
`SaveTypeGlue` that trigger them. -/
inductive PersistenceCall where
  | SaveTypeGlue (Object : ObjId) (Glue : FCSScriptBuilder)
  | CreateDirectoryTreeFailed (Directory : FString)
  | SaveFileIfChanged (Path : FString) (Glue : FCSScriptBuilder)
  | RenameTempFiles
  deriving DecidableEq, Repr

/-- The mutable members of `FCSGenerator`. -/
structure FCSGenerator where
  GeneratedScriptsDirectory : FString
  ExportedTypes : List ObjId
  CSharpBindingsModules : List (FName × FCSModule)
  ExtensionMethods : List (FName × List ExtensionMethod)
  UnhandledProperties : List (FName × Nat)
  UnhandledParameters : List (FName × Nat)
  UnhandledReturnValues : List (FName × Nat)
  UnhandledOverridableParameters : List (FName × Nat)
  UnhandledOverridableReturnValues : List (FName × Nat)
  Persistence : List PersistenceCall
  deriving DecidableEq, Repr

/-- `++Map.FindOrAdd(Key)` on a counter map. -/
def IncrementCounter (Key : FName) : List (FName × Nat) → List (FName × Nat)
  | [] => [(Key, 1)]
  | (k, n) :: rest =>
    if k == Key then (k, n + 1) :: rest else (k, n) :: IncrementCounter Key rest

/-! ## Module registry -/

/-- The directory chosen for a module that is not registered yet
(the body of `if (!BindingsModule)` in `FindOrRegisterModule`). -/
def ResolveModuleDirectory (H : FHost) (GeneratedScriptsDirectory : FString)
    (ModuleName : FName) : FString :=
  let GeneratedUserContent : FString := "Script/obj/Generated"
  match H.ThisPlugin with
  | none => ""
  | some ThisPluginType =>
    if ThisPluginType == EPluginType.Project then GeneratedScriptsDirectory
    else
      match H.GetModuleOwnerPlugin ModuleName with
      | some PluginType =>
        if PluginType == EPluginType.Engine || PluginType == EPluginType.Enterprise then
          GeneratedScriptsDirectory
        else FPaths.Combine H.ProjectDir GeneratedUserContent
      | none =>
        match H.GetModule ModuleName with
        | some IsGameModule =>
          if IsGameModule then FPaths.Combine H.ProjectDir GeneratedUserContent
          else GeneratedScriptsDirectory
        | none => GeneratedScriptsDirectory

/-- `FCSModule(ModuleName, Directory)`. -/
def FCSModule.Make (H : FHost) (ModuleName : FName) (Directory : FString) : FCSModule :=
  { ModuleName := ModuleName
    Directory := Directory
    Namespace := H.ModuleNamespace ModuleName Directory
    GeneratedSourceDirectory := H.ModuleGeneratedSourceDirectory ModuleName Directory }

/-- `FindOrRegisterModule`, for an object whose `GetModuleFName` is `ModuleName`. -/
def FindOrRegisterModule (H : FHost) (st : FCSGenerator) (ModuleName : FName) :
    FCSModule × FCSGenerator :=
  match st.CSharpBindingsModules.lookup ModuleName with
  | some BindingsModule => (BindingsModule, st)
  | none =>
    let Directory := ResolveModuleDirectory H st.GeneratedScriptsDirectory ModuleName
    let BindingsModule := FCSModule.Make H ModuleName Directory
    (BindingsModule,
      { st with CSharpBindingsModules := st.CSharpBindingsModules ++ [(ModuleName, BindingsModule)] })

def RegisterClassToModule (H : FHost) (st : FCSGenerator) (ModuleName : FName) : FCSGenerator :=
  (FindOrRegisterModule H st ModuleName).2

/-! ## Enums -/

/-- The value `RawName` gets in `ExportEnum` for an entry that is exported: the text after
the first `::` of the value name, or the whole name when it has no `::`. -/
def RawEnumName (ValueName : FName) : FString :=
  let QualifiedValueName : FString := ValueName
  match FString.Find QualifiedValueName "::" with
  | some ColonPosition => FString.Mid QualifiedValueName (ColonPosition + 2)
  | none => QualifiedValueName

/-- The first loop of `ExportEnum`: the array `EnumValues` after the entries from native
index `i` on have been visited (`ValueCount` is `Enum->NumEnums()`). -/
def CollectEnumValues (ValueCount : Nat) : Nat → List UEnumEntry → List FString → List FString
  | _, [], EnumValues => EnumValues
  | i, Entry :: Rest, EnumValues =>
    if !Entry.ShouldExportEnumEntry then
      CollectEnumValues ValueCount (i + 1) Rest (EnumValues ++ [""])
    else
      let RawName : FString := RawEnumName Entry.Name
      if i == ValueCount - 1 && RawName.EndsWith "MAX" then
        CollectEnumValues ValueCount (i + 1) Rest EnumValues
      else
        CollectEnumValues ValueCount (i + 1) Rest (EnumValues ++ [RawName])

/-- The second loop of `ExportEnum`: one line per non-empty slot, from index `i` on. -/
def AppendEnumValues : Nat → List FString → FCSScriptBuilder
  | _, [] => []
  | i, EnumValue :: Rest =>
    if EnumValue.IsEmpty then AppendEnumValues (i + 1) Rest
    else BuilderOp.AppendLine (EnumValue ++ "=" ++ toString i ++ ",") :: AppendEnumValues (i + 1) Rest

/-- The entry lines of `ExportEnum`: both loops. -/
def ExportEnumValues (Enum : UEnum) : FCSScriptBuilder :=
  AppendEnumValues 0 (CollectEnumValues Enum.Entries.length 0 Enum.Entries [])

def ExportEnum (P : FCSPolicy) (H : FHost) (st : FCSGenerator) (Id : ObjId) (Enum : UEnum)
    (Builder : FCSScriptBuilder) : FCSScriptBuilder × FCSGenerator :=
  if P.Whitelist.HasEnum Id || !P.Blacklist.HasEnum Id then
    let Module := FindOrRegisterModule H st Enum.Base.ModuleFName
    let Builder := Builder ++
      [BuilderOp.GenerateScriptSkeleton Module.1.Namespace,
       BuilderOp.AppendLine "[UEnum]",
       BuilderOp.DeclareType "enum" Enum.Base.Name (some "byte") (some false) (some false) []]
    let Builder := Builder ++ ExportEnumValues Enum
    (Builder ++ [BuilderOp.CloseBrace], Module.2)
  else (Builder, st)

/-! ## Export filters -/

def MD_WorldContext : FName := "WorldContext"
def MD_WorldContextObject : FName := "WorldContextObject"
/-- Engine metadata keys used by the generator. -/
def MD_Latent : FName := "Latent"
def MD_BlueprintInternalUseOnly : FName := "BlueprintInternalUseOnly"
def MD_DefaultToSelf : FName := "DefaultToSelf"
def ScriptMethodMetaDataKey : FName := "ScriptMethod"

def CanExportReturnValue (st : FCSGenerator) (Property : FProperty) : Bool × FCSGenerator :=
  let bCanExport := Property.ArrayDim == 1
  if bCanExport then
    if !Property.Handler.IsSupportedAsReturnValue || !Property.Handler.CanHandleProperty then
      (false, { st with UnhandledReturnValues :=
                  IncrementCounter Property.ClassFName st.UnhandledReturnValues })
    else (bCanExport, st)
  else (bCanExport, st)

def CanExportParameter (st : FCSGenerator) (Property : FProperty) : Bool × FCSGenerator :=
  let bCanExport := Property.ArrayDim == 1
  let bCanExport :=
    if bCanExport then
      if !Property.Handler.IsSupportedAsParameter || !Property.Handler.CanHandleProperty then false
      else bCanExport
    else bCanExport
  if !bCanExport then
    (bCanExport, { st with UnhandledParameters :=
                     IncrementCounter Property.ClassFName st.UnhandledParameters })
  else (bCanExport, st)

def CanExportOverridableParameter (st : FCSGenerator) (Property : FProperty) :
    Bool × FCSGenerator :=
  let bCanExport := Property.ArrayDim == 1
  let bCanExport :=
    if bCanExport then
      Property.Handler.IsSupportedAsOverridableFunctionParameter
        && Property.Handler.CanHandleProperty
    else bCanExport
  if !bCanExport then
    (bCanExport, { st with UnhandledOverridableParameters :=
                     IncrementCounter Property.ClassFName st.UnhandledOverridableParameters })
  else (bCanExport, st)

def CanExportOverridableReturnValue (st : FCSGenerator) (Property : FProperty) :
    Bool × FCSGenerator :=
  let bCanExport := Property.ArrayDim == 1
  let bCanExport :=
    if bCanExport then
      if !Property.Handler.IsSupportedAsOverridableFunctionReturnValue
          || !Property.Handler.CanHandleProperty then false
      else bCanExport
    else bCanExport
  if !bCanExport then
    (bCanExport, { st with UnhandledOverridableReturnValues :=
                     IncrementCounter Property.ClassFName st.UnhandledOverridableReturnValues })
  else (bCanExport, st)

/-- The parameter loop of `CanExportFunctionParameters`: it stops at the first property
flagged `CPF_ReturnParm` and at the first parameter that cannot be exported. -/
def CanExportParameterLoop (st : FCSGenerator) : List FProperty → Bool × FCSGenerator
  | [] => (true, st)
  | Param :: Rest =>
    if Param.CPF_ReturnParm then (true, st)
    else
      let r := CanExportParameter st Param
      if !r.1 then (false, r.2) else CanExportParameterLoop r.2 Rest

def CanExportFunctionParameters (st : FCSGenerator) (Function : UFunction) :
    Bool × FCSGenerator :=
  match Function.ReturnProperty with
  | some ReturnProperty =>
    let r := CanExportReturnValue st ReturnProperty
    if !r.1 then (false, r.2) else CanExportParameterLoop r.2 Function.ChildProperties
  | none => CanExportParameterLoop st Function.ChildProperties

def CanExportFunction (P : FCSPolicy) (st : FCSGenerator) (Struct : UStruct)
    (Function : UFunction) : Bool × FCSGenerator :=
  if (P.Blacklist.HasFunction Struct Function && !P.Whitelist.HasFunction Struct Function)
      || !Function.ShouldExportFunction then
    (false, st)
  else if Function.HasMetaData MD_Latent || Function.HasMetaData MD_BlueprintInternalUseOnly then
    (P.BlueprintInternalWhitelist.HasFunction Struct Function, st)
  else CanExportFunctionParameters st Function

def CanExportPropertyShared (Property : FProperty) : Bool :=
  Property.ShouldExportProperty
    && !Property.CPF_Deprecated
    && (Property.ArrayDim == 1
        || (Property.Handler.IsSupportedInStaticArray && Property.OutermostIsClass))

def CanExportProperty (P : FCSPolicy) (st : FCSGenerator) (Struct : UStruct)
    (Property : FProperty) : Bool × FCSGenerator :=
  let bCanExport := !P.Blacklist.HasProperty Struct Property
    && (CanExportPropertyShared Property || P.Whitelist.HasProperty Struct Property
        || P.Whitelist.HasStruct Struct.Id)
  if bCanExport then
    let bIsClassProperty := Struct.IsClass
    if (bIsClassProperty && !Property.Handler.IsSupportedAsProperty)
        || (!bIsClassProperty && !Property.Handler.IsSupportedAsStructProperty)
        || !Property.Handler.CanHandleProperty then
      (false, { st with UnhandledProperties :=
                  IncrementCounter Property.ClassFName st.UnhandledProperties })
    else (bCanExport, st)
  else (bCanExport, st)

/-- `GetExportedProperties` over the properties still to visit; `ExportedProperties` is the
set built so far, in insertion order. -/
def GetExportedProperties (P : FCSPolicy) (Struct : UStruct) :
    FCSGenerator → List FProperty → List FProperty → List FProperty × FCSGenerator
  | st, [], ExportedProperties => (ExportedProperties, st)
  | st, Property :: Rest, ExportedProperties =>
    let r := CanExportProperty P st Struct Property
    if !r.1 then GetExportedProperties P Struct r.2 Rest ExportedProperties
    else GetExportedProperties P Struct r.2 Rest (ExportedProperties ++ [Property])

/-- The first loop of `GetExportedFunctions`, over the own functions of the class. -/
def GetExportedOwnFunctions (P : FCSPolicy) (Class : UStruct) :
    FCSGenerator → List UFunction → List UFunction → List UFunction →
      (List UFunction × List UFunction) × FCSGenerator
  | st, [], ExportedFunctions, ExportedOverridableFunctions =>
    ((ExportedFunctions, ExportedOverridableFunctions), st)
  | st, Function :: Rest, ExportedFunctions, ExportedOverridableFunctions =>
    let r := CanExportFunction P st Class Function
    if !r.1 then
      GetExportedOwnFunctions P Class r.2 Rest ExportedFunctions ExportedOverridableFunctions
    else if Function.FUNC_BlueprintEvent then
      GetExportedOwnFunctions P Class r.2 Rest ExportedFunctions
        (ExportedOverridableFunctions ++ [Function])
    else
      GetExportedOwnFunctions P Class r.2 Rest (ExportedFunctions ++ [Function])
        ExportedOverridableFunctions

/-- The inner loop of the second part of `GetExportedFunctions`: the functions of one
implemented interface. -/
def GetExportedInterfaceFunctions (P : FCSPolicy) (Class : UStruct) :
    FCSGenerator → List UFunction → List UFunction → List UFunction × FCSGenerator
  | st, [], ExportedOverridableFunctions => (ExportedOverridableFunctions, st)
  | st, Function :: Rest, ExportedOverridableFunctions =>
    let r := CanExportFunction P st Class Function
    if !r.1 || !Function.FUNC_BlueprintEvent then
      GetExportedInterfaceFunctions P Class r.2 Rest ExportedOverridableFunctions
    else
      let bIsOverriden := ExportedOverridableFunctions.any (fun E => Function.Name == E.Name)
      if bIsOverriden then
        GetExportedInterfaceFunctions P Class r.2 Rest ExportedOverridableFunctions
      else
        GetExportedInterfaceFunctions P Class r.2 Rest (ExportedOverridableFunctions ++ [Function])

/-- The outer loop over `Class->Interfaces`. -/
def GetExportedInterfacesFunctions (P : FCSPolicy) (Class : UStruct) :
    FCSGenerator → List FImplementedInterface → List UFunction → List UFunction × FCSGenerator
  | st, [], ExportedOverridableFunctions => (ExportedOverridableFunctions, st)
  | st, Interface :: Rest, ExportedOverridableFunctions =>
    let r := GetExportedInterfaceFunctions P Class st Interface.Functions
      ExportedOverridableFunctions
    GetExportedInterfacesFunctions P Class r.2 Rest r.1

/-- `GetExportedFunctions`: the normal set and the overridable set, each in insertion order. -/
def GetExportedFunctions (P : FCSPolicy) (st : FCSGenerator) (Class : UStruct)
    (Functions : List UFunction) (Interfaces : List FImplementedInterface) :
    (List UFunction × List UFunction) × FCSGenerator :=
  let own := GetExportedOwnFunctions P Class st Functions [] []
  let all := GetExportedInterfacesFunctions P Class own.2 Interfaces own.1.2
  ((own.1.1, all.1), all.2)

/-! ## Class filters -/

def CanExportClass (P : FCSPolicy) (Class : ObjId) : Bool :=
  !P.Blacklist.HasClass Class

def CanDeriveFromNativeClass (P : FCSPolicy) (Id : ObjId) (Class : UClass) : Bool :=
  let bCanCreate := !Class.CLASS_Deprecated && !Class.CLASS_NewerVersionExists
    && !Class.ClassGeneratedBy
  let bIsBlueprintBase := Class.CanCreateBlueprintOfClass
  let bIsValidClass := bIsBlueprintBase || P.Whitelist.HasClass Id
    || Class.IsChildOfUBlueprintFunctionLibrary
  Class.IsChildOfUSubsystem || (bCanCreate && bIsValidClass)

/-! ## Extension methods -/

def GetExtensionMethodInfo (Function : UFunction) : Option ExtensionMethod :=
  let SelfParameter : Option FProperty := none
  let IsWorldContextParameter := false
  let SelfParameter :=
    if Function.HasMetaData ScriptMethodMetaDataKey then Function.ChildProperties.head?
    else SelfParameter
  let SelfParameter :=
    if SelfParameter.isNone && Function.HasMetaData MD_DefaultToSelf then
      Function.FindPropertyByName (Function.GetMetaData MD_DefaultToSelf)
    else SelfParameter
  let r : Option FProperty × Bool :=
    if Function.HasMetaData MD_WorldContext then
      let WorldContextName := Function.GetMetaData MD_WorldContext
      match SelfParameter with
      | some Self =>
        if Self.Name == WorldContextName then (SelfParameter, true)
        else (SelfParameter, IsWorldContextParameter)
      | none => (Function.FindPropertyByName WorldContextName, true)
    else (SelfParameter, IsWorldContextParameter)
  match r.1 with
  | none => none
  | some Self =>
    let IsWorldContextParameter :=
      if !r.2 then r.2 || (Self.Name == MD_WorldContext || Self.Name == MD_WorldContextObject)
      else r.2
    some { Function := Function
           SelfParameter := Self
           OverrideClassBeingExtended :=
             if IsWorldContextParameter then some UWorld_StaticClass else none }

/-- `ExtensionMethods.FindOrAdd(ModuleName).Add(Method)`. -/
def AddExtensionMethod (ModuleName : FName) (Method : ExtensionMethod) :
    List (FName × List ExtensionMethod) → List (FName × List ExtensionMethod)
  | [] => [(ModuleName, [Method])]
  | (k, Methods) :: rest =>
    if k == ModuleName then (k, Methods ++ [Method]) :: rest
    else (k, Methods) :: AddExtensionMethod ModuleName Method rest

/-! ## Code emission

A function that only appends to the builder it is given returns the calls it appends. -/

/-- A class or a script struct handed to `ExportStaticConstructor` as `const UStruct*`. -/
inductive UStructObject where
  | Class (C : UClass)
  | ScriptStruct (S : UScriptStruct)
  deriving DecidableEq, Repr

def UStructObject.GetName : UStructObject → FString
  | .Class C => C.Base.Name
  | .ScriptStruct S => S.Base.Name

def UStructObject.TypeScriptName : UStructObject → FString
  | .Class C => C.TypeScriptName
  | .ScriptStruct S => S.TypeScriptName

def UStructObject.IsClass : UStructObject → Bool
  | .Class _ => true
  | .ScriptStruct _ => false

/-- The loop of `ExportPropertiesStaticConstruction`; `ExportedPropertiesHash` is the
`TSet<FString>` of the managed names already used, so a name is found in it whatever the
case of its letters. -/
def ExportPropertiesStaticConstructionLoop :
    List FString → List FProperty → FCSScriptBuilder
  | _, [] => []
  | ExportedPropertiesHash, Property :: Rest =>
    let ManagedName := Property.ManagedName
    if TSetFString.Contains ExportedPropertiesHash ManagedName then
      ExportPropertiesStaticConstructionLoop ExportedPropertiesHash Rest
    else
      BuilderOp.ExportPropertyStaticConstruction Property Property.Name ::
        ExportPropertiesStaticConstructionLoop (ExportedPropertiesHash ++ [ManagedName]) Rest

def ExportPropertiesStaticConstruction (ExportedProperties : List FProperty) :
    FCSScriptBuilder :=
  ExportPropertiesStaticConstructionLoop [] ExportedProperties

def ExportClassFunctionStaticConstruction (H : FHost) (Function : UFunction) :
    FCSScriptBuilder :=
  let NativeMethodName := Function.Name
  [BuilderOp.AppendLine (NativeMethodName ++ "_NativeFunction = " ++ H.UClassCallbacks
      ++ ".CallGetNativeFunctionFromClassAndName(NativeClassPtr, \"" ++ Function.Name ++ "\");")]
  ++ (if Function.NumParms > 0 then
        [BuilderOp.AppendLine (NativeMethodName ++ "_ParamsSize = " ++ H.UFunctionCallbacks
          ++ ".CallGetNativeFunctionParamsSize(" ++ NativeMethodName ++ "_NativeFunction);")]
      else [])
  ++ Function.ChildProperties.map
      (fun Property => BuilderOp.ExportParameterStaticConstruction NativeMethodName Property)

def ExportClassFunctionsStaticConstruction (H : FHost) (ExportedFunctions : List UFunction) :
    FCSScriptBuilder :=
  (ExportedFunctions.map (ExportClassFunctionStaticConstruction H)).flatten

def ExportClassOverridableFunctionsStaticConstruction (H : FHost)
    (ExportedOverridableFunctions : List UFunction) : FCSScriptBuilder :=
  (ExportedOverridableFunctions.map (fun Function =>
    if Function.NumParms == 0 then []
    else
      let NativeMethodName := Function.Name
      [BuilderOp.AppendLine ("IntPtr " ++ NativeMethodName ++ "_NativeFunction = "
          ++ H.UClassCallbacks ++ ".CallGetNativeFunctionFromClassAndName(NativeClassPtr, \""
          ++ NativeMethodName ++ "\");"),
       BuilderOp.AppendLine (NativeMethodName ++ "_ParamsSize = " ++ H.UFunctionCallbacks
          ++ ".CallGetNativeFunctionParamsSize(" ++ NativeMethodName ++ "_NativeFunction);")]
      ++ Function.ChildProperties.map
          (fun Property => BuilderOp.ExportParameterStaticConstruction NativeMethodName Property)
      ++ [BuilderOp.AppendEmptyLine])).flatten

def ExportStaticConstructor (H : FHost) (Struct : UStructObject)
    (ExportedProperties : List FProperty) (ExportedFunctions : List UFunction)
    (ExportedOverrideableFunctions : List UFunction) : FCSScriptBuilder :=
  if Struct.IsClass && (ExportedProperties.isEmpty && ExportedFunctions.isEmpty
      && ExportedOverrideableFunctions.isEmpty) then []
  else
    let bHasStaticFunctions := ExportedFunctions.any (fun F => F.FUNC_Static)
    (if bHasStaticFunctions then [BuilderOp.AppendLine "static readonly IntPtr NativeClassPtr;"]
     else [])
    ++ (if !Struct.IsClass then [BuilderOp.AppendLine "public static readonly int NativeDataSize;"]
        else [])
    ++ [BuilderOp.AppendLine ("static " ++ Struct.TypeScriptName ++ "()"),
        BuilderOp.OpenBrace,
        BuilderOp.AppendLine ((if bHasStaticFunctions then "" else "IntPtr ")
          ++ "NativeClassPtr = " ++ H.CoreUObjectCallbacks ++ ".CallGetNative"
          ++ (if Struct.IsClass then "Class" else "Struct") ++ "FromName(\""
          ++ Struct.GetName ++ "\");"),
        BuilderOp.AppendEmptyLine]
    ++ ExportPropertiesStaticConstruction ExportedProperties
    ++ (if Struct.IsClass then
          [BuilderOp.AppendEmptyLine]
          ++ ExportClassFunctionsStaticConstruction H ExportedFunctions
          ++ [BuilderOp.AppendEmptyLine]
          ++ ExportClassOverridableFunctionsStaticConstruction H ExportedOverrideableFunctions
          ++ [BuilderOp.AppendEmptyLine]
        else
          [BuilderOp.AppendEmptyLine,
           BuilderOp.AppendLine ("NativeDataSize = " ++ H.UScriptStructCallbacks
             ++ ".CallGetNativeStructSize(NativeClassPtr);")])
    ++ [BuilderOp.CloseBrace]

/-! ## Structs -/

def ExportStructProperties (P : FCSPolicy) (Struct : UStruct)
    (ExportedProperties : List FProperty) (bSuppressOffsets : Bool) : FCSScriptBuilder :=
  ExportedProperties.map (fun Property =>
    BuilderOp.ExportMirrorProperty Property (P.Greylist.HasProperty Struct Property)
      bSuppressOffsets)

def ExportStructMarshaller (H : FHost) (Struct : UScriptStruct) : FCSScriptBuilder :=
  let StructName := Struct.StructScriptName
  [BuilderOp.AppendEmptyLine,
   BuilderOp.AppendLine ("public static class " ++ StructName ++ "Marshaler"),
   BuilderOp.OpenBrace,
   BuilderOp.AppendLine ("public static " ++ StructName
     ++ " FromNative(IntPtr nativeBuffer, int arrayIndex, UnrealSharpObject owner)"),
   BuilderOp.OpenBrace,
   BuilderOp.AppendLine ("return new " ++ StructName
     ++ "(nativeBuffer + arrayIndex * GetNativeDataSize());"),
   BuilderOp.CloseBrace,
   BuilderOp.AppendEmptyLine,
   BuilderOp.AppendLine ("public static void ToNative(IntPtr nativeBuffer, int arrayIndex, "
     ++ H.UNREAL_SHARP_OBJECT ++ " owner, " ++ StructName ++ " obj)"),
   BuilderOp.OpenBrace,
   BuilderOp.AppendLine "obj.ToNative(nativeBuffer + arrayIndex * GetNativeDataSize());",
   BuilderOp.CloseBrace,
   BuilderOp.AppendEmptyLine,
   BuilderOp.AppendLine "public static int GetNativeDataSize()",
   BuilderOp.OpenBrace,
   BuilderOp.AppendLine ("return " ++ StructName ++ ".NativeDataSize;"),
   BuilderOp.CloseBrace,
   BuilderOp.CloseBrace]

def ExportMirrorStructMarshalling (Struct : UScriptStruct)
    (ExportedProperties : List FProperty) : FCSScriptBuilder :=
  [BuilderOp.AppendEmptyLine,
   BuilderOp.AppendLine "// Construct by marshalling from a native buffer.",
   BuilderOp.AppendLine ("public " ++ Struct.StructScriptName ++ "(IntPtr InNativeStruct)"),
   BuilderOp.OpenBrace,
   BuilderOp.BeginUnsafeBlock]
  ++ ExportedProperties.map (fun Property =>
      let NativePropertyName := Property.Name
      let CSharpPropertyName := Property.ManagedName
      BuilderOp.ExportMarshalFromNativeBuffer Property NativePropertyName
        (CSharpPropertyName ++ " =") "InNativeStruct" (NativePropertyName ++ "_Offset"))
  ++ [BuilderOp.EndUnsafeBlock,
      BuilderOp.CloseBrace,
      BuilderOp.AppendEmptyLine,
      BuilderOp.AppendLine "// Marshal into a preallocated native buffer.",
      BuilderOp.AppendLine "public void ToNative(IntPtr Buffer)",
      BuilderOp.OpenBrace,
      BuilderOp.BeginUnsafeBlock]
  ++ ExportedProperties.map (fun Property =>
      let NativePropertyName := Property.Name
      let CSharpPropertyName := Property.ManagedName
      BuilderOp.ExportMarshalToNativeBuffer Property NativePropertyName "Buffer"
        (NativePropertyName ++ "_Offset") CSharpPropertyName)
  ++ [BuilderOp.EndUnsafeBlock,
      BuilderOp.CloseBrace]

def ExportStruct (P : FCSPolicy) (H : FHost) (st : FCSGenerator) (Id : ObjId)
    (Struct : UScriptStruct) (Builder : FCSScriptBuilder) : FCSScriptBuilder × FCSGenerator :=
  let BindingsModule := FindOrRegisterModule H st Struct.Base.ModuleFName
  let Exported := GetExportedProperties P ⟨Id, false⟩ BindingsModule.2 Struct.Properties []
  let ExportedProperties := Exported.1
  let bIsBlittable := Struct.IsStructBlittable
  let PropBuilder : FCSPropertyBuilder :=
    { Attributes := ["UStruct"]
      Arguments := if bIsBlittable then ["IsBlittable = true"] else [] }
  let Builder := Builder
    ++ [BuilderOp.GenerateScriptSkeleton BindingsModule.1.Namespace,
        BuilderOp.AppendAttribute PropBuilder,
        BuilderOp.DeclareType "struct" Struct.StructScriptName none none none []]
    ++ ExportStructProperties P ⟨Id, false⟩ ExportedProperties bIsBlittable
    ++ (if !bIsBlittable then
          [BuilderOp.AppendEmptyLine]
          ++ ExportStaticConstructor H (UStructObject.ScriptStruct Struct) ExportedProperties [] []
          ++ [BuilderOp.AppendEmptyLine]
          ++ ExportMirrorStructMarshalling Struct ExportedProperties
        else [])
    ++ [BuilderOp.CloseBrace]
    ++ (if !bIsBlittable then ExportStructMarshaller H Struct else [])
  (Builder, Exported.2)

/-! ## Interfaces and classes -/

def ExportInterfaceFunctions (ExportedFunctions : List UFunction) : FCSScriptBuilder :=
  ExportedFunctions.map (fun Function => BuilderOp.ExportInterfaceFunction Function)

def ExportInterface (P : FCSPolicy) (H : FHost) (st : FCSGenerator) (Id : ObjId)
    (Interface : UClass) (Builder : FCSScriptBuilder) : FCSScriptBuilder × FCSGenerator :=
  let InterfaceName := Interface.ScriptClassName
  let BindingsModule := FindOrRegisterModule H st Interface.Base.ModuleFName
  let Exported := GetExportedFunctions P BindingsModule.2 ⟨Id, true⟩ Interface.Functions
    Interface.Interfaces
  (Builder
    ++ [BuilderOp.GenerateScriptSkeleton BindingsModule.1.Namespace,
        BuilderOp.DeclareType "interface" InterfaceName (some "") (some false) none []]
    ++ ExportInterfaceFunctions Exported.1.2
    ++ [BuilderOp.CloseBrace],
   Exported.2)

def ExportClassOverridableFunctions (ExportedOverridableFunctions : List UFunction) :
    FCSScriptBuilder :=
  ExportedOverridableFunctions.map (fun Function => BuilderOp.ExportOverridableFunction Function)

/-- `ExportClassFunctions`, over the exported functions still to visit; the class is given by
its module name and the answer of `IsBlueprintFunctionLibrary(Class)`. -/
def ExportClassFunctions (H : FHost) (ClassModuleFName : FName)
    (IsBlueprintFunctionLibrary : Bool) :
    FCSGenerator → List UFunction → FCSScriptBuilder × FCSGenerator
  | st, [] => ([], st)
  | st, Function :: Rest =>
    let r : FunctionType × FCSGenerator :=
      if Function.FUNC_Static && IsBlueprintFunctionLibrary then
        match GetExtensionMethodInfo Function with
        | some Method =>
          let BindingsModule := FindOrRegisterModule H st ClassModuleFName
          (FunctionType.ExtensionOnAnotherClass,
            { BindingsModule.2 with
              ExtensionMethods :=
                AddExtensionMethod BindingsModule.1.ModuleName Method
                  BindingsModule.2.ExtensionMethods })
        | none => (FunctionType.Normal, st)
      else (FunctionType.Normal, st)
    let rest := ExportClassFunctions H ClassModuleFName IsBlueprintFunctionLibrary r.2 Rest
    (BuilderOp.ExportFunction Function r.1 :: rest.1, rest.2)

def ExportClassProperties (P : FCSPolicy) (Class : UStruct)
    (ExportedProperties : List FProperty) : FCSScriptBuilder :=
  ExportedProperties.map (fun Property =>
    BuilderOp.ExportWrapperProperty Property (P.Greylist.HasProperty Class Property)
      (P.Whitelist.HasProperty Class Property))

def GetSuperClassName (H : FHost) (Class : UClass) : FString :=
  if Class.IsUObjectStaticClass then H.UNREAL_SHARP_OBJECT
  else Class.SuperClassQualifiedName

/-- The loop of `ExportClass` over `Class->Interfaces`: the interface names collected, the
directives declared into the builder, and the `TSet<FString>` named `DeclaredDirectives`. -/
def ExportClassInterfaces (H : FHost) :
    FCSGenerator → List FImplementedInterface → List FString → List FString →
      (List FString × FCSScriptBuilder) × FCSGenerator
  | st, [], Interfaces, _ => ((Interfaces, []), st)
  | st, ImplementedInterface :: Rest, Interfaces, DeclaredDirectives =>
    if ImplementedInterface.IsBlueprintImplementable then
      let Interfaces := Interfaces ++ [ImplementedInterface.ClassName]
      let InterfaceModule := FindOrRegisterModule H st ImplementedInterface.ClassModuleFName
      let InterfaceNamespace := InterfaceModule.1.Namespace
      if TSetFString.Contains DeclaredDirectives InterfaceNamespace then
        ExportClassInterfaces H InterfaceModule.2 Rest Interfaces DeclaredDirectives
      else
        let rest := ExportClassInterfaces H InterfaceModule.2 Rest Interfaces
          (DeclaredDirectives ++ [InterfaceNamespace])
        ((rest.1.1, BuilderOp.DeclareDirective InterfaceNamespace :: rest.1.2), rest.2)
    else ExportClassInterfaces H st Rest Interfaces DeclaredDirectives

/-- `ExportClass` from the line after the superclass has been visited to the end. -/
def ExportClassBody (P : FCSPolicy) (H : FHost) (st : FCSGenerator) (Id : ObjId)
    (Class : UClass) (Builder : FCSScriptBuilder) : FCSScriptBuilder × FCSGenerator :=
  let ScriptClassName := Class.ScriptClassName
  let BindingsModule := FindOrRegisterModule H st Class.Base.ModuleFName
  let Props := GetExportedProperties P ⟨Id, true⟩ BindingsModule.2 Class.Properties []
  let Funcs := GetExportedFunctions P Props.2 ⟨Id, true⟩ Class.Functions Class.Interfaces
  let ExportedProperties := Props.1
  let ExportedFunctions := Funcs.1.1
  let ExportedOverridableFunctions := Funcs.1.2
  let Ifs := ExportClassInterfaces H Funcs.2 Class.Interfaces [] []
  let ClassFuncs := ExportClassFunctions H Class.Base.ModuleFName
    Class.IsBlueprintFunctionLibrary Ifs.2 ExportedFunctions
  (Builder
    ++ Ifs.1.2
    ++ [BuilderOp.GenerateScriptSkeleton BindingsModule.1.Namespace,
        BuilderOp.AppendLine "[UClass]",
        BuilderOp.DeclareType "class" ScriptClassName (some (GetSuperClassName H Class))
          (some Class.CLASS_Abstract) (some true) Ifs.1.1,
        BuilderOp.AppendEmptyLine]
    ++ ExportStaticConstructor H (UStructObject.Class Class) ExportedProperties
        ExportedFunctions ExportedOverridableFunctions
    ++ [BuilderOp.AppendEmptyLine,
        BuilderOp.AppendLine ("protected " ++ ScriptClassName
          ++ "(IntPtr nativeObject) : base(nativeObject)"),
        BuilderOp.OpenBrace,
        BuilderOp.CloseBrace]
    ++ ExportClassProperties P ⟨Id, true⟩ ExportedProperties
    ++ ClassFuncs.1
    ++ ExportClassOverridableFunctions ExportedOverridableFunctions
    ++ [BuilderOp.AppendEmptyLine, BuilderOp.CloseBrace],
   ClassFuncs.2)

/-- `ExportClass`; `GenerateGlueForTypeForced st Super` stands for the call
`GenerateGlueForType(SuperClass, true)` (`none`: the recursion budget is used up). -/
def ExportClass (P : FCSPolicy) (H : FHost)
    (GenerateGlueForTypeForced : FCSGenerator → ObjId → Option FCSGenerator)
    (st : FCSGenerator) (Id : ObjId) (Class : UClass) (Builder : FCSScriptBuilder) :
    Option (FCSScriptBuilder × FCSGenerator) :=
  if st.ExportedTypes.contains Id then some (Builder, st)
  else
    let st := { st with ExportedTypes := st.ExportedTypes ++ [Id] }
    let Builder := Builder ++ [BuilderOp.AppendLine "// This file is automatically generated"]
    let AfterSuper : Option FCSGenerator :=
      match Class.SuperClass with
      | some SuperClass => GenerateGlueForTypeForced st SuperClass
      | none => some st
    match AfterSuper with
    | none => none
    | some st => some (ExportClassBody P H st Id Class Builder)

/-! ## Persistence -/

def SaveGlue (H : FHost) (st : FCSGenerator) (Bindings : FCSModule) (Filename : FString)
    (GeneratedGlue : FCSScriptBuilder) : FCSGenerator :=
  let BindingsSourceDirectory := Bindings.GeneratedSourceDirectory
  if !H.CreateDirectoryTree BindingsSourceDirectory then
    { st with Persistence :=
        st.Persistence ++ [PersistenceCall.CreateDirectoryTreeFailed BindingsSourceDirectory] }
  else
    let GlueOutputPath := FPaths.Combine BindingsSourceDirectory Filename
    { st with Persistence :=
        st.Persistence ++ [PersistenceCall.SaveFileIfChanged GlueOutputPath GeneratedGlue] }

def SaveTypeGlue (H : FHost) (st : FCSGenerator) (Id : ObjId) (Object : UObjectBase)
    (ScriptBuilder : FCSScriptBuilder) : FCSGenerator :=
  let st := { st with Persistence :=
                st.Persistence ++ [PersistenceCall.SaveTypeGlue Id ScriptBuilder] }
  let BindingsPtr := FindOrRegisterModule H st Object.ModuleFName
  let FileName := Object.Name ++ ".generated.cs"
  SaveGlue H BindingsPtr.2 BindingsPtr.1 FileName ScriptBuilder

/-! ## The orchestrator -/

/-- The end of `GenerateGlueForType`: nothing is saved for an empty builder. -/
def FinishGlueForType (H : FHost) (st : FCSGenerator) (Id : ObjId) (Object : UObjectBase)
    (Builder : FCSScriptBuilder) : FCSGenerator :=
  if Builder.IsEmpty then st else SaveTypeGlue H st Id Object Builder

/-- The body of `GenerateGlueForType`, with the recursive call made by `ExportClass` as a
parameter.  An id outside the graph names no object and nothing is generated for it. -/
def GenerateGlueForTypeBody (P : FCSPolicy) (H : FHost) (G : ObjectGraph)
    (GenerateGlueForTypeForced : FCSGenerator → ObjId → Option FCSGenerator)
    (st : FCSGenerator) (Object : ObjId) (bForceExport : Bool) : Option FCSGenerator :=
  if st.ExportedTypes.contains Object then some st
  else
    match G.get? Object with
    | none => some st
    | some Obj =>
      if Obj.Base.InTransientPackage then some st
      else
        match Obj with
        | UObject.Class Class =>
          if Class.RF_ClassDefaultObject then some st
          else if Class.RF_Transient && Class.CLASS_CompiledFromBlueprint then some st
          else if Class.CLASS_NewerVersionExists then some st
          else if (Class.Base.Name.Find "TRASH_").isSome then some st
          else if (Class.Base.Name.Find "REINST_").isSome then some st
          else
            let st := RegisterClassToModule H st Class.Base.ModuleFName
            if Class.IsChildOfUInterface then
              let r := ExportInterface P H st Object Class []
              some (FinishGlueForType H r.2 Object Class.Base r.1)
            else if bForceExport || Class.ShouldExportClass then
              match ExportClass P H GenerateGlueForTypeForced st Object Class [] with
              | none => none
              | some r => some (FinishGlueForType H r.2 Object Class.Base r.1)
            else some (FinishGlueForType H st Object Class.Base [])
        | UObject.ScriptStruct Struct =>
          if bForceExport || Struct.ShouldExportStruct then
            let r := ExportStruct P H st Object Struct []
            some (FinishGlueForType H r.2 Object Struct.Base r.1)
          else some (FinishGlueForType H st Object Struct.Base [])
        | UObject.Enum Enum =>
          if bForceExport || Enum.ShouldExportEnum then
            let r := ExportEnum P H st Object Enum []
            some (FinishGlueForType H r.2 Object Enum.Base r.1)
          else some (FinishGlueForType H st Object Enum.Base [])
        | UObject.Other O => some (FinishGlueForType H st Object O [])

/-- `GenerateGlueForType`; the first argument bounds the depth of the recursion through
`ExportClass` into superclasses, and the result is `none` when that bound is exceeded. -/
def GenerateGlueForType (P : FCSPolicy) (H : FHost) (G : ObjectGraph) :
    Nat → FCSGenerator → ObjId → Bool → Option FCSGenerator
  | 0, st, Object, bForceExport =>
    GenerateGlueForTypeBody P H G (fun _ _ => none) st Object bForceExport
  | Depth + 1, st, Object, bForceExport =>
    GenerateGlueForTypeBody P H G
      (fun st2 SuperClass => GenerateGlueForType P H G Depth st2 SuperClass true)
      st Object bForceExport

/-- The loop of `GenerateGlueForTypes`. -/
def GenerateGlueForTypesLoop (P : FCSPolicy) (H : FHost) (G : ObjectGraph) (Depth : Nat) :
    FCSGenerator → List ObjId → Option FCSGenerator
  | st, [] => some st
  | st, ObjectToProcess :: Rest =>
    match GenerateGlueForType P H G Depth st ObjectToProcess false with
    | none => none
    | some st2 => GenerateGlueForTypesLoop P H G Depth st2 Rest

def GenerateGlueForTypes (P : FCSPolicy) (H : FHost) (G : ObjectGraph) (Depth : Nat)
    (st : FCSGenerator) (ObjectsToProcess : List ObjId) : Option FCSGenerator :=
  match GenerateGlueForTypesLoop P H G Depth st ObjectsToProcess with
  | none => none
  | some st2 =>
    some { st2 with Persistence := st2.Persistence ++ [PersistenceCall.RenameTempFiles] }

/-! ## Module events -/

inductive EModuleChangeReason where
  | ModuleLoaded
  | ModuleUnloaded
  | PluginDirectoryChanged
  deriving DecidableEq, Repr

/-- `OnModulesChanged`; `FindPackage Path` is `none` when the engine finds no package at the
path, and otherwise the objects `GetObjectsWithPackage` returns for it. -/
def OnModulesChanged (P : FCSPolicy) (H : FHost) (G : ObjectGraph) (Depth : Nat)
    (FindPackage : FString → Option (List ObjId)) (st : FCSGenerator) (InModuleName : FName)
    (InModuleChangeReason : EModuleChangeReason) : Option FCSGenerator :=
  if InModuleChangeReason != EModuleChangeReason.ModuleLoaded then some st
  else
    match FindPackage ("/Script/" ++ InModuleName) with
    | none => some st
    | some ObjectsToProcess => GenerateGlueForTypes P H G Depth st ObjectsToProcess

/-! ## Start-up -/

/-- Modelled from the spec: `FCSInclusionLists` is declared outside this file; a list is kept
as its entries, keyed by the name of a type, by (type, member) pairs and by
(type, category) pairs, in the order added. -/
structure FCSInclusionEntries where
  Classes : List FName
  Structs : List FName
  Enums : List FName
  Properties : List (FName × FName)
  Functions : List (FName × FName)
  FunctionCategories : List (FName × FString)
  deriving DecidableEq, Repr

def FCSInclusionEntries.Empty : FCSInclusionEntries :=
  { Classes := [], Structs := [], Enums := [], Properties := [], Functions := [],
    FunctionCategories := [] }

def FCSInclusionEntries.AddClass (L : FCSInclusionEntries) (ClassName : FName) :
    FCSInclusionEntries :=
  { L with Classes := L.Classes ++ [ClassName] }

def FCSInclusionEntries.AddStruct (L : FCSInclusionEntries) (StructName : FName) :
    FCSInclusionEntries :=
  { L with Structs := L.Structs ++ [StructName] }

def FCSInclusionEntries.AddFunction (L : FCSInclusionEntries) (StructName FunctionName : FName) :
    FCSInclusionEntries :=
  { L with Functions := L.Functions ++ [(StructName, FunctionName)] }

def FCSInclusionEntries.AddFunctionCategory (L : FCSInclusionEntries) (StructName : FName)
    (Category : FString) : FCSInclusionEntries :=
  { L with FunctionCategories := L.FunctionCategories ++ [(StructName, Category)] }

/-- The name of the object with the given identity (`GetFName()`). -/
def ObjectFName (G : ObjectGraph) (Id : ObjId) : Option FName :=
  (G.get? Id).map (fun Obj => Obj.Base.Name)

/-- Engine metadata key of a function's category. -/
def MD_FunctionCategory : FName := "Category"

/-- Modelled from the spec: the `Has...` queries of `FCSInclusionLists`, answered from the
entries by the names of the objects asked about; a function is also in the list when its
category is listed for the type. -/
def FCSInclusionEntries.Queries (G : ObjectGraph) (L : FCSInclusionEntries) :
    FCSInclusionLists :=
  { HasClass := fun Id =>
      match ObjectFName G Id with
      | some Name => L.Classes.contains Name
      | none => false
    HasStruct := fun Id =>
      match ObjectFName G Id with
      | some Name => L.Structs.contains Name
      | none => false
    HasEnum := fun Id =>
      match ObjectFName G Id with
      | some Name => L.Enums.contains Name
      | none => false
    HasProperty := fun Struct Property =>
      match ObjectFName G Struct.Id with
      | some Name => L.Properties.contains (Name, Property.Name)
      | none => false
    HasFunction := fun Struct Function =>
      match ObjectFName G Struct.Id with
      | some Name =>
        L.Functions.contains (Name, Function.Name)
          || (Function.HasMetaData MD_FunctionCategory
              && L.FunctionCategories.contains (Name, Function.GetMetaData MD_FunctionCategory))
      | none => false }

/-- The generator object: the initialisation flag, the four inclusion lists, and the other
members. -/
structure FCSGeneratorInstance where
  Initialized : Bool
  Blacklist : FCSInclusionEntries
  Whitelist : FCSInclusionEntries
  Greylist : FCSInclusionEntries
  BlueprintInternalWhitelist : FCSInclusionEntries
  Members : FCSGenerator
  deriving DecidableEq, Repr

/-- The lists of a generator object as the export functions consult them. -/
def FCSGeneratorInstance.Policy (G : ObjectGraph) (Gen : FCSGeneratorInstance) : FCSPolicy :=
  { Blacklist := Gen.Blacklist.Queries G
    Whitelist := Gen.Whitelist.Queries G
    Greylist := Gen.Greylist.Queries G
    BlueprintInternalWhitelist := Gen.BlueprintInternalWhitelist.Queries G }

/-- Names of the engine types `StartGenerator` refers to (`StaticClass()->GetFName()`). -/
def FSolverIterations_FName : FName := "SolverIterations"
def UKismetMathLibrary_FName : FName := "KismetMathLibrary"
def USpringArmComponent_FName : FName := "SpringArmComponent"
def UFloatingPawnMovement_FName : FName := "FloatingPawnMovement"
def AActor_FName : FName := "Actor"
def UserConstructionScript_FName : FName := "UserConstructionScript"

/-- `StartGenerator` up to the registration for module events: the flag, the output
directory and the inclusion lists. -/
def StartGeneratorLists (Gen : FCSGeneratorInstance) (OutputDirectory : FString) :
    FCSGeneratorInstance :=
  { Initialized := true
    Blacklist :=
      ((Gen.Blacklist.AddClass "AnimationBlueprintLibrary").AddStruct
        FSolverIterations_FName).AddFunctionCategory UKismetMathLibrary_FName "Math|Vector4"
    Whitelist :=
      (Gen.Whitelist.AddClass USpringArmComponent_FName).AddClass UFloatingPawnMovement_FName
    Greylist := Gen.Greylist
    BlueprintInternalWhitelist :=
      Gen.BlueprintInternalWhitelist.AddFunction AActor_FName UserConstructionScript_FName
    Members := { Gen.Members with GeneratedScriptsDirectory := OutputDirectory } }

/-- `StartGenerator`; `UInterfaceClass` and `UObjectClass` are `UInterface::StaticClass()` and
`UObject::StaticClass()`, `FieldObjects` is what `GetObjectsOfClass(UField::StaticClass())`
returns. -/
def StartGenerator (H : FHost) (G : ObjectGraph) (Depth : Nat)
    (UInterfaceClass UObjectClass : ObjId) (FieldObjects : List ObjId)
    (Gen : FCSGeneratorInstance) (OutputDirectory : FString) : Option FCSGeneratorInstance :=
  if Gen.Initialized then some Gen
  else
    let Gen := StartGeneratorLists Gen OutputDirectory
    match GenerateGlueForType (Gen.Policy G) H G Depth Gen.Members UInterfaceClass true with
    | none => none
    | some st1 =>
      match GenerateGlueForType (Gen.Policy G) H G Depth st1 UObjectClass true with
      | none => none
      | some st2 =>
        match GenerateGlueForTypes (Gen.Policy G) H G Depth st2 FieldObjects with
        | none => none
        | some st3 => some { Gen with Members := st3 }

/-! # Statements of the specification -/

/-- The line the specification promises for the entry at native index `i` of an enum with
`ValueCount` entries: `Name=i,` when the entry policy accepts and the entry is not the last
one with a name ending in `MAX`. -/
def EnumLineBySpec (ValueCount : Nat) (ie : Nat × UEnumEntry) : Option BuilderOp :=
  if ie.2.ShouldExportEnumEntry
      && !(ie.1 == ValueCount - 1 && (RawEnumName ie.2.Name).EndsWith "MAX") then
    some (BuilderOp.AppendLine (RawEnumName ie.2.Name ++ "=" ++ toString ie.1 ++ ","))
  else none

/-- The line `ExportEnum` emits for the entry at native index `i`: as `EnumLineBySpec`, and
the stripped name must not be empty. -/
def EnumLineEmitted (ValueCount : Nat) (ie : Nat × UEnumEntry) : Option BuilderOp :=
  if (RawEnumName ie.2.Name).IsEmpty then none else EnumLineBySpec ValueCount ie

/-- The receiver the specification names, by strict precedence: the first declared parameter
when the function carries the extension-method marker; otherwise the parameter named by a
default-to-self hint, when the hint names a parameter; otherwise the parameter named by a
world-context hint; otherwise none. -/
def ReceiverBySpec (F : UFunction) : Option FProperty :=
  if F.HasMetaData ScriptMethodMetaDataKey then F.ChildProperties.head?
  else if F.HasMetaData MD_DefaultToSelf
      && (F.FindPropertyByName (F.GetMetaData MD_DefaultToSelf)).isSome then
    F.FindPropertyByName (F.GetMetaData MD_DefaultToSelf)
  else if F.HasMetaData MD_WorldContext then
    F.FindPropertyByName (F.GetMetaData MD_WorldContext)
  else none

/-- The receiver chosen by the marker rule or the default-to-self rule, if any. -/
def ReceiverBeforeWorldContext (F : UFunction) : Option FProperty :=
  if F.HasMetaData ScriptMethodMetaDataKey && !F.ChildProperties.isEmpty then
    F.ChildProperties.head?
  else if F.HasMetaData MD_DefaultToSelf then
    F.FindPropertyByName (F.GetMetaData MD_DefaultToSelf)
  else none

/-- The call is the static-construction entry of a property with the given managed name. -/
def BuilderOp.IsStaticConstructionFor (ManagedName : FString) : BuilderOp → Bool
  | BuilderOp.ExportPropertyStaticConstruction Property _ => Property.ManagedName == ManagedName
  | _ => false

/-- The two managed names are the same up to the case of letters. -/
def SameUpToCase (A B : FString) : Bool := A.CaseInsensitiveKey == B.CaseInsensitiveKey

/-- The call is the static-construction entry of a property whose managed name is the given
one up to the case of letters. -/
def BuilderOp.IsStaticConstructionUpToCase (ManagedName : FString) : BuilderOp → Bool
  | BuilderOp.ExportPropertyStaticConstruction Property _ =>
    SameUpToCase Property.ManagedName ManagedName
  | _ => false

def BuilderOp.IsStaticConstruction : BuilderOp → Bool
  | BuilderOp.ExportPropertyStaticConstruction _ _ => true
  | _ => false

/-- The property a read entry (marshal from the native buffer) is emitted for. -/
def BuilderOp.ReadEntry : BuilderOp → Option FProperty
  | BuilderOp.ExportMarshalFromNativeBuffer Property _ _ _ _ => some Property
  | _ => none

/-- The property a write entry (marshal to the native buffer) is emitted for. -/
def BuilderOp.WriteEntry : BuilderOp → Option FProperty
  | BuilderOp.ExportMarshalToNativeBuffer Property _ _ _ _ => some Property
  | _ => none

/-- The four pieces of marshalling code of a non-blittable struct, by their opening lines:
static constructor, native-buffer-reading constructor, `ToNative` writer, marshaller unit. -/
def StaticConstructorLine (Struct : UScriptStruct) : BuilderOp :=
  BuilderOp.AppendLine ("static " ++ Struct.TypeScriptName ++ "()")

def NativeBufferConstructorLine (Struct : UScriptStruct) : BuilderOp :=
  BuilderOp.AppendLine ("public " ++ Struct.StructScriptName ++ "(IntPtr InNativeStruct)")

def ToNativeWriterLine : BuilderOp :=
  BuilderOp.AppendLine "public void ToNative(IntPtr Buffer)"

def MarshalerUnitLine (Struct : UScriptStruct) : BuilderOp :=
  BuilderOp.AppendLine ("public static class " ++ Struct.StructScriptName ++ "Marshaler")

/-- The struct attribute that carries `IsBlittable = true`. -/
def BlittableAttribute : BuilderOp :=
  BuilderOp.AppendAttribute { Attributes := ["UStruct"], Arguments := ["IsBlittable = true"] }

/-- The calls `ExportStruct` makes on a fresh builder. -/
def ExportStructOps (P : FCSPolicy) (H : FHost) (st : FCSGenerator) (Id : ObjId)
    (Struct : UScriptStruct) : FCSScriptBuilder :=
  (ExportStruct P H st Id Struct []).1

/-- The policy gate of the specification for a property: not excluded, or excluded but
force-included. -/
def PropertyPolicyGate (P : FCSPolicy) (Struct : UStruct) (Property : FProperty) : Prop :=
  P.Blacklist.HasProperty Struct Property = false
    ∨ (P.Blacklist.HasProperty Struct Property = true
        ∧ P.Whitelist.HasProperty Struct Property = true)

/-- The capability gate of the specification for a property: its translator is supported as
a settable property for a class owner, as a struct field for a struct owner, and accepts the
property. -/
def PropertyCapabilityGate (Struct : UStruct) (Property : FProperty) : Prop :=
  (if Struct.IsClass then Property.Handler.IsSupportedAsProperty = true
   else Property.Handler.IsSupportedAsStructProperty = true)
    ∧ Property.Handler.CanHandleProperty = true

/-- A class that `GenerateGlueForType` skips by one of its guards for classes: a
default-object instance, a compiler-intermediate skeleton, a superseded version, or a name
containing `TRASH_` or `REINST_`. -/
def UClass.IsSkipped (Class : UClass) : Prop :=
  Class.RF_ClassDefaultObject = true
    ∨ (Class.RF_Transient = true ∧ Class.CLASS_CompiledFromBlueprint = true)
    ∨ Class.CLASS_NewerVersionExists = true
    ∨ List.IsInfix "TRASH_".data Class.Base.Name.data
    ∨ List.IsInfix "REINST_".data Class.Base.Name.data

/-- The class reaches `ExportClass` when `GenerateGlueForType` is called on it with
`bForceExport` and it is not exported yet: it is outside the transient package, passes the
guards for classes, is not an interface class, and is forced or policy-eligible. -/
def UClass.ReachesExportClass (Class : UClass) (bForceExport : Bool) : Prop :=
  Class.Base.InTransientPackage = false ∧ ¬ Class.IsSkipped
    ∧ Class.IsChildOfUInterface = false
    ∧ (bForceExport || Class.ShouldExportClass) = true

/-- The unit of an object was handed to persistence: `SaveTypeGlue` was called for it. -/
def UnitSaved (Calls : List PersistenceCall) (Object : ObjId) : Prop :=
  ∃ Glue, PersistenceCall.SaveTypeGlue Object Glue ∈ Calls

/-- What a run of the generator does to the exported-type set and to the persistence trace:
both only grow at the end, and every type that entered the set had its unit handed to
persistence during the run. -/
def Extends (Before After : FCSGenerator) : Prop :=
  ∃ (NewTypes : List ObjId) (NewCalls : List PersistenceCall),
    After.ExportedTypes = Before.ExportedTypes ++ NewTypes
    ∧ After.Persistence = Before.Persistence ++ NewCalls
    ∧ ∀ T ∈ NewTypes, UnitSaved NewCalls T

/-- The step changes neither the exported-type set nor the persistence trace. -/
def Frame (Before After : FCSGenerator) : Prop :=
  After.ExportedTypes = Before.ExportedTypes ∧ After.Persistence = Before.Persistence

/-- Number of objects of the graph that are not in the exported-type set. -/
def Unexported (G : ObjectGraph) (Exported : List ObjId) : Nat :=
  (List.range G.length).countP (fun i => !Exported.contains i)

/-- The recursive call `GenerateGlueForType(SuperClass, true)` as `GenerateGlueForType`
passes it to `ExportClass` at a given depth bound. -/
def SuperCall (P : FCSPolicy) (H : FHost) (G : ObjectGraph) :
    Nat → FCSGenerator → ObjId → Option FCSGenerator
  | 0 => fun _ _ => none
  | Depth + 1 => fun st2 SuperClass => GenerateGlueForType P H G Depth st2 SuperClass true

/-- The state in which `ExportClass` visits the superclass: the class is registered to its
module and has entered the exported-type set. -/
def EnterExportClass (H : FHost) (st : FCSGenerator) (Id : ObjId) (Class : UClass) :
    FCSGenerator :=
  { RegisterClassToModule H st Class.Base.ModuleFName with
    ExportedTypes := (RegisterClassToModule H st Class.Base.ModuleFName).ExportedTypes ++ [Id] }

/-- The state `GenerateGlueForType` returns once the superclass visit has returned `st3`:
the rest of `ExportClass`, then the save of the unit. -/
def LeaveExportClass (P : FCSPolicy) (H : FHost) (st3 : FCSGenerator) (Id : ObjId)
    (Class : UClass) : FCSGenerator :=
  FinishGlueForType H
    (ExportClassBody P H st3 Id Class
      [BuilderOp.AppendLine "// This file is automatically generated"]).2 Id Class.Base
    (ExportClassBody P H st3 Id Class
      [BuilderOp.AppendLine "// This file is automatically generated"]).1

def PersistenceCall.SavedObject : PersistenceCall → Option ObjId
  | PersistenceCall.SaveTypeGlue Object _ => some Object
  | _ => none

/-- The objects whose units were handed to persistence, in order. -/
def SavedUnits (st : FCSGenerator) : List ObjId :=
  st.Persistence.filterMap PersistenceCall.SavedObject

/-- A property is supported as a function parameter: array dimension 1, its translator is
supported as a parameter and accepts it. -/
def ParameterIsSupported (Property : FProperty) : Bool :=
  Property.ArrayDim == 1 && Property.Handler.IsSupportedAsParameter
    && Property.Handler.CanHandleProperty

/-- A property is supported as a return value: array dimension 1, its translator is
supported as a return value and accepts it. -/
def ReturnValueIsSupported (Property : FProperty) : Bool :=
  Property.ArrayDim == 1 && Property.Handler.IsSupportedAsReturnValue
    && Property.Handler.CanHandleProperty

/-- The parameters declared before the first return-flagged one. -/
def ParametersBeforeReturn (F : UFunction) : List FProperty :=
  F.ChildProperties.takeWhile (fun Param => !Param.CPF_ReturnParm)

/-- The function is marked latent or internal-only. -/
def IsLatentOrInternalOnly (F : UFunction) : Bool :=
  F.HasMetaData MD_Latent || F.HasMetaData MD_BlueprintInternalUseOnly

/-- The policy gate of the specification for a function: not excluded, or excluded but
force-included. -/
def FunctionPolicyGate (P : FCSPolicy) (Struct : UStruct) (F : UFunction) : Prop :=
  P.Blacklist.HasFunction Struct F = false
    ∨ (P.Blacklist.HasFunction Struct F = true ∧ P.Whitelist.HasFunction Struct F = true)

/-- The capability gate as the specification states it: the return value, if any, is
supported as a return value and every parameter is supported as a function parameter. -/
def FunctionCapabilityGateBySpec (F : UFunction) : Bool :=
  (match F.ReturnProperty with
    | some ReturnProperty => ReturnValueIsSupported ReturnProperty
    | none => true)
  && (F.ChildProperties.filter (fun Param => !Param.CPF_ReturnParm)).all ParameterIsSupported

/-- The capability gate as `CanExportFunctionParameters` checks it: the return value, if any,
and the parameters declared before the first return-flagged one. -/
def FunctionCapabilityGate (F : UFunction) : Bool :=
  (match F.ReturnProperty with
    | some ReturnProperty => ReturnValueIsSupported ReturnProperty
    | none => true)
  && (ParametersBeforeReturn F).all ParameterIsSupported

/-- The answer of `CanExportFunction`, which does not depend on the diagnostic counters. -/
def CanExportFunctionAnswer (P : FCSPolicy) (Struct : UStruct) (F : UFunction) : Bool :=
  if (P.Blacklist.HasFunction Struct F && !P.Whitelist.HasFunction Struct F)
      || !F.ShouldExportFunction then false
  else if IsLatentOrInternalOnly F then P.BlueprintInternalWhitelist.HasFunction Struct F
  else FunctionCapabilityGate F

/-- The object with the given identity is a class. -/
def IsClassObject (G : ObjectGraph) (T : ObjId) : Prop :=
  ∃ Class, G.get? T = some (UObject.Class Class)

/-- The run only appends to the persistence trace, and never a commit. -/
def WritesOnly (Before After : FCSGenerator) : Prop :=
  ∃ Writes, After.Persistence = Before.Persistence ++ Writes
    ∧ PersistenceCall.RenameTempFiles ∉ Writes

/-- Every member the run adds to the exported-type set is a class. -/
def AddsOnlyClasses (G : ObjectGraph) (Before After : FCSGenerator) : Prop :=
  ∀ T ∈ After.ExportedTypes, T ∈ Before.ExportedTypes ∨ IsClassObject G T

/-- The condition under which `GenerateGlueForType` produces a unit for an enum: the enum is
forced or policy-eligible, and whitelisted or not blacklisted. -/
def EnumIsExported (P : FCSPolicy) (Id : ObjId) (Enum : UEnum) (bForceExport : Bool) : Bool :=
  (bForceExport || Enum.ShouldExportEnum) && (P.Whitelist.HasEnum Id || !P.Blacklist.HasEnum Id)

/-- The function a builder call declares in an interface, when it is such a call. -/
def BuilderOp.InterfaceFunction : BuilderOp → Option UFunction
  | BuilderOp.ExportInterfaceFunction Function => some Function
  | _ => none

/-- The internal allow list as `StartGenerator` leaves it on a newly constructed generator:
the one entry for `AActor::UserConstructionScript`. -/
def StartedInternalAllowList : FCSInclusionEntries :=
  { FCSInclusionEntries.Empty with
    Functions := [(AActor_FName, UserConstructionScript_FName)] }

/-- The internal allow list of a generator object in use: empty as constructed, until
`StartGenerator` has run. -/
def InternalAllowListAsConstructed (Gen : FCSGeneratorInstance) : Prop :=
  Gen.BlueprintInternalWhitelist
    = if Gen.Initialized then StartedInternalAllowList else FCSInclusionEntries.Empty

/-- The value of a diagnostic counter for a property kind; a kind never counted stands at 0. -/
def CounterValue (Counters : List (FName × Nat)) (Kind : FName) : Nat :=
  (Counters.lookup Kind).getD 0

/-- Between two states of a counter map the counter of `Kind` went up by one and every
other counter kept its value. -/
def TalliedOnce (Before After : List (FName × Nat)) (Kind : FName) : Prop :=
  CounterValue After Kind = CounterValue Before Kind + 1
    ∧ ∀ Other, Other ≠ Kind → CounterValue After Other = CounterValue Before Other

/-- The policy test at the head of `CanExportProperty`: the property is not blacklisted, and
it is exportable by the shared test or whitelisted, by itself or through its owner. -/
def PropertyPassesPolicyTest (P : FCSPolicy) (Struct : UStruct) (Property : FProperty) : Bool :=
  !P.Blacklist.HasProperty Struct Property
    && (CanExportPropertyShared Property || P.Whitelist.HasProperty Struct Property
        || P.Whitelist.HasStruct Struct.Id)

/-- The function with its declared properties cut off at the first return-flagged one. -/
def UFunction.UpToReturn (F : UFunction) : UFunction :=
  { F with ChildProperties := ParametersBeforeReturn F }

/-- What a run does to the exported-type set when every class enters `ExportClass` at most
once: the set grows at the end by types that were not in it, none of them twice. -/
def EntersOnce (Before After : FCSGenerator) : Prop :=
  ∃ NewTypes : List ObjId, After.ExportedTypes = Before.ExportedTypes ++ NewTypes
    ∧ NewTypes.Nodup ∧ ∀ T ∈ NewTypes, T ∉ Before.ExportedTypes

/-- Every entry of the module registry holds the module of the name it is filed under, as
`FindOrRegisterModule` files it. -/
def RegistryKeyed (st : FCSGenerator) : Prop :=
  ∀ Entry ∈ st.CSharpBindingsModules, Entry.2.ModuleName = Entry.1

/-- The extension-method list of a module; a module without an entry has none. -/
def ModuleExtensionMethods (st : FCSGenerator) (ModuleName : FName) : List ExtensionMethod :=
  (st.ExtensionMethods.lookup ModuleName).getD []

/-- The descriptors of the functions that are static, belong to a function-library class and
have a receiver, in the order of the functions. -/
def ExtensionDescriptors (IsBlueprintFunctionLibrary : Bool) (ExportedFunctions : List UFunction) :
    List ExtensionMethod :=
  ExportedFunctions.filterMap (fun Function =>
    if Function.FUNC_Static && IsBlueprintFunctionLibrary then GetExtensionMethodInfo Function
    else none)

/-- The name is an identifier: letters, digits and underscores. -/
def IsIdentifier (Name : FString) : Bool :=
  Name.data.all (fun c => c.isAlphanum || c == '_')

/-- The text of a line before its first `=`: what the line assigns to, with the type in
front when the line declares it, and the blank before the `=`; `none` for a line
without `=`. -/
def LineTarget (Line : FString) : Option FString :=
  if Line.data.contains '=' then some (String.mk (Line.data.takeWhile (fun c => c != '=')))
  else none

/-- The assignment target of an appended line; other builder calls are no assignments. -/
def BuilderOp.Target : BuilderOp → Option FString
  | BuilderOp.AppendLine Line => LineTarget Line
  | _ => none

/-- The assignment targets of the lines of a piece of code, in order. -/
def AssignmentTargets (Builder : FCSScriptBuilder) : List FString :=
  Builder.filterMap BuilderOp.Target

/-- An appended line without an assignment, as its text; other builder calls and
assignments are none. -/
def BuilderOp.PlainLine : BuilderOp → Option FString
  | BuilderOp.AppendLine Line => if (LineTarget Line).isNone then some Line else none
  | _ => none

/-- The lines of a piece of code that assign nothing (declarations and headers), in order. -/
def PlainLines (Builder : FCSScriptBuilder) : List FString :=
  Builder.filterMap BuilderOp.PlainLine

/-- The target is a native-function-handle variable (`..._NativeFunction`). -/
def IsFunctionHandleTarget (Target : FString) : Bool :=
  "_NativeFunction ".data.isSuffixOf Target.data

/-- The target is a parameter-block-size variable (`..._ParamsSize`). -/
def IsParamsSizeTarget (Target : FString) : Bool :=
  "_ParamsSize ".data.isSuffixOf Target.data

/-- The per-parameter lookup a builder call is, when it is one: the native method name and
the parameter. -/
def BuilderOp.ParameterLookup : BuilderOp → Option (FString × FProperty)
  | BuilderOp.ExportParameterStaticConstruction NativeMethodName Property =>
    some (NativeMethodName, Property)
  | _ => none

/-- The per-parameter lookups of a function: one for each of its declared properties. -/
def ParameterLookupsOf (Function : UFunction) : List (FString × FProperty) :=
  Function.ChildProperties.map (fun Property => (Function.Name, Property))

/-- The function has parameters (`NumParms > 0`). -/
def UFunction.HasParms (Function : UFunction) : Bool := decide (0 < Function.NumParms)

/-- The assignment targets of the lookups of a normal function: the handle, and the
parameter-block size when the function has parameters. -/
def FunctionTargets (Function : UFunction) : List FString :=
  (Function.Name ++ "_NativeFunction ")
    :: (if Function.HasParms then [Function.Name ++ "_ParamsSize "] else [])

/-- The assignment targets of the lookups of an overridable function: none without
parameters, otherwise the handle, declared in place, and the parameter-block size. -/
def OverridableTargets (Function : UFunction) : List FString :=
  if Function.HasParms then
    ["IntPtr " ++ Function.Name ++ "_NativeFunction ", Function.Name ++ "_ParamsSize "]
  else []

/-- The assignment target of the line that sets `NativeClassPtr`: typed when the line
declares it as a local. -/
def NativeClassPtrTarget (bHasStaticFunctions : Bool) : FString :=
  (if bHasStaticFunctions then "" else "IntPtr ") ++ "NativeClassPtr "

/-- The line that declares `NativeClassPtr` as a field. -/
def NativeClassPtrFieldLine : FString := "static readonly IntPtr NativeClassPtr;"

/-- The line that declares the `NativeDataSize` field of a struct. -/
def NativeDataSizeFieldLine : FString := "public static readonly int NativeDataSize;"

/-- The line that sets `NativeClassPtr` inside the static constructor. -/
def NativeClassPtrLine (H : FHost) (Struct : UStructObject) (bHasStaticFunctions : Bool) :
    BuilderOp :=
  BuilderOp.AppendLine ((if bHasStaticFunctions then "" else "IntPtr ")
    ++ "NativeClassPtr = " ++ H.CoreUObjectCallbacks ++ ".CallGetNative"
    ++ (if Struct.IsClass then "Class" else "Struct") ++ "FromName(\""
    ++ Struct.GetName ++ "\");")

/-- The field declarations `ExportStaticConstructor` puts in front of the constructor. -/
def StaticConstructorFields (Struct : UStructObject) (bHasStaticFunctions : Bool) :
    List FString :=
  (if bHasStaticFunctions then [NativeClassPtrFieldLine] else [])
    ++ (if Struct.IsClass then [] else [NativeDataSizeFieldLine])

/-- `ExportStaticConstructor` emits nothing: a class without exported properties, functions
and overridable functions. -/
def StaticConstructorIsEmpty (Struct : UStructObject) (Ps : List FProperty)
    (Fs Os : List UFunction) : Bool :=
  Struct.IsClass && (Ps.isEmpty && Fs.isEmpty && Os.isEmpty)

def exBase (Name : FString) : UObjectBase :=
  { Name := Name, InTransientPackage := false, ModuleFName := "Engine" }

/-- An enum with entries `[A, B (skipped), C, MAX]`. -/
def exEnumABC : UEnum :=
  { Base := exBase "ETest"
    ShouldExportEnum := true
    Entries := [⟨"ETest::A", true⟩, ⟨"ETest::B", false⟩, ⟨"ETest::C", true⟩,
                ⟨"ETest::MAX", true⟩] }

/-- An enum whose only entry has nothing after the qualifier. -/
def exEnumEmptyName : UEnum :=
  { Base := exBase "EOdd"
    ShouldExportEnum := true
    Entries := [⟨"EOdd::", true⟩] }

def exHandler : FPropertyTranslator :=
  { IsSupportedAsProperty := true
    IsSupportedAsStructProperty := true
    IsSupportedAsParameter := true
    IsSupportedAsReturnValue := true
    IsSupportedAsOverridableFunctionParameter := true
    IsSupportedAsOverridableFunctionReturnValue := true
    IsSupportedInStaticArray := false
    CanHandleProperty := true }

def exProperty (Name : FName) : FProperty :=
  { Name := Name
    ClassFName := "ObjectProperty"
    ArrayDim := 1
    CPF_ReturnParm := false
    CPF_Deprecated := false
    ShouldExportProperty := true
    OutermostIsClass := true
    ManagedName := Name
    Handler := exHandler }

def exFunction (Name : FName) (MetaData : List (FName × FString))
    (Params : List FProperty) : UFunction :=
  { Name := Name
    MetaData := MetaData
    FUNC_Static := true
    FUNC_BlueprintEvent := false
    ShouldExportFunction := true
    NumParms := Params.length
    ReturnProperty := none
    ChildProperties := Params }

/-- A library function without any metadata whose parameter is named `WorldContext`. -/
def exUnannotated : UFunction :=
  exFunction "GetGameMode" [] [exProperty "WorldContext"]

/-- A marked function whose first parameter is named `WorldContextObject`. -/
def exMarkedWorldContext : UFunction :=
  exFunction "GetPlayer" [("ScriptMethod", "")]
    [exProperty "WorldContextObject", exProperty "Index"]

/-- An inclusion list without entries. -/
def exEmptyList : FCSInclusionLists :=
  { HasClass := fun _ => false
    HasStruct := fun _ => false
    HasEnum := fun _ => false
    HasProperty := fun _ _ => false
    HasFunction := fun _ _ => false }

/-- A policy whose blacklist holds the enum that is object 0, and nothing else. -/
def exPolicyEnumBlacklisted : FCSPolicy :=
  { Blacklist := { exEmptyList with HasEnum := fun Id => Id == 0 }
    Whitelist := exEmptyList
    Greylist := exEmptyList
    BlueprintInternalWhitelist := exEmptyList }

def exPolicy : FCSPolicy :=
  { Blacklist := exEmptyList
    Whitelist := exEmptyList
    Greylist := exEmptyList
    BlueprintInternalWhitelist := exEmptyList }

/-- The generator as a project plugin, on a file system that accepts every directory. -/
def exHost : FHost :=
  { ProjectDir := "Project"
    ThisPlugin := some EPluginType.Project
    GetModuleOwnerPlugin := fun _ => none
    GetModule := fun _ => none
    CreateDirectoryTree := fun _ => true
    ModuleNamespace := fun ModuleName _ => "UnrealSharp." ++ ModuleName
    ModuleGeneratedSourceDirectory := fun ModuleName Directory =>
      FPaths.Combine Directory ModuleName
    UNREAL_SHARP_OBJECT := "UnrealSharpObject"
    CoreUObjectCallbacks := "CoreUObjectExporter"
    UScriptStructCallbacks := "UScriptStructExporter"
    UClassCallbacks := "UClassExporter"
    UFunctionCallbacks := "UFunctionExporter" }

/-- The generator before anything has been exported. -/
def exStart : FCSGenerator :=
  { GeneratedScriptsDirectory := "Generated"
    ExportedTypes := []
    CSharpBindingsModules := []
    ExtensionMethods := []
    UnhandledProperties := []
    UnhandledParameters := []
    UnhandledReturnValues := []
    UnhandledOverridableParameters := []
    UnhandledOverridableReturnValues := []
    Persistence := [] }

def exClass (Name : FString) (Super : Option ObjId) : UClass :=
  { Base := exBase Name
    RF_ClassDefaultObject := false
    RF_Transient := false
    CLASS_CompiledFromBlueprint := false
    CLASS_NewerVersionExists := false
    CLASS_Deprecated := false
    CLASS_Abstract := false
    ClassGeneratedBy := false
    IsChildOfUInterface := false
    IsChildOfUSubsystem := false
    IsChildOfUBlueprintFunctionLibrary := false
    IsBlueprintFunctionLibrary := false
    CanCreateBlueprintOfClass := true
    ShouldExportClass := true
    IsUObjectStaticClass := false
    SuperClass := Super
    SuperClassQualifiedName := "UnrealSharp.Engine.Object"
    ScriptClassName := Name
    TypeScriptName := Name
    Properties := []
    Functions := []
    Interfaces := [] }

/-- A class `Actor` (object 0) whose superclass is `Object` (object 1). -/
def exGraphActor : ObjectGraph :=
  [UObject.Class (exClass "Actor" (some 1)), UObject.Class (exClass "Object" none)]

/-- A class the export policy keeps out. -/
def exGraphHidden : ObjectGraph :=
  [UObject.Class { exClass "Hidden" none with ShouldExportClass := false }]

/-- A class whose superclass has been superseded by a newer version. -/
def exGraphStaleParent : ObjectGraph :=
  [UObject.Class (exClass "Child" (some 1)),
   UObject.Class { exClass "Parent" none with CLASS_NewerVersionExists := true }]

def exGraphEnum : ObjectGraph := [UObject.Enum exEnumABC]

def exGraphTrashEnum : ObjectGraph :=
  [UObject.Enum { exEnumABC with Base := exBase "TRASH_ETest" }]

/-- A policy whose internal allow list holds every function. -/
def exPolicyInternalAllowed : FCSPolicy :=
  { exPolicy with
    BlueprintInternalWhitelist := { exEmptyList with HasFunction := fun _ _ => true } }

/-- A policy whose whitelist holds every property. -/
def exPolicyPropertyWhitelisted : FCSPolicy :=
  { exPolicy with Whitelist := { exEmptyList with HasProperty := fun _ _ => true } }

/-- A property that is a fixed-size native array of three elements; its translator does not
support fixed-size native arrays. -/
def exStaticArray : FProperty := { exProperty "Slots" with ArrayDim := 3 }

/-- A fixed-size native array whose translator supports such arrays. -/
def exSupportedStaticArray : FProperty :=
  { exStaticArray with Handler := { exHandler with IsSupportedInStaticArray := true } }

/-- An internal-only function with a fixed-size array parameter. -/
def exInternalFunction : UFunction :=
  exFunction "UserConstructionScript" [("BlueprintInternalUseOnly", "true")] [exStaticArray]

/-- A function whose return value is declared before a fixed-size array parameter. -/
def exReturnFirst : UFunction :=
  { exFunction "Collect" []
      [{ exProperty "ReturnValue" with CPF_ReturnParm := true }, exStaticArray] with
    ReturnProperty := some { exProperty "ReturnValue" with CPF_ReturnParm := true } }

/-- A plain function with one supported parameter. -/
def exPlainFunction : UFunction := exFunction "SetHealth" [] [exProperty "Value"]

/-- A latent function. -/
def exLatentFunction : UFunction := exFunction "Delay" [("Latent", "")] [exProperty "Duration"]

/-- A deprecated function library. -/
def exDeprecatedLibrary : UClass :=
  { exClass "OldLibrary" none with
    CLASS_Deprecated := true
    CanCreateBlueprintOfClass := false
    IsChildOfUBlueprintFunctionLibrary := true
    IsBlueprintFunctionLibrary := true }

/-- The generator with object 0 in the exported-type set. -/
def exExported : FCSGenerator := { exStart with ExportedTypes := [0] }

/-- A host on which the generator is an engine plugin and every module is a game module. -/
def exHostEnginePlugin : FHost :=
  { exHost with ThisPlugin := some EPluginType.Engine, GetModule := fun _ => some true }

/-- An enum the export policy does not select (`ShouldExportEnum` is false). -/
def exGraphUnexposedEnum : ObjectGraph :=
  [UObject.Enum { exEnumABC with ShouldExportEnum := false }]

/-- A newly constructed generator object. -/
def exNewGenerator : FCSGeneratorInstance :=
  { Initialized := false
    Blacklist := FCSInclusionEntries.Empty
    Whitelist := FCSInclusionEntries.Empty
    Greylist := FCSInclusionEntries.Empty
    BlueprintInternalWhitelist := FCSInclusionEntries.Empty
    Members := { exStart with GeneratedScriptsDirectory := "" } }

/-- An interface with an exportable event, an exportable function that is no event, and
an event the export policy keeps out. -/
def exInterface : UClass :=
  { exClass "Interactable" none with
    IsChildOfUInterface := true
    Functions :=
      [{ exPlainFunction with Name := "OnUse", FUNC_BlueprintEvent := true },
       { exPlainFunction with Name := "Describe" },
       { exPlainFunction with Name := "OnHidden", FUNC_BlueprintEvent := true,
                              ShouldExportFunction := false }] }

/-- A file system on which no directory can be created. -/
def exHostNoDirectories : FHost :=
  { exHost with CreateDirectoryTree := fun _ => false }

/-- Two enums, both selected by the export policy. -/
def exGraphTwoEnums : ObjectGraph :=
  [UObject.Enum exEnumABC, UObject.Enum { exEnumABC with Base := exBase "ESecond" }]

/-- Two classes that name each other as superclass, and a class that is its own
superclass. -/
def exGraphCycle : ObjectGraph :=
  [UObject.Class (exClass "Ping" (some 1)), UObject.Class (exClass "Pong" (some 0)),
   UObject.Class (exClass "Loop" (some 2))]

/-- A diamond: two classes with the same superclass. -/
def exGraphDiamond : ObjectGraph :=
  [UObject.Class (exClass "Left" (some 2)), UObject.Class (exClass "Right" (some 2)),
   UObject.Class (exClass "Top" none)]

/-- A policy that blacklists every property and every function and whitelists every
property, struct and function. -/
def exPolicyBothListed : FCSPolicy :=
  { exPolicy with
    Blacklist := { exEmptyList with HasProperty := fun _ _ => true, HasFunction := fun _ _ => true }
    Whitelist := { exEmptyList with HasProperty := fun _ _ => true, HasStruct := fun _ => true,
                                    HasFunction := fun _ _ => true } }

/-- A policy that blacklists every property. -/
def exPolicyPropertyBlacklisted : FCSPolicy :=
  { exPolicy with Blacklist := { exEmptyList with HasProperty := fun _ _ => true } }

/-- A property whose translator does not accept it. -/
def exUnhandledProperty : FProperty :=
  { exProperty "Odd" with Handler := { exHandler with CanHandleProperty := false } }

/-- A function library with an extension method, a static function without a receiver and a
member function that has a receiver hint. -/
def exLibraryFunctions : List UFunction :=
  [exFunction "GetGameMode" [("WorldContext", "World")] [exProperty "World"],
   exFunction "Now" [] [],
   { exFunction "Attach" [("DefaultToSelf", "Target")] [exProperty "Target"] with
     FUNC_Static := false }]

/-- A class with an event and a plain function of its own that implements an interface
with an event of the same name as its own, a further event, and a function that is no
event. -/
def exClassWithInterface : UClass :=
  { exClass "Door" none with
    Functions :=
      [{ exPlainFunction with Name := "OnUse", FUNC_BlueprintEvent := true },
       { exPlainFunction with Name := "Describe" }]
    Interfaces :=
      [{ ClassName := "Interactable"
         ClassModuleFName := "Engine"
         IsBlueprintImplementable := true
         Functions :=
           [{ exPlainFunction with Name := "OnUse", FUNC_BlueprintEvent := true, NumParms := 0 },
            { exPlainFunction with Name := "OnTouch", FUNC_BlueprintEvent := true },
            { exPlainFunction with Name := "Reset" }] }] }

/-- A struct with one exported property. -/
def exStruct : UScriptStruct :=
  { Base := exBase "Vector"
    ShouldExportStruct := true
    IsStructBlittable := false
    StructScriptName := "Vector"
    TypeScriptName := "Vector"
    Properties := [exProperty "X"] }

/-- A normal function with two parameters and one without, and an overridable function
with a parameter and one without. -/
def exClassWithLookups : List UFunction × List UFunction :=
  ([exFunction "Move" [] [exProperty "Delta", exProperty "Sweep"], exFunction "Now" [] []],
   [{ exFunction "OnHit" [] [exProperty "Other"] with FUNC_BlueprintEvent := true,
                                                      FUNC_Static := false },
    { exFunction "OnReset" [] [] with FUNC_BlueprintEvent := true, FUNC_Static := false }])

/-- A class with a normal function and an overridable function, both without parameters. -/
def exZeroParmFunctions : List UFunction × List UFunction :=
  ([exFunction "Now" [] []],
   [{ exFunction "OnReset" [] [] with FUNC_BlueprintEvent := true, FUNC_Static := false }])

/-- Two exported properties whose managed names differ in the case of one letter only. -/
def exHealth : FProperty := { exProperty "Health" with ManagedName := "Health" }

def exLowerHealth : FProperty := { exProperty "bhealth" with ManagedName := "health" }

/-- An interface that implements another one: the implemented interface repeats the name
`OnUse`, brings the event `OnDrop` twice, a function that is no event, and an event the
export policy keeps out. -/
def exInterfaceWithParent : UClass :=
  { exInterface with
    Interfaces :=
      [{ ClassName := "Usable"
         ClassModuleFName := "Engine"
         IsBlueprintImplementable := true
         Functions :=
           [{ exPlainFunction with Name := "OnUse", FUNC_BlueprintEvent := true, NumParms := 0 },
            { exPlainFunction with Name := "OnDrop", FUNC_BlueprintEvent := true },
            { exPlainFunction with Name := "Reset" },
            { exPlainFunction with Name := "OnDrop", FUNC_BlueprintEvent := true, NumParms := 0 },
            { exPlainFunction with Name := "OnSecret", FUNC_BlueprintEvent := true,
                                   ShouldExportFunction := false }] }] }

/-- An overridable function with one parameter whose name is no identifier: the name
carries a statement of its own in front of an identifier. -/
def exRedeclaringFunction : UFunction :=
  { exFunction "NativeClassPtr = IntPtr.Zero; IntPtr OnHit" [] [exProperty "Other"] with
    FUNC_BlueprintEvent := true, FUNC_Static := false }

/-! # Theorems -/

/-! ## Enum entries -/

theorem AppendEnumValues_append (a b : List FString) (i : Nat) :
    AppendEnumValues i (a ++ b) = AppendEnumValues i a ++ AppendEnumValues (i + a.length) b := by
  induction a generalizing i with
  | nil => simp [AppendEnumValues]
  | cons x xs ih =>
    simp only [List.cons_append, AppendEnumValues, List.length_cons]
    have e : i + (xs.length + 1) = i + 1 + xs.length := by omega
    split <;> simp [ih, e]

theorem CollectEnumValues_lines (ValueCount : Nat) (Entries : List UEnumEntry) :
    ∀ (i : Nat) (EnumValues : List FString), EnumValues.length = i →
      i + Entries.length = ValueCount →
      AppendEnumValues 0 (CollectEnumValues ValueCount i Entries EnumValues)
        = AppendEnumValues 0 EnumValues
          ++ (Entries.enumFrom i).filterMap (EnumLineEmitted ValueCount) := by
  induction Entries with
  | nil => intro i acc _ _; simp [CollectEnumValues]
  | cons Entry Rest ih =>
    intro i acc hlen hcount
    simp only [List.length_cons] at hcount
    simp only [CollectEnumValues, List.enumFrom_cons, List.filterMap_cons]
    by_cases hacc : Entry.ShouldExportEnumEntry = true
    · simp only [hacc, Bool.not_true, Bool.false_eq_true, if_false]
      by_cases hmax : (i == ValueCount - 1 &&
          FString.EndsWith (RawEnumName Entry.Name) "MAX") = true
      · have hi : i = ValueCount - 1 := by
          simp only [Bool.and_eq_true, beq_iff_eq] at hmax
          exact hmax.1
        have hrest : Rest = [] := by
          apply List.eq_nil_of_length_eq_zero
          omega
        subst hrest
        have hnone : EnumLineEmitted ValueCount (i, Entry) = none := by
          simp only [EnumLineEmitted, EnumLineBySpec, hacc, hmax]
          simp
        simp [hmax, hnone, CollectEnumValues]
      · simp only [hmax, Bool.false_eq_true, if_false]
        rw [ih (i + 1) _ (by simp [hlen]) (by omega), AppendEnumValues_append]
        simp only [hlen, Nat.zero_add, List.append_assoc]
        congr 1
        by_cases hemp : FString.IsEmpty (RawEnumName Entry.Name) = true
        · have h1 : EnumLineEmitted ValueCount (i, Entry) = none := by
            simp [EnumLineEmitted, hemp]
          simp [AppendEnumValues, h1, hemp]
        · have h1 : EnumLineEmitted ValueCount (i, Entry)
              = some (BuilderOp.AppendLine
                  (RawEnumName Entry.Name ++ "=" ++ toString i ++ ",")) := by
            simp only [EnumLineEmitted, EnumLineBySpec, hemp, hacc]
            simp [hmax]
          simp [AppendEnumValues, h1, hemp]
    · have hnone : EnumLineEmitted ValueCount (i, Entry) = none := by
        simp [EnumLineEmitted, EnumLineBySpec, hacc]
      simp only [hacc, Bool.not_false, if_true, hnone]
      rw [ih (i + 1) _ (by simp [hlen]) (by omega), AppendEnumValues_append]
      simp [AppendEnumValues, FString.IsEmpty]

theorem ExportEnumValues_eq (Enum : UEnum) :
    ExportEnumValues Enum
      = (Enum.Entries.enumFrom 0).filterMap (EnumLineEmitted Enum.Entries.length) := by
  have h := CollectEnumValues_lines Enum.Entries.length Enum.Entries 0 [] rfl (by simp)
  simpa [ExportEnumValues, AppendEnumValues] using h

/-- C2, as the code has it: when the enum is whitelisted or not blacklisted, `ExportEnum`
emits the enum header, then as entry lines, in increasing index order, one line `Name=i,`
for each native index `i` whose entry the policy accepts, whose name without its qualifier
is not empty, and which is not the last index with a name ending in `MAX` (`i` is the native
index), then the closing brace; otherwise it emits nothing.  For `[A, B (skipped), C, MAX]`
the entry lines are `A=0,` `C=2,`. -/
theorem ExportEnum_entry_lines :
    (∀ (P : FCSPolicy) (H : FHost) (st : FCSGenerator) (Id : ObjId) (Enum : UEnum)
        (Builder : FCSScriptBuilder),
      (ExportEnum P H st Id Enum Builder).1
        = if P.Whitelist.HasEnum Id || !P.Blacklist.HasEnum Id then
            Builder
              ++ [BuilderOp.GenerateScriptSkeleton
                    (FindOrRegisterModule H st Enum.Base.ModuleFName).1.Namespace,
                  BuilderOp.AppendLine "[UEnum]",
                  BuilderOp.DeclareType "enum" Enum.Base.Name (some "byte") (some false)
                    (some false) []]
              ++ (Enum.Entries.enumFrom 0).filterMap (EnumLineEmitted Enum.Entries.length)
              ++ [BuilderOp.CloseBrace]
          else Builder)
    ∧ ExportEnumValues exEnumABC = [BuilderOp.AppendLine "A=0,", BuilderOp.AppendLine "C=2,"] := by
  refine ⟨fun P H st Id Enum Builder => ?_, by decide⟩
  unfold ExportEnum
  split
  · rw [ExportEnumValues_eq]
  · rfl

/-- C2 as stated fails: an accepted entry whose name is empty after the qualifier gets no
line, where the statement promises the line `=0,`; and for a blacklisted enum that is not
whitelisted `ExportEnum` emits no line at all. -/
theorem Enum_entry_without_name_gets_no_line :
    ((exEnumEmptyName.Entries.enumFrom 0).filterMap
        (EnumLineBySpec exEnumEmptyName.Entries.length) = [BuilderOp.AppendLine "=0,"]
      ∧ ExportEnumValues exEnumEmptyName = [])
    ∧ ((exEnumABC.Entries.enumFrom 0).filterMap (EnumLineBySpec exEnumABC.Entries.length)
        = [BuilderOp.AppendLine "A=0,", BuilderOp.AppendLine "C=2,"]
      ∧ (ExportEnum exPolicyEnumBlacklisted exHost exStart 0 exEnumABC []).1 = []) := by
  decide

/-! ## Extension-method receivers -/

theorem find_nil_of_head_none {α : Type} (l : List α) (p : α → Bool)
    (h : l.head? = none) : l.find? p = none := by
  cases l with
  | nil => rfl
  | cons a t => simp at h

/-- C3: `GetExtensionMethodInfo` resolves the receiver by strict precedence (marker, then
default-to-self hint naming a parameter, then world-context hint); it returns a descriptor,
holding the function and that receiver, exactly when a receiver is found. -/
theorem GetExtensionMethodInfo_receiver (F : UFunction) :
    (GetExtensionMethodInfo F).map (fun Info => (Info.Function, Info.SelfParameter))
      = (ReceiverBySpec F).map (fun Self => (F, Self)) := by
  unfold GetExtensionMethodInfo ReceiverBySpec UFunction.FindPropertyByName
  by_cases hm : F.HasMetaData ScriptMethodMetaDataKey = true
  · cases hh : F.ChildProperties.head? with
    | some Self =>
      by_cases hw : F.HasMetaData MD_WorldContext = true
      · by_cases hn : (Self.Name == F.GetMetaData MD_WorldContext) = true <;>
          simp [hm, hh, hw, hn]
      · simp [hm, hh, hw]
    | none =>
      have hf := fun p => find_nil_of_head_none F.ChildProperties p hh
      by_cases hd : F.HasMetaData MD_DefaultToSelf = true <;>
        by_cases hw : F.HasMetaData MD_WorldContext = true <;>
          simp [hm, hh, hd, hw, hf]
  · simp only [hm, Bool.false_eq_true, if_false, Option.isNone_none, Bool.true_and]
    by_cases hd : F.HasMetaData MD_DefaultToSelf = true
    · cases hf : F.ChildProperties.find?
          (fun P => P.Name == F.GetMetaData MD_DefaultToSelf) with
      | some Self =>
        by_cases hw : F.HasMetaData MD_WorldContext = true
        · by_cases hn : (Self.Name == F.GetMetaData MD_WorldContext) = true <;>
            simp [hd, hf, hw, hn]
        · simp [hd, hf, hw]
      | none =>
        by_cases hw : F.HasMetaData MD_WorldContext = true
        · cases hf2 : F.ChildProperties.find?
              (fun P => P.Name == F.GetMetaData MD_WorldContext) <;>
            simp [hd, hf, hw, hf2]
        · simp [hd, hf, hw]
    · by_cases hw : F.HasMetaData MD_WorldContext = true
      · cases hf2 : F.ChildProperties.find?
            (fun P => P.Name == F.GetMetaData MD_WorldContext) <;>
          simp [hd, hw, hf2]
      · simp [hd, hw]

/-- `GetExtensionMethodInfo` in two steps: the receiver chosen before the world-context hint
is looked at, then the hint. -/
theorem GetExtensionMethodInfo_eq (F : UFunction) :
    GetExtensionMethodInfo F =
      match ReceiverBeforeWorldContext F with
      | some Self =>
        some { Function := F
               SelfParameter := Self
               OverrideClassBeingExtended :=
                 if (F.HasMetaData MD_WorldContext && Self.Name == F.GetMetaData MD_WorldContext)
                     || (Self.Name == MD_WorldContext || Self.Name == MD_WorldContextObject)
                 then some UWorld_StaticClass else none }
      | none =>
        if F.HasMetaData MD_WorldContext then
          (F.FindPropertyByName (F.GetMetaData MD_WorldContext)).map (fun Self =>
            { Function := F, SelfParameter := Self,
              OverrideClassBeingExtended := some UWorld_StaticClass })
        else none := by
  unfold GetExtensionMethodInfo ReceiverBeforeWorldContext UFunction.FindPropertyByName
  by_cases hm : F.HasMetaData ScriptMethodMetaDataKey = true
  · cases hh : F.ChildProperties with
    | cons Self Rest =>
      by_cases hw : F.HasMetaData MD_WorldContext = true
      · by_cases hn : (Self.Name == F.GetMetaData MD_WorldContext) = true <;>
          simp [hm, hw, hn]
      · simp [hm, hw]
    | nil =>
      by_cases hd : F.HasMetaData MD_DefaultToSelf = true <;>
        by_cases hw : F.HasMetaData MD_WorldContext = true <;>
          simp [hm, hd, hw]
  · simp only [hm, Bool.false_eq_true, if_false, Option.isNone_none, Bool.true_and,
      Bool.false_and]
    by_cases hd : F.HasMetaData MD_DefaultToSelf = true
    · cases hf : F.ChildProperties.find?
          (fun P => P.Name == F.GetMetaData MD_DefaultToSelf) with
      | some Self =>
        by_cases hw : F.HasMetaData MD_WorldContext = true
        · by_cases hn : (Self.Name == F.GetMetaData MD_WorldContext) = true <;>
            simp [hd, hf, hw, hn]
        · simp [hd, hf, hw]
      | none =>
        by_cases hw : F.HasMetaData MD_WorldContext = true
        · cases hf2 : F.ChildProperties.find?
              (fun P => P.Name == F.GetMetaData MD_WorldContext) <;>
            simp [hd, hf, hw, hf2]
        · simp [hd, hf, hw]
    · by_cases hw : F.HasMetaData MD_WorldContext = true
      · cases hf2 : F.ChildProperties.find?
            (fun P => P.Name == F.GetMetaData MD_WorldContext) <;>
          simp [hd, hw, hf2]
      · simp [hd, hw]

theorem ReceiverBeforeWorldContext_none (F : UFunction)
    (hm : F.HasMetaData ScriptMethodMetaDataKey = false)
    (hd : F.HasMetaData MD_DefaultToSelf = false) :
    ReceiverBeforeWorldContext F = none := by
  simp [ReceiverBeforeWorldContext, hm, hd]

/-- C4, as the code has it: a function with no extension-method marker, no default-to-self
hint and no world-context hint is never an extension method, whatever its parameters are
called; the names `WorldContext` and `WorldContextObject` only mark a receiver that was
chosen by one of the hints: whenever a descriptor is returned and its receiver has one of
the two names, the receiver-type override is the world class. -/
theorem GetExtensionMethodInfo_unannotated (F : UFunction) :
    (F.HasMetaData ScriptMethodMetaDataKey = false → F.HasMetaData MD_DefaultToSelf = false →
      F.HasMetaData MD_WorldContext = false → GetExtensionMethodInfo F = none)
    ∧ (∀ Info, GetExtensionMethodInfo F = some Info →
        (Info.SelfParameter.Name = MD_WorldContext
          ∨ Info.SelfParameter.Name = MD_WorldContextObject) →
        Info.OverrideClassBeingExtended = some UWorld_StaticClass) := by
  constructor
  · intro hm hd hw
    rw [GetExtensionMethodInfo_eq, ReceiverBeforeWorldContext_none F hm hd]
    simp [hw]
  · intro Info h hname
    rw [GetExtensionMethodInfo_eq] at h
    cases hr : ReceiverBeforeWorldContext F with
    | some Self =>
      simp only [hr, Option.some.injEq] at h
      subst h
      rcases hname with hn | hn <;> simp at hn <;> simp [hn]
    | none =>
      simp only [hr] at h
      split at h
      · simp only [Option.map_eq_some'] at h
        obtain ⟨Self, _, h⟩ := h
        subst h
        rfl
      · simp at h

theorem GetExtensionMethodInfo_unannotated_witness :
    GetExtensionMethodInfo exUnannotated = none
    ∧ (GetExtensionMethodInfo exMarkedWorldContext).map
        (fun Info => Info.OverrideClassBeingExtended) = some (some UWorld_StaticClass) := by
  refine ⟨(GetExtensionMethodInfo_unannotated exUnannotated).1
      (by decide) (by decide) (by decide), ?_⟩
  have hInfo : GetExtensionMethodInfo exMarkedWorldContext
      = some { Function := exMarkedWorldContext
               SelfParameter := exProperty "WorldContextObject"
               OverrideClassBeingExtended := some UWorld_StaticClass } := by decide
  have h := (GetExtensionMethodInfo_unannotated exMarkedWorldContext).2 _ hInfo
    (Or.inr (by decide))
  rw [hInfo]
  exact congrArg some h

/-- C4 as stated fails: a function without marker or hints whose parameter is literally
named `WorldContext` is not an extension method. -/
theorem WorldContext_name_alone_is_no_receiver :
    exUnannotated.HasMetaData ScriptMethodMetaDataKey = false
    ∧ exUnannotated.HasMetaData MD_DefaultToSelf = false
    ∧ exUnannotated.HasMetaData MD_WorldContext = false
    ∧ (exUnannotated.FindPropertyByName MD_WorldContext).isSome = true
    ∧ GetExtensionMethodInfo exUnannotated = none := by
  decide

theorem TSetFString_Contains_iff (Keys : List FString) (Key : FString) :
    TSetFString.Contains Keys Key = true
      ↔ Key.CaseInsensitiveKey ∈ Keys.map FString.CaseInsensitiveKey := by
  simp only [TSetFString.Contains, List.any_eq_true, beq_iff_eq, List.mem_map]

theorem ExportPropertiesStaticConstructionLoop_filter (ManagedName : FString) :
    ∀ (Properties : List FProperty) (Hash : List FString),
      (ExportPropertiesStaticConstructionLoop Hash Properties).filter
          (BuilderOp.IsStaticConstructionUpToCase ManagedName)
        = if TSetFString.Contains Hash ManagedName = true then []
          else ((Properties.find? (fun Q => SameUpToCase Q.ManagedName ManagedName)).map
                  (fun Q => BuilderOp.ExportPropertyStaticConstruction Q Q.Name)).toList := by
  intro Properties
  induction Properties with
  | nil => intro Hash; simp [ExportPropertiesStaticConstructionLoop]
  | cons Q Rest ih =>
    intro Hash
    simp only [ExportPropertiesStaticConstructionLoop]
    by_cases hq : TSetFString.Contains Hash Q.ManagedName = true
    · simp only [hq, if_true, ih Hash]
      by_cases hn : TSetFString.Contains Hash ManagedName = true
      · simp only [hn, if_true]
      · have hne : SameUpToCase Q.ManagedName ManagedName = false := by
          cases hb : SameUpToCase Q.ManagedName ManagedName with
          | false => rfl
          | true =>
            have hk : Q.ManagedName.CaseInsensitiveKey = ManagedName.CaseInsensitiveKey := by
              simpa [SameUpToCase] using hb
            rw [TSetFString_Contains_iff, hk, ← TSetFString_Contains_iff] at hq
            exact absurd hq hn
        simp only [hn, if_false, List.find?_cons, hne]
    · simp only [hq, Bool.false_eq_true, if_false, List.filter_cons,
        BuilderOp.IsStaticConstructionUpToCase, ih (Hash ++ [Q.ManagedName])]
      by_cases hb : SameUpToCase Q.ManagedName ManagedName = true
      · have hk : Q.ManagedName.CaseInsensitiveKey = ManagedName.CaseInsensitiveKey := by
          simpa [SameUpToCase] using hb
        have hn : ¬ TSetFString.Contains Hash ManagedName = true := by
          rw [TSetFString_Contains_iff, ← hk, ← TSetFString_Contains_iff]; exact hq
        have hn2 : TSetFString.Contains (Hash ++ [Q.ManagedName]) ManagedName = true := by
          rw [TSetFString_Contains_iff]; simp [hk]
        simp only [hb, if_true, hn, Bool.false_eq_true, if_false, hn2, List.find?_cons,
          Option.map_some', Option.toList_some]
      · have hb2 : SameUpToCase Q.ManagedName ManagedName = false := by
          simpa using hb
        have hne : Q.ManagedName.CaseInsensitiveKey ≠ ManagedName.CaseInsensitiveKey := by
          simpa [SameUpToCase] using hb2
        have hc : TSetFString.Contains (Hash ++ [Q.ManagedName]) ManagedName = true
            ↔ TSetFString.Contains Hash ManagedName = true := by
          rw [TSetFString_Contains_iff, TSetFString_Contains_iff]
          simp [Ne.symm hne]
        simp only [hb2, Bool.false_eq_true, if_false, hc, List.find?_cons]

theorem ExportPropertiesStaticConstructionLoop_all :
    ∀ (Properties : List FProperty) (Hash : List FString),
      (ExportPropertiesStaticConstructionLoop Hash Properties).all
        BuilderOp.IsStaticConstruction = true := by
  intro Properties
  induction Properties with
  | nil => intro Hash; simp [ExportPropertiesStaticConstructionLoop]
  | cons Q Rest ih =>
    intro Hash
    simp only [ExportPropertiesStaticConstructionLoop]
    split
    · exact ih Hash
    · simp only [List.all_cons, BuilderOp.IsStaticConstruction, Bool.true_and]
      exact ih _

theorem mem_ExportPropertiesStaticConstruction (Properties : List FProperty) (Op : BuilderOp)
    (h : Op ∈ ExportPropertiesStaticConstruction Properties) :
    Op.IsStaticConstruction = true :=
  List.all_eq_true.mp (ExportPropertiesStaticConstructionLoop_all Properties []) Op h

/-- C8, as the code has it: `ExportPropertiesStaticConstruction` emits static-construction
entries only, and for every managed name exactly the entry of the first exported property
whose managed name is that name up to the case of letters (none when no property has such a
name); `ExportMirrorStructMarshalling` emits one read entry and one write entry for every
exported property, in order, collisions included. -/
theorem StaticConstruction_first_per_managed_name (Struct : UScriptStruct)
    (ExportedProperties : List FProperty) :
    (∀ ManagedName : FString,
      (ExportPropertiesStaticConstruction ExportedProperties).filter
          (BuilderOp.IsStaticConstructionUpToCase ManagedName)
        = ((ExportedProperties.find? (fun Q => SameUpToCase Q.ManagedName ManagedName)).map
            (fun Q => BuilderOp.ExportPropertyStaticConstruction Q Q.Name)).toList)
    ∧ (ExportPropertiesStaticConstruction ExportedProperties).all
        BuilderOp.IsStaticConstruction = true
    ∧ (ExportMirrorStructMarshalling Struct ExportedProperties).filterMap BuilderOp.ReadEntry
        = ExportedProperties
    ∧ (ExportMirrorStructMarshalling Struct ExportedProperties).filterMap BuilderOp.WriteEntry
        = ExportedProperties := by
  refine ⟨fun ManagedName => ?_, ExportPropertiesStaticConstructionLoop_all _ _, ?_, ?_⟩
  · have h := ExportPropertiesStaticConstructionLoop_filter ManagedName ExportedProperties []
    simpa [ExportPropertiesStaticConstruction, TSetFString.Contains] using h
  · simp [ExportMirrorStructMarshalling, List.filterMap_append, List.filterMap_map,
      BuilderOp.ReadEntry, Function.comp_def]
  · simp [ExportMirrorStructMarshalling, List.filterMap_append, List.filterMap_map,
      BuilderOp.WriteEntry, Function.comp_def]

/-- C8 as stated fails: the managed names `Health` and `health` are distinct and each is the
name of an exported property, yet the set of used names holds `health` once `Health` is in
it, so one static-construction entry is emitted and the name `health` has none. -/
theorem Managed_names_differing_in_case_share_one_entry :
    exHealth.ManagedName ≠ exLowerHealth.ManagedName
    ∧ [exHealth, exLowerHealth].find? (fun Q => Q.ManagedName == "health")
        = some exLowerHealth
    ∧ ExportPropertiesStaticConstruction [exHealth, exLowerHealth]
        = [BuilderOp.ExportPropertyStaticConstruction exHealth "Health"]
    ∧ (ExportPropertiesStaticConstruction [exHealth, exLowerHealth]).filter
        (BuilderOp.IsStaticConstructionFor "health") = [] := by
  decide

/-! ## Structs -/

/-- C9: `ExportStruct` emits the static constructor, the native-buffer-reading constructor,
the `ToNative` writer and the `Marshaler` unit exactly when the registry reports the struct
as not blittable; the struct attribute carries `IsBlittable = true` exactly when it is
blittable. -/
theorem ExportStruct_marshalling_iff_not_blittable (P : FCSPolicy) (H : FHost)
    (st : FCSGenerator) (Id : ObjId) (Struct : UScriptStruct) :
    (StaticConstructorLine Struct ∈ ExportStructOps P H st Id Struct
        ↔ Struct.IsStructBlittable = false)
    ∧ (NativeBufferConstructorLine Struct ∈ ExportStructOps P H st Id Struct
        ↔ Struct.IsStructBlittable = false)
    ∧ (ToNativeWriterLine ∈ ExportStructOps P H st Id Struct
        ↔ Struct.IsStructBlittable = false)
    ∧ (MarshalerUnitLine Struct ∈ ExportStructOps P H st Id Struct
        ↔ Struct.IsStructBlittable = false)
    ∧ (BlittableAttribute ∈ ExportStructOps P H st Id Struct
        ↔ Struct.IsStructBlittable = true) := by
  cases hb : Struct.IsStructBlittable with
  | true =>
    simp [ExportStructOps, ExportStruct, hb, ExportStructProperties, StaticConstructorLine,
      NativeBufferConstructorLine, ToNativeWriterLine, MarshalerUnitLine, BlittableAttribute]
  | false =>
    have hattr : ∀ Properties : List FProperty,
        BuilderOp.AppendAttribute
            { Attributes := ["UStruct"], Arguments := ["IsBlittable = true"] }
          ∉ ExportPropertiesStaticConstruction Properties := by
      intro Properties hmem
      have := mem_ExportPropertiesStaticConstruction Properties _ hmem
      simp [BuilderOp.IsStaticConstruction] at this
    simp [ExportStructOps, ExportStruct, hb, ExportStructProperties, StaticConstructorLine,
      NativeBufferConstructorLine, ToNativeWriterLine, MarshalerUnitLine, BlittableAttribute,
      ExportStaticConstructor, UStructObject.IsClass, UStructObject.TypeScriptName,
      ExportMirrorStructMarshalling, ExportStructMarshaller, hattr]

/-! ## Property filter -/

/-- The answer of `CanExportProperty`, without the counter it may increment. -/
theorem CanExportProperty_fst (P : FCSPolicy) (st : FCSGenerator) (Struct : UStruct)
    (Property : FProperty) :
    (CanExportProperty P st Struct Property).1
      = ((!P.Blacklist.HasProperty Struct Property
          && (CanExportPropertyShared Property || P.Whitelist.HasProperty Struct Property
              || P.Whitelist.HasStruct Struct.Id))
        && !((Struct.IsClass && !Property.Handler.IsSupportedAsProperty)
            || (!Struct.IsClass && !Property.Handler.IsSupportedAsStructProperty)
            || !Property.Handler.CanHandleProperty)) := by
  unfold CanExportProperty
  simp only []
  split
  · rename_i h1
    split
    · rename_i h2
      simp only [h2, Bool.not_true, Bool.and_false]
    · rename_i h2
      have h2' := Bool.eq_false_iff.mpr h2
      simp only [h1, h2', Bool.not_false, Bool.and_true]
  · rename_i h1
    have h1' := Bool.eq_false_iff.mpr h1
    simp only [h1', Bool.false_and]

/-- C10: `CanExportProperty` returns true only if the property passes the policy gate and
the capability gate. -/
theorem CanExportProperty_gates (P : FCSPolicy) (st : FCSGenerator) (Struct : UStruct)
    (Property : FProperty) (h : (CanExportProperty P st Struct Property).1 = true) :
    PropertyPolicyGate P Struct Property ∧ PropertyCapabilityGate Struct Property := by
  rw [CanExportProperty_fst] at h
  unfold PropertyPolicyGate PropertyCapabilityGate
  cases hbl : P.Blacklist.HasProperty Struct Property <;>
    cases hc : Struct.IsClass <;>
      cases hs : Property.Handler.IsSupportedAsProperty <;>
        cases hss : Property.Handler.IsSupportedAsStructProperty <;>
          cases hh : Property.Handler.CanHandleProperty <;>
            simp [hbl, hc, hs, hss, hh] at h ⊢

theorem CanExportProperty_gates_witness :
    (CanExportProperty exPolicy exStart ⟨0, true⟩ (exProperty "Health")).1 = true
    ∧ PropertyPolicyGate exPolicy ⟨0, true⟩ (exProperty "Health")
    ∧ PropertyCapabilityGate ⟨0, true⟩ (exProperty "Health") :=
  ⟨by decide, CanExportProperty_gates exPolicy exStart ⟨0, true⟩ (exProperty "Health")
    (by decide)⟩

/-! ## Steps that leave the exported-type set and the persistence trace alone -/

theorem Frame.refl (st : FCSGenerator) : Frame st st := ⟨rfl, rfl⟩

theorem Frame.trans {a b c : FCSGenerator} (h1 : Frame a b) (h2 : Frame b c) : Frame a c :=
  ⟨h2.1.trans h1.1, h2.2.trans h1.2⟩

theorem FindOrRegisterModule_frame (H : FHost) (st : FCSGenerator) (ModuleName : FName) :
    Frame st (FindOrRegisterModule H st ModuleName).2 := by
  unfold FindOrRegisterModule
  split <;> exact ⟨rfl, rfl⟩

theorem CanExportReturnValue_frame (st : FCSGenerator) (Property : FProperty) :
    Frame st (CanExportReturnValue st Property).2 := by
  unfold CanExportReturnValue
  dsimp only
  split_ifs <;> exact ⟨rfl, rfl⟩

theorem CanExportParameter_frame (st : FCSGenerator) (Property : FProperty) :
    Frame st (CanExportParameter st Property).2 := by
  unfold CanExportParameter
  dsimp only
  split_ifs <;> exact ⟨rfl, rfl⟩

theorem CanExportParameterLoop_frame (Params : List FProperty) :
    ∀ st : FCSGenerator, Frame st (CanExportParameterLoop st Params).2 := by
  induction Params with
  | nil => intro st; exact ⟨rfl, rfl⟩
  | cons Param Rest ih =>
    intro st
    simp only [CanExportParameterLoop]
    split
    · exact ⟨rfl, rfl⟩
    · split
      · exact CanExportParameter_frame st Param
      · exact (CanExportParameter_frame st Param).trans (ih _)

theorem CanExportFunctionParameters_frame (st : FCSGenerator) (Function : UFunction) :
    Frame st (CanExportFunctionParameters st Function).2 := by
  unfold CanExportFunctionParameters
  split
  · simp only []
    split
    · exact CanExportReturnValue_frame st _
    · exact (CanExportReturnValue_frame st _).trans (CanExportParameterLoop_frame _ _)
  · exact CanExportParameterLoop_frame _ _

theorem CanExportFunction_frame (P : FCSPolicy) (st : FCSGenerator) (Struct : UStruct)
    (Function : UFunction) : Frame st (CanExportFunction P st Struct Function).2 := by
  unfold CanExportFunction
  split
  · exact ⟨rfl, rfl⟩
  · split
    · exact ⟨rfl, rfl⟩
    · exact CanExportFunctionParameters_frame st Function

theorem CanExportProperty_frame (P : FCSPolicy) (st : FCSGenerator) (Struct : UStruct)
    (Property : FProperty) : Frame st (CanExportProperty P st Struct Property).2 := by
  unfold CanExportProperty
  dsimp only
  split_ifs <;> exact ⟨rfl, rfl⟩

theorem GetExportedProperties_frame (P : FCSPolicy) (Struct : UStruct)
    (Properties : List FProperty) :
    ∀ (st : FCSGenerator) (Exported : List FProperty),
      Frame st (GetExportedProperties P Struct st Properties Exported).2 := by
  induction Properties with
  | nil => intro st Exported; exact ⟨rfl, rfl⟩
  | cons Property Rest ih =>
    intro st Exported
    simp only [GetExportedProperties]
    split
    · exact (CanExportProperty_frame P st Struct Property).trans (ih _ _)
    · exact (CanExportProperty_frame P st Struct Property).trans (ih _ _)

theorem GetExportedOwnFunctions_frame (P : FCSPolicy) (Class : UStruct)
    (Functions : List UFunction) :
    ∀ (st : FCSGenerator) (Normal Overridable : List UFunction),
      Frame st (GetExportedOwnFunctions P Class st Functions Normal Overridable).2 := by
  induction Functions with
  | nil => intro st Normal Overridable; exact ⟨rfl, rfl⟩
  | cons Function Rest ih =>
    intro st Normal Overridable
    simp only [GetExportedOwnFunctions]
    split
    · exact (CanExportFunction_frame P st Class Function).trans (ih _ _ _)
    · split
      · exact (CanExportFunction_frame P st Class Function).trans (ih _ _ _)
      · exact (CanExportFunction_frame P st Class Function).trans (ih _ _ _)

theorem GetExportedInterfaceFunctions_frame (P : FCSPolicy) (Class : UStruct)
    (Functions : List UFunction) :
    ∀ (st : FCSGenerator) (Overridable : List UFunction),
      Frame st (GetExportedInterfaceFunctions P Class st Functions Overridable).2 := by
  induction Functions with
  | nil => intro st Overridable; exact ⟨rfl, rfl⟩
  | cons Function Rest ih =>
    intro st Overridable
    simp only [GetExportedInterfaceFunctions]
    split
    · exact (CanExportFunction_frame P st Class Function).trans (ih _ _)
    · split
      · exact (CanExportFunction_frame P st Class Function).trans (ih _ _)
      · exact (CanExportFunction_frame P st Class Function).trans (ih _ _)

theorem GetExportedInterfacesFunctions_frame (P : FCSPolicy) (Class : UStruct)
    (Interfaces : List FImplementedInterface) :
    ∀ (st : FCSGenerator) (Overridable : List UFunction),
      Frame st (GetExportedInterfacesFunctions P Class st Interfaces Overridable).2 := by
  induction Interfaces with
  | nil => intro st Overridable; exact ⟨rfl, rfl⟩
  | cons Interface Rest ih =>
    intro st Overridable
    simp only [GetExportedInterfacesFunctions]
    exact (GetExportedInterfaceFunctions_frame P Class _ st Overridable).trans (ih _ _)

theorem GetExportedFunctions_frame (P : FCSPolicy) (st : FCSGenerator) (Class : UStruct)
    (Functions : List UFunction) (Interfaces : List FImplementedInterface) :
    Frame st (GetExportedFunctions P st Class Functions Interfaces).2 := by
  unfold GetExportedFunctions
  exact (GetExportedOwnFunctions_frame P Class Functions st [] []).trans
    (GetExportedInterfacesFunctions_frame P Class Interfaces _ _)

theorem ExportClassFunctions_frame (H : FHost) (ModuleName : FName) (IsLibrary : Bool)
    (Functions : List UFunction) :
    ∀ st : FCSGenerator,
      Frame st (ExportClassFunctions H ModuleName IsLibrary st Functions).2 := by
  induction Functions with
  | nil => intro st; exact ⟨rfl, rfl⟩
  | cons Function Rest ih =>
    intro st
    simp only [ExportClassFunctions]
    refine Frame.trans ?_ (ih _)
    split
    · split
      · exact ⟨(FindOrRegisterModule_frame H st ModuleName).1,
          (FindOrRegisterModule_frame H st ModuleName).2⟩
      · exact ⟨rfl, rfl⟩
    · exact ⟨rfl, rfl⟩

theorem ExportClassInterfaces_frame (H : FHost) (Implemented : List FImplementedInterface) :
    ∀ (st : FCSGenerator) (Interfaces Declared : List FString),
      Frame st (ExportClassInterfaces H st Implemented Interfaces Declared).2 := by
  induction Implemented with
  | nil => intro st Interfaces Declared; exact ⟨rfl, rfl⟩
  | cons Interface Rest ih =>
    intro st Interfaces Declared
    simp only [ExportClassInterfaces]
    split
    · split
      · exact (FindOrRegisterModule_frame H st _).trans (ih _ _ _)
      · exact (FindOrRegisterModule_frame H st _).trans (ih _ _ _)
    · exact ih _ _ _

theorem ExportClassBody_frame (P : FCSPolicy) (H : FHost) (st : FCSGenerator) (Id : ObjId)
    (Class : UClass) (Builder : FCSScriptBuilder) :
    Frame st (ExportClassBody P H st Id Class Builder).2 := by
  unfold ExportClassBody
  exact (FindOrRegisterModule_frame H st _).trans
    ((GetExportedProperties_frame P _ _ _ _).trans
      ((GetExportedFunctions_frame P _ _ _ _).trans
        ((ExportClassInterfaces_frame H _ _ _ _).trans
          (ExportClassFunctions_frame H _ _ _ _))))

theorem ExportInterface_frame (P : FCSPolicy) (H : FHost) (st : FCSGenerator) (Id : ObjId)
    (Interface : UClass) (Builder : FCSScriptBuilder) :
    Frame st (ExportInterface P H st Id Interface Builder).2 := by
  unfold ExportInterface
  exact (FindOrRegisterModule_frame H st _).trans (GetExportedFunctions_frame P _ _ _ _)

theorem ExportStruct_frame (P : FCSPolicy) (H : FHost) (st : FCSGenerator) (Id : ObjId)
    (Struct : UScriptStruct) (Builder : FCSScriptBuilder) :
    Frame st (ExportStruct P H st Id Struct Builder).2 := by
  unfold ExportStruct
  exact (FindOrRegisterModule_frame H st _).trans (GetExportedProperties_frame P _ _ _ _)

theorem ExportEnum_frame (P : FCSPolicy) (H : FHost) (st : FCSGenerator) (Id : ObjId)
    (Enum : UEnum) (Builder : FCSScriptBuilder) :
    Frame st (ExportEnum P H st Id Enum Builder).2 := by
  unfold ExportEnum
  split
  · exact FindOrRegisterModule_frame H st _
  · exact ⟨rfl, rfl⟩

theorem SaveGlue_spec (H : FHost) (st : FCSGenerator) (Bindings : FCSModule)
    (Filename : FString) (Glue : FCSScriptBuilder) :
    (SaveGlue H st Bindings Filename Glue).ExportedTypes = st.ExportedTypes
    ∧ ∃ Last, (SaveGlue H st Bindings Filename Glue).Persistence = st.Persistence ++ [Last] := by
  unfold SaveGlue
  dsimp only
  split_ifs
  · exact ⟨rfl, _, rfl⟩
  · exact ⟨rfl, _, rfl⟩

theorem SaveTypeGlue_spec (H : FHost) (st : FCSGenerator) (Id : ObjId) (Object : UObjectBase)
    (Builder : FCSScriptBuilder) :
    (SaveTypeGlue H st Id Object Builder).ExportedTypes = st.ExportedTypes
    ∧ ∃ Last, (SaveTypeGlue H st Id Object Builder).Persistence
        = st.Persistence ++ [PersistenceCall.SaveTypeGlue Id Builder, Last] := by
  unfold SaveTypeGlue
  dsimp only
  have hf := FindOrRegisterModule_frame H
    { st with Persistence := st.Persistence ++ [PersistenceCall.SaveTypeGlue Id Builder] }
    Object.ModuleFName
  obtain ⟨h1, Last, h2⟩ := SaveGlue_spec H
    (FindOrRegisterModule H
      { st with Persistence := st.Persistence ++ [PersistenceCall.SaveTypeGlue Id Builder] }
      Object.ModuleFName).2
    (FindOrRegisterModule H
      { st with Persistence := st.Persistence ++ [PersistenceCall.SaveTypeGlue Id Builder] }
      Object.ModuleFName).1
    (Object.Name ++ ".generated.cs") Builder
  refine ⟨h1.trans hf.1, Last, ?_⟩
  rw [h2, hf.2]
  simp

/-! ## The orchestrator: growth of the exported set, termination -/

theorem FindChars_isSome_iff (sub : List Char) :
    ∀ s : List Char, (FindChars sub s).isSome = true ↔ List.IsInfix sub s := by
  intro s
  induction s with
  | nil =>
    simp only [FindChars, List.infix_nil]
    cases sub <;> simp
  | cons c cs ih =>
    simp only [FindChars, List.infix_cons_iff]
    by_cases hp : sub.isPrefixOf (c :: cs) = true
    · simp only [hp, if_true, Option.isSome_some, true_iff]
      exact Or.inl (List.isPrefixOf_iff_prefix.mp hp)
    · have hnp : ¬ List.IsPrefix sub (c :: cs) := fun h => hp (List.isPrefixOf_iff_prefix.mpr h)
      simp [hp, ih, hnp]

theorem countP_lt_of_mem {α : Type} (p q : α → Bool) (a : α) :
    ∀ l : List α, a ∈ l → (∀ x, q x = true → p x = true) → p a = true → q a = false →
      l.countP q < l.countP p := by
  intro l
  induction l with
  | nil => intro h; simp at h
  | cons x xs ih =>
    intro hmem hqp hpa hqa
    have hmono : xs.countP q ≤ xs.countP p := List.countP_mono_left (fun x _ => hqp x)
    by_cases hx : a = x
    · subst hx
      simp only [List.countP_cons, hpa, hqa, if_true]
      simp
      omega
    · have hin : a ∈ xs := by
        cases hmem with
        | head => exact absurd rfl hx
        | tail _ h => exact h
      have := ih hin hqp hpa hqa
      simp only [List.countP_cons]
      by_cases hq : q x = true
      · simp [hq, hqp x hq]; omega
      · simp [hq]; split <;> omega

theorem Unexported_add (G : ObjectGraph) (Exported : List ObjId) (Id : ObjId)
    (hlt : Id < G.length) (hnew : Id ∉ Exported) :
    Unexported G (Exported ++ [Id]) < Unexported G Exported := by
  unfold Unexported
  apply countP_lt_of_mem _ _ Id
  · simpa using hlt
  · intro x hx
    simp at hx ⊢
    exact hx.1
  · simpa using hnew
  · simp

theorem Unexported_le (G : ObjectGraph) (Exported : List ObjId) :
    Unexported G Exported ≤ G.length := by
  unfold Unexported
  have := List.countP_le_length (fun i => !Exported.contains i) (l := List.range G.length)
  simpa using this

theorem Extends.noChange (st : FCSGenerator) : Extends st st :=
  ⟨[], [], by simp, by simp, by simp⟩

theorem UnitSaved.append_left {Calls : List PersistenceCall} {T : ObjId}
    (More : List PersistenceCall) (h : UnitSaved Calls T) : UnitSaved (Calls ++ More) T := by
  obtain ⟨Glue, hm⟩ := h
  exact ⟨Glue, List.mem_append_left _ hm⟩

theorem UnitSaved.append_right {Calls : List PersistenceCall} {T : ObjId}
    (Earlier : List PersistenceCall) (h : UnitSaved Calls T) : UnitSaved (Earlier ++ Calls) T := by
  obtain ⟨Glue, hm⟩ := h
  exact ⟨Glue, List.mem_append_right _ hm⟩

theorem Extends.andThen {a b c : FCSGenerator} (h1 : Extends a b) (h2 : Extends b c) :
    Extends a c := by
  obtain ⟨e1, p1, he1, hp1, hs1⟩ := h1
  obtain ⟨e2, p2, he2, hp2, hs2⟩ := h2
  refine ⟨e1 ++ e2, p1 ++ p2, by rw [he2, he1, List.append_assoc],
    by rw [hp2, hp1, List.append_assoc], ?_⟩
  intro T hT
  rcases List.mem_append.mp hT with h | h
  · exact (hs1 T h).append_left _
  · exact (hs2 T h).append_right _

theorem Frame.extends {a b : FCSGenerator} (h : Frame a b) : Extends a b :=
  ⟨[], [], by simp [h.1], by simp [h.2], by simp⟩

theorem FinishGlueForType_extends (H : FHost) (st : FCSGenerator) (Id : ObjId)
    (Object : UObjectBase) (Builder : FCSScriptBuilder) :
    Extends st (FinishGlueForType H st Id Object Builder) := by
  unfold FinishGlueForType
  split
  · exact Extends.noChange st
  · obtain ⟨h1, Last, h2⟩ := SaveTypeGlue_spec H st Id Object Builder
    exact ⟨[], _, by simp [h1], h2, by simp⟩

/-- The generator state with which `ExportClass` visits the superclass. -/
theorem ExportClass_eq (P : FCSPolicy) (H : FHost)
    (Call : FCSGenerator → ObjId → Option FCSGenerator) (st : FCSGenerator) (Id : ObjId)
    (Class : UClass) (Builder : FCSScriptBuilder) (hnew : Id ∉ st.ExportedTypes) :
    ExportClass P H Call st Id Class Builder
      = (match Class.SuperClass with
          | some SuperClass =>
            Call { st with ExportedTypes := st.ExportedTypes ++ [Id] } SuperClass
          | none => some { st with ExportedTypes := st.ExportedTypes ++ [Id] }).map
        (fun st3 => ExportClassBody P H st3 Id Class
          (Builder ++ [BuilderOp.AppendLine "// This file is automatically generated"])) := by
  unfold ExportClass
  have hc : st.ExportedTypes.contains Id = false := by simpa using hnew
  simp only [hc, Bool.false_eq_true, if_false]
  cases Class.SuperClass with
  | none => rfl
  | some S =>
    dsimp only
    cases Call { st with ExportedTypes := st.ExportedTypes ++ [Id] } S <;> rfl

theorem ExportClassBody_nonempty (P : FCSPolicy) (H : FHost) (st : FCSGenerator) (Id : ObjId)
    (Class : UClass) (Builder : FCSScriptBuilder) :
    FCSScriptBuilder.IsEmpty (ExportClassBody P H st Id Class Builder).1 = false := by
  unfold ExportClassBody FCSScriptBuilder.IsEmpty
  simp

theorem RegisterClassToModule_frame (H : FHost) (st : FCSGenerator) (ModuleName : FName) :
    Frame st (RegisterClassToModule H st ModuleName) :=
  FindOrRegisterModule_frame H st ModuleName

theorem UClass.not_skipped_iff (Class : UClass) :
    ¬ Class.IsSkipped ↔
      Class.RF_ClassDefaultObject = false
      ∧ (Class.RF_Transient && Class.CLASS_CompiledFromBlueprint) = false
      ∧ Class.CLASS_NewerVersionExists = false
      ∧ (FString.Find Class.Base.Name "TRASH_").isSome = false
      ∧ (FString.Find Class.Base.Name "REINST_").isSome = false := by
  unfold UClass.IsSkipped FString.Find
  rw [← Bool.not_eq_true ((FindChars _ _).isSome), ← Bool.not_eq_true ((FindChars _ _).isSome),
    FindChars_isSome_iff, FindChars_isSome_iff]
  cases Class.RF_ClassDefaultObject <;> cases Class.RF_Transient <;>
    cases Class.CLASS_CompiledFromBlueprint <;> cases Class.CLASS_NewerVersionExists <;>
      simp

theorem GenerateGlueForTypeBody_class (P : FCSPolicy) (H : FHost) (G : ObjectGraph)
    (Call : FCSGenerator → ObjId → Option FCSGenerator) (st : FCSGenerator) (Id : ObjId)
    (Class : UClass) (bForceExport : Bool)
    (hobj : G.get? Id = some (UObject.Class Class)) (hnew : Id ∉ st.ExportedTypes)
    (hreach : Class.ReachesExportClass bForceExport) :
    GenerateGlueForTypeBody P H G Call st Id bForceExport
      = (match Class.SuperClass with
          | some SuperClass => Call (EnterExportClass H st Id Class) SuperClass
          | none => some (EnterExportClass H st Id Class)).map
        (fun st3 => LeaveExportClass P H st3 Id Class) := by
  obtain ⟨htr, hskip, hif, hexp⟩ := hreach
  obtain ⟨h1, h2, h3, h4, h5⟩ := (UClass.not_skipped_iff Class).mp hskip
  have hc : st.ExportedTypes.contains Id = false := by simpa using hnew
  have hnew2 : Id ∉ (RegisterClassToModule H st Class.Base.ModuleFName).ExportedTypes := by
    rw [(RegisterClassToModule_frame H st _).1]; exact hnew
  unfold GenerateGlueForTypeBody
  simp only [hc, hobj, UObject.Base, htr, h1, h2, h3, h4, h5, hif, hexp, Bool.false_eq_true,
    if_false, if_true]
  rw [ExportClass_eq P H Call _ Id Class [] hnew2]
  unfold EnterExportClass LeaveExportClass
  cases Class.SuperClass with
  | none => rfl
  | some S =>
    dsimp only
    cases Call _ S <;> rfl

theorem EnterExportClass_spec (H : FHost) (st : FCSGenerator) (Id : ObjId) (Class : UClass) :
    (EnterExportClass H st Id Class).ExportedTypes = st.ExportedTypes ++ [Id]
    ∧ (EnterExportClass H st Id Class).Persistence = st.Persistence := by
  unfold EnterExportClass
  exact ⟨by simp [(RegisterClassToModule_frame H st _).1], (RegisterClassToModule_frame H st _).2⟩

theorem LeaveExportClass_spec (P : FCSPolicy) (H : FHost) (st3 : FCSGenerator) (Id : ObjId)
    (Class : UClass) :
    (LeaveExportClass P H st3 Id Class).ExportedTypes = st3.ExportedTypes
    ∧ ∃ Glue Last, (LeaveExportClass P H st3 Id Class).Persistence
        = st3.Persistence ++ [PersistenceCall.SaveTypeGlue Id Glue, Last] := by
  unfold LeaveExportClass FinishGlueForType
  rw [ExportClassBody_nonempty]
  simp only [Bool.false_eq_true, if_false]
  have hf := ExportClassBody_frame P H st3 Id Class
    [BuilderOp.AppendLine "// This file is automatically generated"]
  obtain ⟨h1, Last, h2⟩ := SaveTypeGlue_spec H
    (ExportClassBody P H st3 Id Class
      [BuilderOp.AppendLine "// This file is automatically generated"]).2 Id Class.Base
    (ExportClassBody P H st3 Id Class
      [BuilderOp.AppendLine "// This file is automatically generated"]).1
  exact ⟨h1.trans hf.1, _, Last, by rw [h2, hf.2]⟩

/-- Entering `ExportClass`, a run for the superclass, and leaving `ExportClass` together
extend the state. -/
theorem Extends.through_class (P : FCSPolicy) (H : FHost) (st st3 : FCSGenerator)
    (Id : ObjId) (Class : UClass) (h : Extends (EnterExportClass H st Id Class) st3) :
    Extends st (LeaveExportClass P H st3 Id Class) := by
  obtain ⟨e, p, he, hp, hs⟩ := h
  obtain ⟨h1, h2⟩ := EnterExportClass_spec H st Id Class
  obtain ⟨h3, Glue, Last, h4⟩ := LeaveExportClass_spec P H st3 Id Class
  refine ⟨[Id] ++ e, p ++ [PersistenceCall.SaveTypeGlue Id Glue, Last], ?_, ?_, ?_⟩
  · rw [h3, he, h1, List.append_assoc]
  · rw [h4, hp, h2, List.append_assoc]
  · intro T hT
    rcases List.mem_append.mp hT with h | h
    · have : T = Id := by simpa using h
      subst this
      exact ⟨Glue, by simp⟩
    · exact (hs T h).append_left _

theorem GenerateGlueForTypeBody_extends (P : FCSPolicy) (H : FHost) (G : ObjectGraph)
    (Call : FCSGenerator → ObjId → Option FCSGenerator)
    (hcall : ∀ st2 S st3, Call st2 S = some st3 → Extends st2 st3)
    (st : FCSGenerator) (Id : ObjId) (bForceExport : Bool) (st1 : FCSGenerator)
    (h : GenerateGlueForTypeBody P H G Call st Id bForceExport = some st1) :
    Extends st st1 := by
  by_cases hnew : Id ∈ st.ExportedTypes
  · have hc : st.ExportedTypes.contains Id = true := by simpa using hnew
    simp only [GenerateGlueForTypeBody, hc, if_true, Option.some.injEq] at h
    subst h; exact Extends.noChange _
  have hc : st.ExportedTypes.contains Id = false := by simpa using hnew
  have hreg := fun M => (RegisterClassToModule_frame H st M).extends
  by_cases hreach : ∃ Class, G.get? Id = some (UObject.Class Class)
      ∧ Class.ReachesExportClass bForceExport
  · obtain ⟨Class, hobj, hreach⟩ := hreach
    rw [GenerateGlueForTypeBody_class P H G Call st Id Class bForceExport hobj hnew hreach] at h
    simp only [Option.map_eq_some'] at h
    obtain ⟨st3, h3, hleave⟩ := h
    subst hleave
    apply Extends.through_class
    cases hs : Class.SuperClass with
    | none =>
      simp only [hs, Option.some.injEq] at h3
      subst h3; exact Extends.noChange _
    | some S =>
      simp only [hs] at h3
      exact hcall _ _ _ h3
  · unfold GenerateGlueForTypeBody at h
    simp only [hc, Bool.false_eq_true, if_false] at h
    split at h
    · cases h; exact Extends.noChange _
    next Obj hobj =>
      split at h
      · cases h; exact Extends.noChange _
      next htr =>
        split at h
        next Class =>
          split at h
          · cases h; exact Extends.noChange _
          next h1 =>
          split at h
          · cases h; exact Extends.noChange _
          next h2 =>
          split at h
          · cases h; exact Extends.noChange _
          next h3 =>
          split at h
          · cases h; exact Extends.noChange _
          next h4 =>
          split at h
          · cases h; exact Extends.noChange _
          next h5 =>
          split at h
          · cases h
            exact (hreg _).andThen ((ExportInterface_frame P H _ Id Class []).extends.andThen
              (FinishGlueForType_extends H _ Id _ _))
          next hif =>
          split at h
          next hexp =>
            exfalso
            apply hreach
            refine ⟨Class, hobj, ?_, ?_, ?_, hexp⟩
            · simpa [UObject.Base] using htr
            · rw [UClass.not_skipped_iff]
              refine ⟨?_, ?_, ?_, ?_, ?_⟩ <;> simp_all
            · simpa using hif
          · cases h
            exact (hreg _).andThen (FinishGlueForType_extends H _ Id _ _)
        next Struct =>
          split at h
          · cases h
            exact (ExportStruct_frame P H st Id Struct []).extends.andThen
              (FinishGlueForType_extends H _ Id _ _)
          · cases h; exact FinishGlueForType_extends H _ Id _ _
        next Enum =>
          split at h
          · cases h
            exact (ExportEnum_frame P H st Id Enum []).extends.andThen
              (FinishGlueForType_extends H _ Id _ _)
          · cases h; exact FinishGlueForType_extends H _ Id _ _
        next O =>
          cases h; exact FinishGlueForType_extends H _ Id _ _

theorem GenerateGlueForType_eq (P : FCSPolicy) (H : FHost) (G : ObjectGraph) (Depth : Nat) :
    GenerateGlueForType P H G Depth = GenerateGlueForTypeBody P H G (SuperCall P H G Depth) := by
  cases Depth <;> rfl

theorem GenerateGlueForType_extends (P : FCSPolicy) (H : FHost) (G : ObjectGraph) :
    ∀ (Depth : Nat) (st : FCSGenerator) (Id : ObjId) (bForceExport : Bool) (st1 : FCSGenerator),
      GenerateGlueForType P H G Depth st Id bForceExport = some st1 → Extends st st1 := by
  intro Depth
  induction Depth with
  | zero =>
    intro st Id f st1 h
    rw [GenerateGlueForType_eq] at h
    exact GenerateGlueForTypeBody_extends P H G _ (fun _ _ _ hn => by simp [SuperCall] at hn)
      st Id f st1 h
  | succ D ih =>
    intro st Id f st1 h
    rw [GenerateGlueForType_eq] at h
    exact GenerateGlueForTypeBody_extends P H G _ (fun st2 S st3 hs => ih st2 S true st3 hs)
      st Id f st1 h

theorem GenerateGlueForType_of_mem (P : FCSPolicy) (H : FHost) (G : ObjectGraph) (Depth : Nat)
    (st : FCSGenerator) (Id : ObjId) (bForceExport : Bool) (hmem : Id ∈ st.ExportedTypes) :
    GenerateGlueForType P H G Depth st Id bForceExport = some st := by
  have hc : st.ExportedTypes.contains Id = true := by simpa using hmem
  rw [GenerateGlueForType_eq]
  simp only [GenerateGlueForTypeBody, hc, if_true]

theorem GenerateGlueForTypeBody_isSome (P : FCSPolicy) (H : FHost) (G : ObjectGraph)
    (Call : FCSGenerator → ObjId → Option FCSGenerator)
    (st : FCSGenerator) (Id : ObjId) (bForceExport : Bool)
    (hcall : ∀ Class S, G.get? Id = some (UObject.Class Class) → Id ∉ st.ExportedTypes →
      (Call (EnterExportClass H st Id Class) S).isSome = true) :
    (GenerateGlueForTypeBody P H G Call st Id bForceExport).isSome = true := by
  by_cases hnew : Id ∈ st.ExportedTypes
  · have hc : st.ExportedTypes.contains Id = true := by simpa using hnew
    simp only [GenerateGlueForTypeBody, hc, if_true, Option.isSome_some]
  have hc : st.ExportedTypes.contains Id = false := by simpa using hnew
  by_cases hreach : ∃ Class, G.get? Id = some (UObject.Class Class)
      ∧ Class.ReachesExportClass bForceExport
  · obtain ⟨Class, hobj, hreach⟩ := hreach
    rw [GenerateGlueForTypeBody_class P H G Call st Id Class bForceExport hobj hnew hreach]
    simp only [Option.isSome_map']
    cases hs : Class.SuperClass with
    | none => rfl
    | some S => exact hcall Class S hobj hnew
  · unfold GenerateGlueForTypeBody
    simp only [hc, Bool.false_eq_true, if_false]
    split
    · rfl
    next Obj hobj =>
      split
      · rfl
      next htr =>
        split
        next Class =>
          split
          · rfl
          next h1 =>
          split
          · rfl
          next h2 =>
          split
          · rfl
          next h3 =>
          split
          · rfl
          next h4 =>
          split
          · rfl
          next h5 =>
          split
          · rfl
          next hif =>
          split
          next hexp =>
            exfalso
            apply hreach
            refine ⟨Class, hobj, ?_, ?_, ?_, hexp⟩
            · simpa [UObject.Base] using htr
            · rw [UClass.not_skipped_iff]
              refine ⟨?_, ?_, ?_, ?_, ?_⟩ <;> simp_all
            · simpa using hif
          · rfl
        next Struct => split <;> rfl
        next Enum => split <;> rfl
        next O => rfl

theorem get?_lt {α : Type} (l : List α) (i : Nat) (a : α) (h : l.get? i = some a) :
    i < l.length := by
  by_contra hlt
  have : l.get? i = none := by simp at hlt ⊢; exact hlt
  rw [this] at h
  cases h

theorem Unexported_enter (H : FHost) (G : ObjectGraph) (st : FCSGenerator) (Id : ObjId)
    (Class : UClass) (Obj : UObject) (hobj : G.get? Id = some Obj)
    (hnew : Id ∉ st.ExportedTypes) :
    Unexported G (EnterExportClass H st Id Class).ExportedTypes
      < Unexported G st.ExportedTypes := by
  rw [(EnterExportClass_spec H st Id Class).1]
  exact Unexported_add G _ Id (get?_lt G Id Obj hobj) hnew

/-- The recursion of `GenerateGlueForType` into superclasses ends: a depth bound as large as
the number of objects not yet exported is never exceeded. -/
theorem GenerateGlueForType_isSome (P : FCSPolicy) (H : FHost) (G : ObjectGraph) :
    ∀ (Depth : Nat) (st : FCSGenerator) (Id : ObjId) (bForceExport : Bool),
      Unexported G st.ExportedTypes ≤ Depth →
      (GenerateGlueForType P H G Depth st Id bForceExport).isSome = true := by
  intro Depth
  induction Depth with
  | zero =>
    intro st Id f hd
    rw [GenerateGlueForType_eq]
    apply GenerateGlueForTypeBody_isSome
    intro Class S hobj hnew
    have := Unexported_enter H G st Id Class _ hobj hnew
    omega
  | succ D ih =>
    intro st Id f hd
    rw [GenerateGlueForType_eq]
    apply GenerateGlueForTypeBody_isSome
    intro Class S hobj hnew
    have := Unexported_enter H G st Id Class _ hobj hnew
    exact ih _ S true (by omega)

/-- A call on a class that reaches `ExportClass`: the state with which the superclass is
visited, the state `st3` after that visit, and the result. -/
theorem GenerateGlueForType_class (P : FCSPolicy) (H : FHost) (G : ObjectGraph) (Depth : Nat)
    (st : FCSGenerator) (Id : ObjId) (Class : UClass) (bForceExport : Bool)
    (hobj : G.get? Id = some (UObject.Class Class)) (hnew : Id ∉ st.ExportedTypes)
    (hreach : Class.ReachesExportClass bForceExport)
    (hdepth : Unexported G st.ExportedTypes ≤ Depth) :
    ∃ st3, Extends (EnterExportClass H st Id Class) st3
      ∧ (∀ S, Class.SuperClass = some S → ∃ D, Depth = D + 1
          ∧ Unexported G (EnterExportClass H st Id Class).ExportedTypes ≤ D
          ∧ GenerateGlueForType P H G D (EnterExportClass H st Id Class) S true = some st3)
      ∧ GenerateGlueForType P H G Depth st Id bForceExport
          = some (LeaveExportClass P H st3 Id Class) := by
  have hlt := Unexported_enter H G st Id Class _ hobj hnew
  rw [GenerateGlueForType_eq,
    GenerateGlueForTypeBody_class P H G _ st Id Class bForceExport hobj hnew hreach]
  cases hs : Class.SuperClass with
  | none =>
    exact ⟨_, Extends.noChange _, (fun S hS => by cases hS), rfl⟩
  | some S =>
    cases Depth with
    | zero => omega
    | succ D =>
      have hsome := GenerateGlueForType_isSome P H G D (EnterExportClass H st Id Class) S true
        (by omega)
      obtain ⟨st3, h3⟩ := Option.isSome_iff_exists.mp hsome
      refine ⟨st3, GenerateGlueForType_extends P H G D _ S true st3 h3, ?_, ?_⟩
      · intro S2 hS2
        cases hS2
        exact ⟨D, rfl, by omega, h3⟩
      · simp only [SuperCall, h3, Option.map_some']

/-! ## The orchestrator: skip conditions, export once, superclass first -/

/-- C7, as the code has it: for both values of `bForceExport`, `GenerateGlueForType` returns
the generator unchanged (no unit is handed to persistence, the object does not enter the
exported-type set) for every object that lives in the transient package, and for every
class that is flagged as a default-object instance, is a compiler-intermediate skeleton, is
flagged `newer version exists`, or has a name containing `TRASH_` or `REINST_`. -/
theorem GenerateGlueForType_skips (P : FCSPolicy) (H : FHost) (G : ObjectGraph) (Depth : Nat)
    (st : FCSGenerator) (Id : ObjId) (Obj : UObject) (bForceExport : Bool)
    (hobj : G.get? Id = some Obj)
    (hskip : Obj.Base.InTransientPackage = true
      ∨ ∃ Class, Obj = UObject.Class Class ∧ Class.IsSkipped) :
    GenerateGlueForType P H G Depth st Id bForceExport = some st := by
  by_cases hmem : Id ∈ st.ExportedTypes
  · exact GenerateGlueForType_of_mem P H G Depth st Id bForceExport hmem
  have hc : st.ExportedTypes.contains Id = false := by simpa using hmem
  rw [GenerateGlueForType_eq]
  unfold GenerateGlueForTypeBody
  simp only [hc, Bool.false_eq_true, if_false, hobj]
  rcases hskip with htr | ⟨Class, rfl, hs⟩
  · simp only [htr, if_true]
  · by_cases htr : (UObject.Class Class).Base.InTransientPackage = true
    · simp only [htr, if_true]
    · simp only [htr, if_false]
      have hb : ¬ (Class.RF_ClassDefaultObject = false
          ∧ (Class.RF_Transient && Class.CLASS_CompiledFromBlueprint) = false
          ∧ Class.CLASS_NewerVersionExists = false
          ∧ (FString.Find Class.Base.Name "TRASH_").isSome = false
          ∧ (FString.Find Class.Base.Name "REINST_").isSome = false) :=
        fun hn => (UClass.not_skipped_iff Class).mpr hn hs
      by_cases h1 : Class.RF_ClassDefaultObject = true
      · simp only [h1, if_true, if_false, Bool.false_eq_true]
      by_cases h2 : (Class.RF_Transient && Class.CLASS_CompiledFromBlueprint) = true
      · simp only [h1, h2, if_true, if_false, Bool.false_eq_true]
      by_cases h3 : Class.CLASS_NewerVersionExists = true
      · simp only [h1, h2, h3, if_true, if_false, Bool.false_eq_true]
      by_cases h4 : (FString.Find Class.Base.Name "TRASH_").isSome = true
      · simp only [h1, h2, h3, h4, if_true, if_false, Bool.false_eq_true]
      by_cases h5 : (FString.Find Class.Base.Name "REINST_").isSome = true
      · simp only [h1, h2, h3, h4, h5, if_true, if_false, Bool.false_eq_true]
      exact absurd ⟨Bool.eq_false_iff.mpr h1, Bool.eq_false_iff.mpr h2, Bool.eq_false_iff.mpr h3,
        Bool.eq_false_iff.mpr h4, Bool.eq_false_iff.mpr h5⟩ hb

theorem GenerateGlueForType_skips_witness :
    GenerateGlueForType exPolicy exHost exGraphStaleParent 0 exStart 1 true = some exStart :=
  GenerateGlueForType_skips exPolicy exHost exGraphStaleParent 0 exStart 1
    (UObject.Class { exClass "Parent" none with CLASS_NewerVersionExists := true }) true
    (by decide) (Or.inr ⟨_, rfl, Or.inr (Or.inr (Or.inl (by decide)))⟩)

/-- C1, as the code has it: for a class that is not exported yet and that the first call
takes through `ExportClass` (outside the transient package, past the guards for classes, not
an interface class, forced or policy-eligible), the first call of `GenerateGlueForType`
returns, enters the class in the exported-type set and hands its unit to persistence, and a
second call on the same object, with either value of `bForceExport`, returns the generator
unchanged: it writes nothing and adds no registry entry. -/
theorem GenerateGlueForType_class_once (P : FCSPolicy) (H : FHost) (G : ObjectGraph)
    (Depth Depth2 : Nat) (st : FCSGenerator) (Id : ObjId) (Class : UClass)
    (bForceExport bForceExport2 : Bool)
    (hobj : G.get? Id = some (UObject.Class Class)) (hnew : Id ∉ st.ExportedTypes)
    (hreach : Class.ReachesExportClass bForceExport) (hdepth : G.length ≤ Depth) :
    ∃ st1 Earlier Glue Last,
      GenerateGlueForType P H G Depth st Id bForceExport = some st1
      ∧ Id ∈ st1.ExportedTypes
      ∧ st1.Persistence
          = st.Persistence ++ Earlier ++ [PersistenceCall.SaveTypeGlue Id Glue, Last]
      ∧ GenerateGlueForType P H G Depth2 st1 Id bForceExport2 = some st1 := by
  obtain ⟨st3, hext, _, hres⟩ := GenerateGlueForType_class P H G Depth st Id Class bForceExport
    hobj hnew hreach (le_trans (Unexported_le G _) hdepth)
  obtain ⟨e, p, he, hp, _⟩ := hext
  obtain ⟨h1, h2⟩ := EnterExportClass_spec H st Id Class
  obtain ⟨h3, Glue, Last, h4⟩ := LeaveExportClass_spec P H st3 Id Class
  have hmem : Id ∈ (LeaveExportClass P H st3 Id Class).ExportedTypes := by
    rw [h3, he, h1]; simp
  refine ⟨_, p, Glue, Last, hres, hmem, ?_, ?_⟩
  · rw [h4, hp, h2]
  · exact GenerateGlueForType_of_mem P H G Depth2 _ Id bForceExport2 hmem

theorem GenerateGlueForType_class_once_witness :
    ∃ st1 Earlier Glue Last,
      GenerateGlueForType exPolicy exHost exGraphActor 2 exStart 0 false = some st1
      ∧ 0 ∈ st1.ExportedTypes
      ∧ st1.Persistence
          = exStart.Persistence ++ Earlier ++ [PersistenceCall.SaveTypeGlue 0 Glue, Last]
      ∧ GenerateGlueForType exPolicy exHost exGraphActor 0 st1 0 true = some st1 :=
  GenerateGlueForType_class_once exPolicy exHost exGraphActor 2 0 exStart 0
    (exClass "Actor" (some 1)) false true (by decide) (by decide)
    (by unfold UClass.ReachesExportClass; rw [UClass.not_skipped_iff]; decide) (by decide)

/-- C6, as the code has it: let class `C` have the superclass `S`, another class that meets
no skip condition and is not an interface class.  When `GenerateGlueForType` takes `C`
through `ExportClass`, it returns with `S` in the exported-type set, and the unit of `S` has
been handed to persistence before the unit of `C` (for an `S` that was exported before the
call: provided its unit was handed over when it was exported, which
`GenerateGlueForType_units_saved` shows to be kept by every call). -/
theorem ExportClass_superclass_first (P : FCSPolicy) (H : FHost) (G : ObjectGraph)
    (Depth : Nat) (st : FCSGenerator) (Id Super : ObjId) (Class SuperClass : UClass)
    (bForceExport : Bool)
    (hobj : G.get? Id = some (UObject.Class Class)) (hnew : Id ∉ st.ExportedTypes)
    (hreach : Class.ReachesExportClass bForceExport)
    (hsuper : Class.SuperClass = some Super) (hne : Super ≠ Id)
    (hsobj : G.get? Super = some (UObject.Class SuperClass))
    (hsreach : SuperClass.ReachesExportClass true)
    (hsaved : Super ∈ st.ExportedTypes → UnitSaved st.Persistence Super)
    (hdepth : G.length ≤ Depth) :
    ∃ st1 Before Glue Last,
      GenerateGlueForType P H G Depth st Id bForceExport = some st1
      ∧ Super ∈ st1.ExportedTypes
      ∧ st1.Persistence = Before ++ [PersistenceCall.SaveTypeGlue Id Glue, Last]
      ∧ UnitSaved Before Super := by
  obtain ⟨st3, hext, hcall, hres⟩ := GenerateGlueForType_class P H G Depth st Id Class
    bForceExport hobj hnew hreach (le_trans (Unexported_le G _) hdepth)
  obtain ⟨D, _, hD, hS⟩ := hcall Super hsuper
  obtain ⟨e, p, he, hp, hs⟩ := hext
  obtain ⟨h1, h2⟩ := EnterExportClass_spec H st Id Class
  obtain ⟨h3, Glue, Last, h4⟩ := LeaveExportClass_spec P H st3 Id Class
  have hin3 : Super ∈ st3.ExportedTypes ∧ UnitSaved st3.Persistence Super := by
    by_cases hold : Super ∈ st.ExportedTypes
    · constructor
      · rw [he, h1]; simp [hold]
      · rw [hp, h2]; exact (hsaved hold).append_left _
    · have hnew2 : Super ∉ (EnterExportClass H st Id Class).ExportedTypes := by
        rw [h1]; simp [hold, hne]
      obtain ⟨st4, hext4, _, hres4⟩ := GenerateGlueForType_class P H G D
        (EnterExportClass H st Id Class) Super SuperClass true hsobj hnew2 hsreach hD
      rw [hS] at hres4
      have h34 : st3 = LeaveExportClass P H st4 Super SuperClass := by simpa using hres4
      obtain ⟨e4, p4, he4, _, _⟩ := hext4
      obtain ⟨h5, _⟩ := EnterExportClass_spec H (EnterExportClass H st Id Class) Super SuperClass
      obtain ⟨h6, _⟩ := LeaveExportClass_spec P H st4 Super SuperClass
      have hmem : Super ∈ st3.ExportedTypes := by
        rw [h34, h6, he4, h5]; simp
      refine ⟨hmem, ?_⟩
      rw [he] at hmem
      rcases List.mem_append.mp hmem with hm | hm
      · exact absurd hm hnew2
      · rw [hp]; exact (hs Super hm).append_right _
  exact ⟨_, st3.Persistence, Glue, Last, hres, by rw [h3]; exact hin3.1, h4, hin3.2⟩

theorem ExportClass_superclass_first_witness :
    ∃ st1 Before Glue Last,
      GenerateGlueForType exPolicy exHost exGraphActor 2 exStart 0 false = some st1
      ∧ 1 ∈ st1.ExportedTypes
      ∧ st1.Persistence = Before ++ [PersistenceCall.SaveTypeGlue 0 Glue, Last]
      ∧ UnitSaved Before 1 :=
  ExportClass_superclass_first exPolicy exHost exGraphActor 2 exStart 0 1
    (exClass "Actor" (some 1)) (exClass "Object" none) false (by decide) (by decide)
    (by unfold UClass.ReachesExportClass; rw [UClass.not_skipped_iff]; decide)
    (by decide) (by decide) (by decide)
    (by unfold UClass.ReachesExportClass; rw [UClass.not_skipped_iff]; decide)
    (by intro h; exact absurd h (by decide)) (by decide)

/-- Every call of `GenerateGlueForType` keeps the invariant that each member of the
exported-type set had its unit handed to persistence. -/
theorem GenerateGlueForType_units_saved (P : FCSPolicy) (H : FHost) (G : ObjectGraph)
    (Depth : Nat) (st st1 : FCSGenerator) (Id : ObjId) (bForceExport : Bool)
    (hinv : ∀ T ∈ st.ExportedTypes, UnitSaved st.Persistence T)
    (h : GenerateGlueForType P H G Depth st Id bForceExport = some st1) :
    ∀ T ∈ st1.ExportedTypes, UnitSaved st1.Persistence T := by
  obtain ⟨e, p, he, hp, hs⟩ := GenerateGlueForType_extends P H G Depth st Id bForceExport st1 h
  intro T hT
  rw [he] at hT
  rw [hp]
  rcases List.mem_append.mp hT with hm | hm
  · exact (hinv T hm).append_left _
  · exact (hs T hm).append_right _

/-- C1 as stated fails: a class the policy keeps out gets no unit on a first, unforced call
and a unit on a second, forced call; an enum gets a unit on each of two calls. -/
theorem Second_call_can_write :
    (GenerateGlueForType exPolicy exHost exGraphHidden 1 exStart 0 false).map SavedUnits
      = some []
    ∧ ((GenerateGlueForType exPolicy exHost exGraphHidden 1 exStart 0 false).bind
        (fun st1 => GenerateGlueForType exPolicy exHost exGraphHidden 1 st1 0 true)).map
        SavedUnits = some [0]
    ∧ (GenerateGlueForType exPolicy exHost exGraphEnum 1 exStart 0 false).map SavedUnits
      = some [0]
    ∧ ((GenerateGlueForType exPolicy exHost exGraphEnum 1 exStart 0 false).bind
        (fun st1 => GenerateGlueForType exPolicy exHost exGraphEnum 1 st1 0 false)).map
        SavedUnits = some [0, 0] := by
  decide

/-- C6 as stated fails: the superclass (object 1) of the exported class (object 0) is
flagged `newer version exists`; after the export it is not in the exported-type set and no
unit of it was handed to persistence. -/
theorem Superseded_superclass_not_exported :
    exGraphStaleParent.get? 0 = some (UObject.Class (exClass "Child" (some 1)))
    ∧ (GenerateGlueForType exPolicy exHost exGraphStaleParent 2 exStart 0 false).map
        (fun st1 => (st1.ExportedTypes, SavedUnits st1)) = some ([0], [0]) := by
  decide

/-- C7 as stated fails: an enum whose name contains `TRASH_` is exported, forced or not. -/
theorem Trash_named_enum_is_exported :
    List.IsInfix "TRASH_".data "TRASH_ETest".data
    ∧ (GenerateGlueForType exPolicy exHost exGraphTrashEnum 0 exStart 0 false).map
        (fun st1 => (st1.ExportedTypes, SavedUnits st1)) = some ([], [0])
    ∧ (GenerateGlueForType exPolicy exHost exGraphTrashEnum 0 exStart 0 true).map
        (fun st1 => (st1.ExportedTypes, SavedUnits st1)) = some ([], [0]) := by
  decide

/-! ## Function and class filters, no-op on exported types, module registry -/

theorem CanExportReturnValue_fst (st : FCSGenerator) (Property : FProperty) :
    (CanExportReturnValue st Property).1 = ReturnValueIsSupported Property := by
  unfold CanExportReturnValue ReturnValueIsSupported
  dsimp only
  cases h1 : (Property.ArrayDim == 1) <;> cases h2 : Property.Handler.IsSupportedAsReturnValue <;>
    cases h3 : Property.Handler.CanHandleProperty <;> simp

theorem CanExportParameter_fst (st : FCSGenerator) (Property : FProperty) :
    (CanExportParameter st Property).1 = ParameterIsSupported Property := by
  unfold CanExportParameter ParameterIsSupported
  dsimp only
  cases h1 : (Property.ArrayDim == 1) <;> cases h2 : Property.Handler.IsSupportedAsParameter <;>
    cases h3 : Property.Handler.CanHandleProperty <;> simp

theorem CanExportParameterLoop_fst (Params : List FProperty) :
    ∀ st : FCSGenerator, (CanExportParameterLoop st Params).1
      = (Params.takeWhile (fun Param => !Param.CPF_ReturnParm)).all ParameterIsSupported := by
  induction Params with
  | nil => intro st; rfl
  | cons Param Rest ih =>
    intro st
    simp only [CanExportParameterLoop, List.takeWhile_cons]
    cases hr : Param.CPF_ReturnParm with
    | true => simp
    | false =>
      simp only [Bool.false_eq_true, if_false, Bool.not_false, if_true, List.all_cons,
        CanExportParameter_fst]
      cases hp : ParameterIsSupported Param with
      | true => simp [ih]
      | false => simp

theorem CanExportFunctionParameters_fst (st : FCSGenerator) (F : UFunction) :
    (CanExportFunctionParameters st F).1 = FunctionCapabilityGate F := by
  unfold CanExportFunctionParameters FunctionCapabilityGate ParametersBeforeReturn
  cases hr : F.ReturnProperty with
  | none => simp [CanExportParameterLoop_fst]
  | some R =>
    simp only [CanExportReturnValue_fst]
    cases hs : ReturnValueIsSupported R with
    | true => simp [CanExportParameterLoop_fst]
    | false => simp

theorem CanExportFunction_fst (P : FCSPolicy) (st : FCSGenerator) (Struct : UStruct)
    (F : UFunction) :
    (CanExportFunction P st Struct F).1 = CanExportFunctionAnswer P Struct F := by
  unfold CanExportFunction CanExportFunctionAnswer IsLatentOrInternalOnly
  split
  · rfl
  · split
    · rfl
    · exact CanExportFunctionParameters_fst st F

/-- C11, as the code has it: `CanExportFunction` returns true only if the function passes
the policy gate and, when it is marked latent or internal-only, is in the internal allow
list (its parameters are then not examined), and otherwise passes the capability gate: its
return value, if any, and every parameter declared before the first return-flagged one has
array dimension 1 and a translator that is supported in that role and accepts it. -/
theorem CanExportFunction_gates (P : FCSPolicy) (st : FCSGenerator) (Struct : UStruct)
    (F : UFunction) (h : (CanExportFunction P st Struct F).1 = true) :
    FunctionPolicyGate P Struct F
    ∧ ((IsLatentOrInternalOnly F = true
          ∧ P.BlueprintInternalWhitelist.HasFunction Struct F = true)
        ∨ (IsLatentOrInternalOnly F = false
          ∧ (∀ R, F.ReturnProperty = some R →
              R.ArrayDim = 1 ∧ R.Handler.IsSupportedAsReturnValue = true
                ∧ R.Handler.CanHandleProperty = true)
          ∧ ∀ Param ∈ ParametersBeforeReturn F,
              Param.ArrayDim = 1 ∧ Param.Handler.IsSupportedAsParameter = true
                ∧ Param.Handler.CanHandleProperty = true)) := by
  rw [CanExportFunction_fst] at h
  unfold CanExportFunctionAnswer at h
  unfold FunctionPolicyGate
  split at h
  · cases h
  next hpol =>
    constructor
    · cases hb : P.Blacklist.HasFunction Struct F <;>
        cases hw : P.Whitelist.HasFunction Struct F <;> simp_all
    · split at h
      next hl => exact Or.inl ⟨hl, h⟩
      next hl =>
        refine Or.inr ⟨by simpa using hl, ?_, ?_⟩
        · intro R hR
          simp only [FunctionCapabilityGate, hR, Bool.and_eq_true, ReturnValueIsSupported,
            beq_iff_eq] at h
          exact ⟨h.1.1.1, h.1.1.2, h.1.2⟩
        · intro Param hParam
          simp only [FunctionCapabilityGate, Bool.and_eq_true, List.all_eq_true] at h
          have := h.2 Param hParam
          simp only [ParameterIsSupported, Bool.and_eq_true, beq_iff_eq] at this
          exact ⟨this.1.1, this.1.2, this.2⟩

theorem CanExportFunction_gates_witness :
    FunctionPolicyGate exPolicy ⟨0, true⟩ exPlainFunction
    ∧ ((IsLatentOrInternalOnly exPlainFunction = true
          ∧ exPolicy.BlueprintInternalWhitelist.HasFunction ⟨0, true⟩ exPlainFunction = true)
        ∨ (IsLatentOrInternalOnly exPlainFunction = false
          ∧ (∀ R, exPlainFunction.ReturnProperty = some R →
              R.ArrayDim = 1 ∧ R.Handler.IsSupportedAsReturnValue = true
                ∧ R.Handler.CanHandleProperty = true)
          ∧ ∀ Param ∈ ParametersBeforeReturn exPlainFunction,
              Param.ArrayDim = 1 ∧ Param.Handler.IsSupportedAsParameter = true
                ∧ Param.Handler.CanHandleProperty = true)) :=
  CanExportFunction_gates exPolicy exStart ⟨0, true⟩ exPlainFunction (by decide)

/-- C11 as stated fails: an internal-only function on the internal allow list is exportable
with a fixed-size array parameter, and so is a function whose fixed-size array parameter is
declared after the return value. -/
theorem Internal_function_skips_capability_gate :
    ((CanExportFunction exPolicyInternalAllowed exStart ⟨0, true⟩ exInternalFunction).1 = true
      ∧ FunctionCapabilityGateBySpec exInternalFunction = false)
    ∧ ((CanExportFunction exPolicy exStart ⟨0, true⟩ exReturnFirst).1 = true
      ∧ FunctionCapabilityGateBySpec exReturnFirst = false) := by
  decide

/-- A latent or internal-only function outside the internal allow list is rejected. -/
theorem CanExportFunction_internal_rejected (P : FCSPolicy) (st : FCSGenerator) (Struct : UStruct)
    (F : UFunction) (hl : IsLatentOrInternalOnly F = true)
    (hn : P.BlueprintInternalWhitelist.HasFunction Struct F = false) :
    (CanExportFunction P st Struct F).1 = false := by
  rw [CanExportFunction_fst]
  unfold CanExportFunctionAnswer
  split
  · rfl
  · simp [hl, hn]

/-- C13, as the code has it: for a property with a fixed array dimension greater than one,
`CanExportProperty` returns true only if the translator declares support for fixed-size
native arrays (and the property's outermost object is a class), or the property or its
whole owner is whitelisted. -/
theorem CanExportProperty_static_array (P : FCSPolicy) (st : FCSGenerator) (Struct : UStruct)
    (Property : FProperty) (hdim : 1 < Property.ArrayDim)
    (h : (CanExportProperty P st Struct Property).1 = true) :
    (Property.Handler.IsSupportedInStaticArray = true ∧ Property.OutermostIsClass = true)
      ∨ P.Whitelist.HasProperty Struct Property = true
      ∨ P.Whitelist.HasStruct Struct.Id = true := by
  rw [CanExportProperty_fst] at h
  have hne : (Property.ArrayDim == 1) = false := by
    simp only [beq_eq_false_iff_ne, ne_eq]; omega
  simp only [CanExportPropertyShared, hne, Bool.false_or, Bool.and_eq_true, Bool.or_eq_true] at h
  rcases h.1.2 with (h1 | h2) | h3
  · exact Or.inl h1.2
  · exact Or.inr (Or.inl h2)
  · exact Or.inr (Or.inr h3)

theorem CanExportProperty_static_array_witness :
    (exSupportedStaticArray.Handler.IsSupportedInStaticArray = true
        ∧ exSupportedStaticArray.OutermostIsClass = true)
      ∨ exPolicy.Whitelist.HasProperty ⟨0, true⟩ exSupportedStaticArray = true
      ∨ exPolicy.Whitelist.HasStruct 0 = true :=
  CanExportProperty_static_array exPolicy exStart ⟨0, true⟩ exSupportedStaticArray
    (by decide) (by decide)

/-- C13 as stated fails: a whitelisted property with array dimension 3 is exportable although
its translator does not support fixed-size native arrays. -/
theorem Whitelisted_static_array_is_exported :
    1 < exStaticArray.ArrayDim
    ∧ exStaticArray.Handler.IsSupportedInStaticArray = false
    ∧ (CanExportProperty exPolicyPropertyWhitelisted exStart ⟨0, true⟩ exStaticArray).1 = true := by
  decide

/-- C14: for an object already in the exported-type set, `GenerateGlueForType` returns the
generator unchanged for every depth bound and both values of `bForceExport` (exported-type
set, module registry, extension-method registry, counters and persistence trace are the
same), and `ExportClass` called on it returns the builder and the generator unchanged. -/
theorem GenerateGlueForType_exported_noop (P : FCSPolicy) (H : FHost) (G : ObjectGraph)
    (st : FCSGenerator) (Id : ObjId) (hmem : Id ∈ st.ExportedTypes) :
    (∀ (Depth : Nat) (bForceExport : Bool),
      GenerateGlueForType P H G Depth st Id bForceExport = some st)
    ∧ ∀ (Call : FCSGenerator → ObjId → Option FCSGenerator) (Class : UClass)
        (Builder : FCSScriptBuilder),
        ExportClass P H Call st Id Class Builder = some (Builder, st) := by
  constructor
  · intro Depth f
    exact GenerateGlueForType_of_mem P H G Depth st Id f hmem
  · intro Call Class Builder
    have hc : st.ExportedTypes.contains Id = true := by simpa using hmem
    simp only [ExportClass, hc, if_true]

theorem GenerateGlueForType_exported_noop_witness :
    (∀ (Depth : Nat) (bForceExport : Bool),
      GenerateGlueForType exPolicy exHost exGraphActor Depth exExported 0 bForceExport
        = some exExported)
    ∧ ∀ (Call : FCSGenerator → ObjId → Option FCSGenerator) (Class : UClass)
        (Builder : FCSScriptBuilder),
        ExportClass exPolicy exHost Call exExported 0 Class Builder
          = some (Builder, exExported) :=
  GenerateGlueForType_exported_noop exPolicy exHost exGraphActor exExported 0 (by decide)

/-- C17, as the code has it: `CanExportClass` is true exactly when the class is not
blacklisted; `CanDeriveFromNativeClass` is true exactly when the class is a subsystem type,
or it can be created (not deprecated, not superseded, not generated by a blueprint) and is
blueprint-instantiable, whitelisted or a function-library type. -/
theorem CanDeriveFromNativeClass_iff (P : FCSPolicy) (Id : ObjId) (Class : UClass) :
    (CanExportClass P Id = true ↔ P.Blacklist.HasClass Id = false)
    ∧ (CanDeriveFromNativeClass P Id Class = true ↔
        Class.IsChildOfUSubsystem = true
          ∨ ((Class.CLASS_Deprecated = false ∧ Class.CLASS_NewerVersionExists = false
                ∧ Class.ClassGeneratedBy = false)
              ∧ (Class.CanCreateBlueprintOfClass = true ∨ P.Whitelist.HasClass Id = true
                  ∨ Class.IsChildOfUBlueprintFunctionLibrary = true))) := by
  unfold CanExportClass CanDeriveFromNativeClass
  constructor
  · simp
  · simp only [Bool.or_eq_true, Bool.and_eq_true, Bool.not_eq_true', and_assoc, or_assoc]

/-- C17 as stated fails: a deprecated function-library class cannot be derived from. -/
theorem Deprecated_library_cannot_derive :
    exDeprecatedLibrary.IsChildOfUBlueprintFunctionLibrary = true
    ∧ CanDeriveFromNativeClass exPolicy 0 exDeprecatedLibrary = false := by
  decide

theorem lookup_append_new {α β : Type} [BEq α] [LawfulBEq α] (l : List (α × β)) (k : α) (v : β)
    (h : l.lookup k = none) : (l ++ [(k, v)]).lookup k = some v := by
  induction l with
  | nil => simp [List.lookup]
  | cons p rest ih =>
    obtain ⟨a, b⟩ := p
    simp only [List.cons_append, List.lookup]
    cases hk : (k == a) with
    | true => simp [List.lookup, hk] at h
    | false =>
      simp only [List.lookup, hk] at h
      exact ih h

theorem lookup_append_other {α β : Type} [BEq α] [LawfulBEq α] (l : List (α × β)) (k k2 : α)
    (v : β) (hne : k ≠ k2) : (l ++ [(k2, v)]).lookup k = l.lookup k := by
  induction l with
  | nil =>
    have : (k == k2) = false := by simpa using hne
    simp [List.lookup, this]
  | cons p rest ih =>
    obtain ⟨a, b⟩ := p
    simp only [List.cons_append, List.lookup]
    cases hk : (k == a) <;> simp [ih]

/-- C18: the first call of `FindOrRegisterModule` for a module adds exactly one registry
entry, built from the directory resolved at that moment, and returns it; the entries of
all other modules are as before; every call made later, under whatever host answers and
configured output directory, in a state whose registry still maps the module to that entry
returns the same entry and leaves the generator unchanged. -/
theorem FindOrRegisterModule_memoized (H : FHost) (st : FCSGenerator) (ModuleName : FName)
    (hnew : st.CSharpBindingsModules.lookup ModuleName = none) :
    (FindOrRegisterModule H st ModuleName).1
        = FCSModule.Make H ModuleName
            (ResolveModuleDirectory H st.GeneratedScriptsDirectory ModuleName)
    ∧ (FindOrRegisterModule H st ModuleName).2
        = { st with CSharpBindingsModules :=
              st.CSharpBindingsModules ++ [(ModuleName, (FindOrRegisterModule H st ModuleName).1)] }
    ∧ (FindOrRegisterModule H st ModuleName).2.CSharpBindingsModules.lookup ModuleName
        = some (FindOrRegisterModule H st ModuleName).1
    ∧ (∀ Other, Other ≠ ModuleName →
        (FindOrRegisterModule H st ModuleName).2.CSharpBindingsModules.lookup Other
          = st.CSharpBindingsModules.lookup Other)
    ∧ ∀ (H2 : FHost) (st2 : FCSGenerator),
        st2.CSharpBindingsModules.lookup ModuleName
            = some (FindOrRegisterModule H st ModuleName).1 →
        FindOrRegisterModule H2 st2 ModuleName
          = ((FindOrRegisterModule H st ModuleName).1, st2) := by
  have h1 : FindOrRegisterModule H st ModuleName
      = (FCSModule.Make H ModuleName
            (ResolveModuleDirectory H st.GeneratedScriptsDirectory ModuleName),
          { st with CSharpBindingsModules := st.CSharpBindingsModules ++
              [(ModuleName, FCSModule.Make H ModuleName
                (ResolveModuleDirectory H st.GeneratedScriptsDirectory ModuleName))] }) := by
    simp only [FindOrRegisterModule, hnew]
  refine ⟨by rw [h1], by rw [h1], ?_, ?_, ?_⟩
  · rw [h1]
    exact lookup_append_new _ _ _ hnew
  · intro Other hne
    rw [h1]
    exact lookup_append_other _ _ _ _ hne
  · intro H2 st2 h2
    simp only [FindOrRegisterModule, h2]

/-- After the first call the output directory is reconfigured and the plugin classification
changes; a fresh resolution would now give another directory, the later call returns the
entry of the first call and changes nothing. -/
theorem FindOrRegisterModule_memoized_witness :
    ResolveModuleDirectory exHostEnginePlugin "Elsewhere" "Engine"
      ≠ (FindOrRegisterModule exHost exStart "Engine").1.Directory
    ∧ FindOrRegisterModule exHostEnginePlugin
        { (FindOrRegisterModule exHost exStart "Engine").2 with
          GeneratedScriptsDirectory := "Elsewhere" } "Engine"
      = ((FindOrRegisterModule exHost exStart "Engine").1,
          { (FindOrRegisterModule exHost exStart "Engine").2 with
            GeneratedScriptsDirectory := "Elsewhere" }) :=
  ⟨by decide,
   (FindOrRegisterModule_memoized exHost exStart "Engine" (by decide)).2.2.2.2
     exHostEnginePlugin _
     ((FindOrRegisterModule_memoized exHost exStart "Engine" (by decide)).2.2.1)⟩

theorem FinishGlueForType_rel (H : FHost) (R : FCSGenerator → FCSGenerator → Prop)
    (hrefl : ∀ st, R st st)
    (hsave : ∀ st Id Object Builder, R st (SaveTypeGlue H st Id Object Builder))
    (st : FCSGenerator) (Id : ObjId) (Object : UObjectBase) (Builder : FCSScriptBuilder) :
    R st (FinishGlueForType H st Id Object Builder) := by
  unfold FinishGlueForType
  split
  · exact hrefl st
  · exact hsave st Id Object Builder

theorem GenerateGlueForTypeBody_rel (P : FCSPolicy) (H : FHost) (G : ObjectGraph)
    (R : FCSGenerator → FCSGenerator → Prop)
    (hrefl : ∀ st, R st st) (htrans : ∀ a b c, R a b → R b c → R a c)
    (hframe : ∀ a b, Frame a b → R a b)
    (hsave : ∀ st Id Object Builder, R st (SaveTypeGlue H st Id Object Builder))
    (henter : ∀ st Id Class, G.get? Id = some (UObject.Class Class) → Id ∉ st.ExportedTypes →
      R st (EnterExportClass H st Id Class))
    (Call : FCSGenerator → ObjId → Option FCSGenerator)
    (hcall : ∀ st2 S st3, Call st2 S = some st3 → R st2 st3)
    (st : FCSGenerator) (Id : ObjId) (bForceExport : Bool) (st1 : FCSGenerator)
    (h : GenerateGlueForTypeBody P H G Call st Id bForceExport = some st1) :
    R st st1 := by
  have hfin := FinishGlueForType_rel H R hrefl hsave
  by_cases hnew : Id ∈ st.ExportedTypes
  · have hc : st.ExportedTypes.contains Id = true := by simpa using hnew
    simp only [GenerateGlueForTypeBody, hc, if_true, Option.some.injEq] at h
    subst h; exact hrefl _
  have hc : st.ExportedTypes.contains Id = false := by simpa using hnew
  have hreg := fun M => hframe _ _ (RegisterClassToModule_frame H st M)
  by_cases hreach : ∃ Class, G.get? Id = some (UObject.Class Class)
      ∧ Class.ReachesExportClass bForceExport
  · obtain ⟨Class, hobj, hreach⟩ := hreach
    rw [GenerateGlueForTypeBody_class P H G Call st Id Class bForceExport hobj hnew hreach] at h
    simp only [Option.map_eq_some'] at h
    obtain ⟨st3, h3, hleave⟩ := h
    subst hleave
    have h13 : R st st3 := by
      refine htrans _ _ _ (henter st Id Class hobj hnew) ?_
      cases hs : Class.SuperClass with
      | none =>
        simp only [hs, Option.some.injEq] at h3
        subst h3; exact hrefl _
      | some S =>
        simp only [hs] at h3
        exact hcall _ _ _ h3
    refine htrans _ _ _ h13 ?_
    unfold LeaveExportClass
    exact htrans _ _ _ (hframe _ _ (ExportClassBody_frame P H st3 Id Class _)) (hfin _ _ _ _)
  · unfold GenerateGlueForTypeBody at h
    simp only [hc, Bool.false_eq_true, if_false] at h
    split at h
    · cases h; exact hrefl _
    next Obj hobj =>
      split at h
      · cases h; exact hrefl _
      next htr =>
        split at h
        next Class =>
          split at h
          · cases h; exact hrefl _
          next h1 =>
          split at h
          · cases h; exact hrefl _
          next h2 =>
          split at h
          · cases h; exact hrefl _
          next h3 =>
          split at h
          · cases h; exact hrefl _
          next h4 =>
          split at h
          · cases h; exact hrefl _
          next h5 =>
          split at h
          · cases h
            exact htrans _ _ _ (hreg _)
              (htrans _ _ _ (hframe _ _ (ExportInterface_frame P H _ Id Class []))
                (hfin _ Id _ _))
          next hif =>
          split at h
          next hexp =>
            exfalso
            apply hreach
            refine ⟨Class, hobj, ?_, ?_, ?_, hexp⟩
            · simpa [UObject.Base] using htr
            · rw [UClass.not_skipped_iff]
              refine ⟨?_, ?_, ?_, ?_, ?_⟩ <;> simp_all
            · simpa using hif
          · cases h
            exact htrans _ _ _ (hreg _) (hfin _ Id _ _)
        next Struct =>
          split at h
          · cases h
            exact htrans _ _ _ (hframe _ _ (ExportStruct_frame P H st Id Struct []))
              (hfin _ Id _ _)
          · cases h; exact hfin _ Id _ _
        next Enum =>
          split at h
          · cases h
            exact htrans _ _ _ (hframe _ _ (ExportEnum_frame P H st Id Enum []))
              (hfin _ Id _ _)
          · cases h; exact hfin _ Id _ _
        next O =>
          cases h; exact hfin _ Id _ _

/-- Induction over a run of `GenerateGlueForType`: a relation between generator states that
is reflexive and transitive, holds across every step that leaves the exported-type set and
the persistence trace alone, across every save of a unit and across the entry of a class
into `ExportClass`, holds between the state before and the state after the run. -/
theorem GenerateGlueForType_rel (P : FCSPolicy) (H : FHost) (G : ObjectGraph)
    (R : FCSGenerator → FCSGenerator → Prop)
    (hrefl : ∀ st, R st st) (htrans : ∀ a b c, R a b → R b c → R a c)
    (hframe : ∀ a b, Frame a b → R a b)
    (hsave : ∀ st Id Object Builder, R st (SaveTypeGlue H st Id Object Builder))
    (henter : ∀ st Id Class, G.get? Id = some (UObject.Class Class) → Id ∉ st.ExportedTypes →
      R st (EnterExportClass H st Id Class)) :
    ∀ (Depth : Nat) (st : FCSGenerator) (Id : ObjId) (bForceExport : Bool) (st1 : FCSGenerator),
      GenerateGlueForType P H G Depth st Id bForceExport = some st1 → R st st1 := by
  intro Depth
  induction Depth with
  | zero =>
    intro st Id f st1 h
    rw [GenerateGlueForType_eq] at h
    exact GenerateGlueForTypeBody_rel P H G R hrefl htrans hframe hsave henter _
      (fun _ _ _ hn => by simp [SuperCall] at hn) st Id f st1 h
  | succ D ih =>
    intro st Id f st1 h
    rw [GenerateGlueForType_eq] at h
    exact GenerateGlueForTypeBody_rel P H G R hrefl htrans hframe hsave henter _
      (fun st2 S st3 hs => ih st2 S true st3 hs) st Id f st1 h

/-! ## Enum units, interface functions, batches, failed directories, the internal allow list -/

theorem SaveGlue_eq (H : FHost) (st : FCSGenerator) (Bindings : FCSModule)
    (Filename : FString) (Glue : FCSScriptBuilder) :
    SaveGlue H st Bindings Filename Glue
      = { st with Persistence := st.Persistence ++
            [if H.CreateDirectoryTree Bindings.GeneratedSourceDirectory then
               PersistenceCall.SaveFileIfChanged
                 (Bindings.GeneratedSourceDirectory ++ "/" ++ Filename) Glue
             else PersistenceCall.CreateDirectoryTreeFailed
                 Bindings.GeneratedSourceDirectory] } := by
  unfold SaveGlue FPaths.Combine
  cases h : H.CreateDirectoryTree Bindings.GeneratedSourceDirectory <;> simp [h]

theorem SaveGlue_writes (H : FHost) (st : FCSGenerator) (Bindings : FCSModule)
    (Filename : FString) (Glue : FCSScriptBuilder) :
    ∃ Last, Last ≠ PersistenceCall.RenameTempFiles
      ∧ (SaveGlue H st Bindings Filename Glue).Persistence = st.Persistence ++ [Last] := by
  rw [SaveGlue_eq]
  refine ⟨_, ?_, rfl⟩
  split <;> exact fun h => by cases h

theorem SaveTypeGlue_writes (H : FHost) (st : FCSGenerator) (Id : ObjId) (Object : UObjectBase)
    (Builder : FCSScriptBuilder) : WritesOnly st (SaveTypeGlue H st Id Object Builder) := by
  unfold SaveTypeGlue
  dsimp only
  have hf := FindOrRegisterModule_frame H
    { st with Persistence := st.Persistence ++ [PersistenceCall.SaveTypeGlue Id Builder] }
    Object.ModuleFName
  obtain ⟨Last, hne, h2⟩ := SaveGlue_writes H
    (FindOrRegisterModule H
      { st with Persistence := st.Persistence ++ [PersistenceCall.SaveTypeGlue Id Builder] }
      Object.ModuleFName).2
    (FindOrRegisterModule H
      { st with Persistence := st.Persistence ++ [PersistenceCall.SaveTypeGlue Id Builder] }
      Object.ModuleFName).1
    (Object.Name ++ ".generated.cs") Builder
  refine ⟨[PersistenceCall.SaveTypeGlue Id Builder, Last], ?_, ?_⟩
  · rw [h2, hf.2]
    simp
  · intro hm
    simp only [List.mem_cons, List.mem_singleton, List.not_mem_nil, or_false] at hm
    rcases hm with hm | hm
    · cases hm
    · exact hne hm.symm

theorem WritesOnly.same (st : FCSGenerator) : WritesOnly st st :=
  ⟨[], by simp, by simp⟩

theorem WritesOnly.chain {a b c : FCSGenerator} (h1 : WritesOnly a b) (h2 : WritesOnly b c) :
    WritesOnly a c := by
  obtain ⟨p1, hp1, hn1⟩ := h1
  obtain ⟨p2, hp2, hn2⟩ := h2
  refine ⟨p1 ++ p2, by rw [hp2, hp1, List.append_assoc], ?_⟩
  intro hm
  rcases List.mem_append.mp hm with h | h
  · exact hn1 h
  · exact hn2 h

theorem GenerateGlueForType_writes (P : FCSPolicy) (H : FHost) (G : ObjectGraph) (Depth : Nat)
    (st : FCSGenerator) (Id : ObjId) (bForceExport : Bool) (st1 : FCSGenerator)
    (h : GenerateGlueForType P H G Depth st Id bForceExport = some st1) : WritesOnly st st1 := by
  refine GenerateGlueForType_rel P H G WritesOnly WritesOnly.same
    (fun _ _ _ h1 h2 => h1.chain h2) ?_ (SaveTypeGlue_writes H) ?_ Depth st Id bForceExport st1 h
  · intro a b hf
    exact ⟨[], by simp [hf.2], by simp⟩
  · intro st Id Class _ _
    exact ⟨[], by simp [(EnterExportClass_spec H st Id Class).2], by simp⟩

/-- Every call of `GenerateGlueForType` adds only classes to the exported-type set. -/
theorem GenerateGlueForType_adds_only_classes (P : FCSPolicy) (H : FHost) (G : ObjectGraph)
    (Depth : Nat) (st : FCSGenerator) (Id : ObjId) (bForceExport : Bool) (st1 : FCSGenerator)
    (h : GenerateGlueForType P H G Depth st Id bForceExport = some st1) :
    AddsOnlyClasses G st st1 := by
  refine GenerateGlueForType_rel P H G (AddsOnlyClasses G) ?_ ?_ ?_ ?_ ?_
    Depth st Id bForceExport st1 h
  · intro st T hT; exact Or.inl hT
  · intro a b c h1 h2 T hT
    rcases h2 T hT with hb | hc
    · exact h1 T hb
    · exact Or.inr hc
  · intro a b hf T hT
    rw [hf.1] at hT; exact Or.inl hT
  · intro st Id Object Builder T hT
    rw [(SaveTypeGlue_spec H st Id Object Builder).1] at hT; exact Or.inl hT
  · intro st Id Class hobj _ T hT
    rw [(EnterExportClass_spec H st Id Class).1] at hT
    rcases List.mem_append.mp hT with hm | hm
    · exact Or.inl hm
    · have : T = Id := by simpa using hm
      subst this
      exact Or.inr ⟨Class, hobj⟩

theorem ExportEnum_builder_isEmpty (P : FCSPolicy) (H : FHost) (st : FCSGenerator) (Id : ObjId)
    (Enum : UEnum) :
    FCSScriptBuilder.IsEmpty (ExportEnum P H st Id Enum []).1
      = !(P.Whitelist.HasEnum Id || !P.Blacklist.HasEnum Id) := by
  unfold ExportEnum FCSScriptBuilder.IsEmpty
  split
  next h => simp [h]
  next h =>
    have : (P.Whitelist.HasEnum Id || !P.Blacklist.HasEnum Id) = false := by simpa using h
    simp [this]

/-- C15, as the code has it: for an enum outside the transient package (and not in the
exported-type set, which only ever holds classes), `GenerateGlueForType` returns, and it
hands an enum unit to persistence exactly when the enum is forced or selected by
`ShouldExportEnum`, and whitelisted or not blacklisted; otherwise the persistence trace is
unchanged. -/
theorem GenerateGlueForType_enum (P : FCSPolicy) (H : FHost) (G : ObjectGraph) (Depth : Nat)
    (st : FCSGenerator) (Id : ObjId) (Enum : UEnum) (bForceExport : Bool)
    (hobj : G.get? Id = some (UObject.Enum Enum))
    (htr : Enum.Base.InTransientPackage = false) (hnew : Id ∉ st.ExportedTypes) :
    ∃ st1, GenerateGlueForType P H G Depth st Id bForceExport = some st1
      ∧ ((EnumIsExported P Id Enum bForceExport = true
            ∧ ∃ Glue Last, st1.Persistence
                = st.Persistence ++ [PersistenceCall.SaveTypeGlue Id Glue, Last])
          ∨ (EnumIsExported P Id Enum bForceExport = false
            ∧ st1.Persistence = st.Persistence)) := by
  have hc : st.ExportedTypes.contains Id = false := by simpa using hnew
  rw [GenerateGlueForType_eq]
  unfold GenerateGlueForTypeBody EnumIsExported
  simp only [hc, Bool.false_eq_true, if_false, hobj, UObject.Base, htr]
  by_cases hsel : (bForceExport || Enum.ShouldExportEnum) = true
  · simp only [hsel, if_true, Bool.true_and]
    refine ⟨_, rfl, ?_⟩
    unfold FinishGlueForType
    rw [ExportEnum_builder_isEmpty]
    cases hl : (P.Whitelist.HasEnum Id || !P.Blacklist.HasEnum Id) with
    | true =>
      left
      simp only [Bool.not_true, Bool.false_eq_true, if_false, true_and]
      obtain ⟨_, Last, h2⟩ := SaveTypeGlue_spec H (ExportEnum P H st Id Enum []).2 Id Enum.Base
        (ExportEnum P H st Id Enum []).1
      exact ⟨_, Last, by rw [h2, (ExportEnum_frame P H st Id Enum []).2]⟩
    | false =>
      right
      simp only [Bool.not_false, if_true, true_and]
      exact (ExportEnum_frame P H st Id Enum []).2
  · have hsel2 : (bForceExport || Enum.ShouldExportEnum) = false := by simpa using hsel
    simp only [hsel2, Bool.false_eq_true, if_false, Bool.false_and]
    refine ⟨_, rfl, Or.inr ⟨trivial, ?_⟩⟩
    simp [FinishGlueForType, FCSScriptBuilder.IsEmpty]

theorem GenerateGlueForType_enum_witness :
    ∃ st1, GenerateGlueForType exPolicy exHost exGraphEnum 0 exStart 0 false = some st1
      ∧ ((EnumIsExported exPolicy 0 exEnumABC false = true
            ∧ ∃ Glue Last, st1.Persistence
                = exStart.Persistence ++ [PersistenceCall.SaveTypeGlue 0 Glue, Last])
          ∨ (EnumIsExported exPolicy 0 exEnumABC false = false
            ∧ st1.Persistence = exStart.Persistence)) :=
  GenerateGlueForType_enum exPolicy exHost exGraphEnum 0 exStart 0 exEnumABC false
    (by decide) (by decide) (by decide)

/-- C15 as stated fails: an enum that is not blacklisted but not selected by
`ShouldExportEnum` gets no unit on an unforced call, and a unit on a forced one. -/
theorem Unselected_enum_needs_force :
    exPolicy.Blacklist.HasEnum 0 = false
    ∧ (GenerateGlueForType exPolicy exHost exGraphUnexposedEnum 0 exStart 0 false).map SavedUnits
        = some []
    ∧ (GenerateGlueForType exPolicy exHost exGraphUnexposedEnum 0 exStart 0 true).map SavedUnits
        = some [0] := by
  decide

theorem GenerateGlueForType_some (P : FCSPolicy) (H : FHost) (G : ObjectGraph) (Depth : Nat)
    (st : FCSGenerator) (Id : ObjId) (bForceExport : Bool) (hDepth : G.length ≤ Depth) :
    ∃ st1, GenerateGlueForType P H G Depth st Id bForceExport = some st1 :=
  Option.isSome_iff_exists.mp
    (GenerateGlueForType_isSome P H G Depth st Id bForceExport
      (le_trans (Unexported_le G st.ExportedTypes) hDepth))

theorem GenerateGlueForTypesLoop_foldlM (P : FCSPolicy) (H : FHost) (G : ObjectGraph)
    (Depth : Nat) : ∀ (ObjectsToProcess : List ObjId) (st : FCSGenerator),
    GenerateGlueForTypesLoop P H G Depth st ObjectsToProcess
      = ObjectsToProcess.foldlM
          (fun s ObjectToProcess => GenerateGlueForType P H G Depth s ObjectToProcess false) st := by
  intro Objs
  induction Objs with
  | nil => intro st; rfl
  | cons Obj Rest ih =>
    intro st
    rw [List.foldlM_cons]
    unfold GenerateGlueForTypesLoop
    cases h : GenerateGlueForType P H G Depth st Obj false with
    | none => rfl
    | some st1 => exact ih st1

theorem GenerateGlueForTypesLoop_writes (P : FCSPolicy) (H : FHost) (G : ObjectGraph)
    (Depth : Nat) (hDepth : G.length ≤ Depth) :
    ∀ (ObjectsToProcess : List ObjId) (st : FCSGenerator),
      ∃ st2, GenerateGlueForTypesLoop P H G Depth st ObjectsToProcess = some st2
        ∧ WritesOnly st st2 := by
  intro Objs
  induction Objs with
  | nil => intro st; exact ⟨st, rfl, WritesOnly.same st⟩
  | cons Obj Rest ih =>
    intro st
    obtain ⟨st1, h1⟩ := GenerateGlueForType_some P H G Depth st Obj false hDepth
    obtain ⟨st2, h2, hw⟩ := ih st1
    refine ⟨st2, ?_, (GenerateGlueForType_writes P H G Depth st Obj false st1 h1).chain hw⟩
    unfold GenerateGlueForTypesLoop
    rw [h1]
    exact h2

/-- C19: with a depth bound as large as the object graph, `GenerateGlueForTypes` runs
`GenerateGlueForType` (unforced) over the objects of the batch in order, each on the state
the previous one left; what the batch appends to the persistence trace is the writes of
those calls, none of them a commit, followed by exactly one `RenameTempFiles`.
`OnModulesChanged` returns the state unchanged when the reason is not `ModuleLoaded` or the
package is not found, and otherwise is `GenerateGlueForTypes` on the objects of the
package. -/
theorem GenerateGlueForTypes_commit (P : FCSPolicy) (H : FHost) (G : ObjectGraph) (Depth : Nat)
    (st : FCSGenerator) (ObjectsToProcess : List ObjId)
    (FindPackage : FString → Option (List ObjId)) (InModuleName : FName)
    (InModuleChangeReason : EModuleChangeReason) (hDepth : G.length ≤ Depth) :
    (∃ st2 Writes,
        ObjectsToProcess.foldlM
          (fun s ObjectToProcess => GenerateGlueForType P H G Depth s ObjectToProcess false) st
          = some st2
        ∧ st2.Persistence = st.Persistence ++ Writes
        ∧ PersistenceCall.RenameTempFiles ∉ Writes
        ∧ GenerateGlueForTypes P H G Depth st ObjectsToProcess
            = some { st2 with Persistence :=
                       st.Persistence ++ Writes ++ [PersistenceCall.RenameTempFiles] })
    ∧ OnModulesChanged P H G Depth FindPackage st InModuleName InModuleChangeReason
        = (if InModuleChangeReason = EModuleChangeReason.ModuleLoaded then
             match FindPackage ("/Script/" ++ InModuleName) with
             | some PackageObjects => GenerateGlueForTypes P H G Depth st PackageObjects
             | none => some st
           else some st) := by
  constructor
  · obtain ⟨st2, h2, Writes, hp, hn⟩ := GenerateGlueForTypesLoop_writes P H G Depth hDepth
      ObjectsToProcess st
    refine ⟨st2, Writes, ?_, hp, hn, ?_⟩
    · rw [← GenerateGlueForTypesLoop_foldlM]; exact h2
    · unfold GenerateGlueForTypes
      rw [h2]
      simp only [hp]
  · unfold OnModulesChanged
    cases InModuleChangeReason
    · cases hp : FindPackage ("/Script/" ++ InModuleName) <;> simp
    · simp
    · simp

theorem GenerateGlueForTypes_commit_witness :
    exGraphTwoEnums.length ≤ 2
    ∧ (∃ st2 Writes,
        [0, 1].foldlM
          (fun s ObjectToProcess =>
            GenerateGlueForType exPolicy exHost exGraphTwoEnums 2 s ObjectToProcess false) exStart
          = some st2
        ∧ st2.Persistence = exStart.Persistence ++ Writes
        ∧ PersistenceCall.RenameTempFiles ∉ Writes
        ∧ GenerateGlueForTypes exPolicy exHost exGraphTwoEnums 2 exStart [0, 1]
            = some { st2 with Persistence :=
                       exStart.Persistence ++ Writes ++ [PersistenceCall.RenameTempFiles] }) :=
  ⟨by decide,
   (GenerateGlueForTypes_commit exPolicy exHost exGraphTwoEnums 2 exStart [0, 1]
      (fun _ => none) "Engine" EModuleChangeReason.ModuleLoaded (by decide)).1⟩

/-- On the two-enum graph a batch of both commits once, after the two writes of each unit;
a module event starts that batch only for a loaded module whose package is found. -/
theorem GenerateGlueForTypes_two_enums :
    ((GenerateGlueForTypes exPolicy exHost exGraphTwoEnums 2 exStart [0, 1]).map
        (fun st => st.Persistence.map PersistenceCall.SavedObject))
      = some [some 0, none, some 1, none, none]
    ∧ ((GenerateGlueForTypes exPolicy exHost exGraphTwoEnums 2 exStart [0, 1]).map
        (fun st => st.Persistence.getLast?)) = some (some PersistenceCall.RenameTempFiles)
    ∧ OnModulesChanged exPolicy exHost exGraphTwoEnums 2 (fun _ => some [0, 1]) exStart "Engine"
        EModuleChangeReason.ModuleUnloaded = some exStart
    ∧ OnModulesChanged exPolicy exHost exGraphTwoEnums 2 (fun _ => none) exStart "Engine"
        EModuleChangeReason.ModuleLoaded = some exStart := by
  decide

/-- C20: `SaveGlue` appends one call to the persistence trace and changes nothing else:
when the directory tree of the module cannot be created, the report of that failure and no
file write; when it can, one `SaveFileIfChanged` at `<directory>/<filename>` with the text.
Whatever the host answers, with a depth bound as large as the object graph
`GenerateGlueForType` returns for the first object of a batch, and the batch goes on over
the remaining objects from the state that call left and returns. -/
theorem SaveGlue_directory_failure (P : FCSPolicy) (H : FHost) (G : ObjectGraph) (Depth : Nat)
    (st : FCSGenerator) (Bindings : FCSModule) (Filename : FString) (Glue : FCSScriptBuilder)
    (ObjectToProcess : ObjId) (Rest : List ObjId) (hDepth : G.length ≤ Depth) :
    SaveGlue H st Bindings Filename Glue
      = { st with Persistence := st.Persistence ++
            [if H.CreateDirectoryTree Bindings.GeneratedSourceDirectory then
               PersistenceCall.SaveFileIfChanged
                 (Bindings.GeneratedSourceDirectory ++ "/" ++ Filename) Glue
             else PersistenceCall.CreateDirectoryTreeFailed
                 Bindings.GeneratedSourceDirectory] }
    ∧ ∃ st1 st2, GenerateGlueForType P H G Depth st ObjectToProcess false = some st1
        ∧ GenerateGlueForTypes P H G Depth st1 Rest = some st2
        ∧ GenerateGlueForTypes P H G Depth st (ObjectToProcess :: Rest) = some st2 := by
  refine ⟨SaveGlue_eq H st Bindings Filename Glue, ?_⟩
  obtain ⟨st1, h1⟩ := GenerateGlueForType_some P H G Depth st ObjectToProcess false hDepth
  obtain ⟨st2, h2, _⟩ := GenerateGlueForTypesLoop_writes P H G Depth hDepth Rest st1
  refine ⟨st1, { st2 with Persistence := st2.Persistence ++ [PersistenceCall.RenameTempFiles] },
    h1, ?_, ?_⟩
  · unfold GenerateGlueForTypes
    rw [h2]
  · unfold GenerateGlueForTypes GenerateGlueForTypesLoop
    rw [h1]
    simp only [h2]

theorem SaveGlue_directory_failure_witness :
    exGraphTwoEnums.length ≤ 2
    ∧ SaveGlue exHostNoDirectories exStart (FCSModule.Make exHostNoDirectories "Engine" "Generated")
        "ETest.generated.cs" []
      = { exStart with Persistence := exStart.Persistence ++
            [if exHostNoDirectories.CreateDirectoryTree
                (FCSModule.Make exHostNoDirectories "Engine" "Generated").GeneratedSourceDirectory
             then
               PersistenceCall.SaveFileIfChanged
                 ((FCSModule.Make exHostNoDirectories "Engine" "Generated").GeneratedSourceDirectory
                   ++ "/" ++ "ETest.generated.cs") []
             else PersistenceCall.CreateDirectoryTreeFailed
                 (FCSModule.Make exHostNoDirectories "Engine" "Generated").GeneratedSourceDirectory] }
    ∧ ∃ st1 st2,
        GenerateGlueForType exPolicy exHostNoDirectories exGraphTwoEnums 2 exStart 0 false
          = some st1
        ∧ GenerateGlueForTypes exPolicy exHostNoDirectories exGraphTwoEnums 2 st1 [1] = some st2
        ∧ GenerateGlueForTypes exPolicy exHostNoDirectories exGraphTwoEnums 2 exStart [0, 1]
            = some st2 :=
  ⟨by decide,
   SaveGlue_directory_failure exPolicy exHostNoDirectories exGraphTwoEnums 2 exStart
     (FCSModule.Make exHostNoDirectories "Engine" "Generated") "ETest.generated.cs" [] 0 [1]
     (by decide)⟩

/-- On a file system where no directory can be created, a batch of two enums still hands
both units to persistence; each write is abandoned with a report, no file is written, and
the batch commits. -/
theorem Failed_directory_does_not_stop_batch :
    (GenerateGlueForTypes exPolicy exHostNoDirectories exGraphTwoEnums 2 exStart [0, 1]).map
        (fun st => st.Persistence.map (fun Call =>
          match Call with
          | PersistenceCall.SaveTypeGlue Id _ => "unit " ++ toString Id
          | PersistenceCall.CreateDirectoryTreeFailed _ => "directory failed"
          | PersistenceCall.SaveFileIfChanged _ _ => "file written"
          | PersistenceCall.RenameTempFiles => "commit"))
      = some ["unit 0", "directory failed", "unit 1", "directory failed", "commit"] := by
  decide

theorem GetExportedOwnFunctions_fst (P : FCSPolicy) (Class : UStruct) :
    ∀ (Functions : List UFunction) (st : FCSGenerator)
      (ExportedFunctions ExportedOverridableFunctions : List UFunction),
      (GetExportedOwnFunctions P Class st Functions ExportedFunctions
          ExportedOverridableFunctions).1
        = (ExportedFunctions ++ Functions.filter (fun F =>
              CanExportFunctionAnswer P Class F && !F.FUNC_BlueprintEvent),
           ExportedOverridableFunctions ++ Functions.filter (fun F =>
              CanExportFunctionAnswer P Class F && F.FUNC_BlueprintEvent)) := by
  intro Functions
  induction Functions with
  | nil => intro st N O; simp [GetExportedOwnFunctions]
  | cons F Rest ih =>
    intro st N O
    unfold GetExportedOwnFunctions
    dsimp only
    rw [CanExportFunction_fst]
    cases ha : CanExportFunctionAnswer P Class F with
    | false => simp [ih, ha]
    | true =>
      cases he : F.FUNC_BlueprintEvent with
      | false => simp [ih, ha, he]
      | true => simp [ih, ha, he]

/-- On the example interface only the exportable event is emitted. -/
theorem ExportInterface_example :
    ((ExportInterface exPolicy exHost exStart 0 exInterface []).1.filterMap
        BuilderOp.InterfaceFunction).map (fun F => F.Name) = ["OnUse"] := by
  decide

/-- On the example interface that implements another one, the own exportable event comes
first and the implemented interface adds the first event of the one new name. -/
theorem ExportInterface_inherited_example :
    (ExportInterface exPolicy exHost exStart 0 exInterfaceWithParent []).1.filterMap
        BuilderOp.InterfaceFunction
      = [{ exPlainFunction with Name := "OnUse", FUNC_BlueprintEvent := true },
         { exPlainFunction with Name := "OnDrop", FUNC_BlueprintEvent := true }] := by
  decide

theorem StartGenerator_some (H : FHost) (G : ObjectGraph) (Depth : Nat)
    (UInterfaceClass UObjectClass : ObjId) (FieldObjects : List ObjId)
    (Gen : FCSGeneratorInstance) (OutputDirectory : FString) (hDepth : G.length ≤ Depth) :
    ∃ Gen1, StartGenerator H G Depth UInterfaceClass UObjectClass FieldObjects Gen OutputDirectory
        = some Gen1
      ∧ Gen1.Initialized = true
      ∧ Gen1.BlueprintInternalWhitelist
          = if Gen.Initialized then Gen.BlueprintInternalWhitelist
            else Gen.BlueprintInternalWhitelist.AddFunction AActor_FName
              UserConstructionScript_FName := by
  unfold StartGenerator
  cases hi : Gen.Initialized with
  | true => exact ⟨Gen, by simp, hi, by simp⟩
  | false =>
    simp only [Bool.false_eq_true, if_false]
    obtain ⟨st1, h1⟩ := GenerateGlueForType_some
      ((StartGeneratorLists Gen OutputDirectory).Policy G) H G Depth
      (StartGeneratorLists Gen OutputDirectory).Members UInterfaceClass true hDepth
    obtain ⟨st2, h2⟩ := GenerateGlueForType_some
      ((StartGeneratorLists Gen OutputDirectory).Policy G) H G Depth st1 UObjectClass true hDepth
    obtain ⟨st3, h3, _⟩ := GenerateGlueForTypesLoop_writes
      ((StartGeneratorLists Gen OutputDirectory).Policy G) H G Depth hDepth FieldObjects st2
    refine ⟨{ StartGeneratorLists Gen OutputDirectory with
               Members := { st3 with Persistence :=
                              st3.Persistence ++ [PersistenceCall.RenameTempFiles] } },
      ?_, rfl, rfl⟩
    simp only [h1, h2, GenerateGlueForTypes, h3]

/-- C12: a function marked latent or internal-only that is not in the internal allow list
is rejected by `CanExportFunction`; and `StartGenerator`, on a generator object whose
internal allow list is as constructed and with a depth bound as large as the object graph,
returns a generator whose internal allow list has the single entry
(`AActor`, `UserConstructionScript`), so that afterwards the list answers yes exactly for a
function of that name asked about for an owner of that name. -/
theorem CanExportFunction_internal_allow_list (P : FCSPolicy) (st : FCSGenerator)
    (Struct : UStruct) (F : UFunction) (H : FHost) (G : ObjectGraph) (Depth : Nat)
    (UInterfaceClass UObjectClass : ObjId) (FieldObjects : List ObjId)
    (Gen : FCSGeneratorInstance) (OutputDirectory : FString)
    (hl : IsLatentOrInternalOnly F = true)
    (hn : P.BlueprintInternalWhitelist.HasFunction Struct F = false)
    (hDepth : G.length ≤ Depth) (hGen : InternalAllowListAsConstructed Gen) :
    (CanExportFunction P st Struct F).1 = false
    ∧ ∃ Gen1,
        StartGenerator H G Depth UInterfaceClass UObjectClass FieldObjects Gen OutputDirectory
          = some Gen1
        ∧ Gen1.BlueprintInternalWhitelist
            = { FCSInclusionEntries.Empty with
                Functions := [(AActor_FName, UserConstructionScript_FName)] }
        ∧ (Gen1.Policy G).BlueprintInternalWhitelist.HasFunction Struct F
            = (ObjectFName G Struct.Id == some AActor_FName
                && F.Name == UserConstructionScript_FName) := by
  refine ⟨CanExportFunction_internal_rejected P st Struct F hl hn, ?_⟩
  obtain ⟨Gen1, h1, _, h3⟩ := StartGenerator_some H G Depth UInterfaceClass UObjectClass
    FieldObjects Gen OutputDirectory hDepth
  have hlist : Gen1.BlueprintInternalWhitelist = StartedInternalAllowList := by
    rw [h3]
    unfold InternalAllowListAsConstructed at hGen
    cases hi : Gen.Initialized with
    | true => rw [hGen, hi]; rfl
    | false => rw [hGen, hi]; rfl
  refine ⟨Gen1, h1, hlist, ?_⟩
  unfold FCSGeneratorInstance.Policy FCSInclusionEntries.Queries
  simp only [hlist]
  cases hname : ObjectFName G Struct.Id with
  | none => simp
  | some Name =>
    simp [StartedInternalAllowList, FCSInclusionEntries.Empty, Prod.ext_iff]
    rfl

theorem CanExportFunction_internal_allow_list_witness :
    IsLatentOrInternalOnly exLatentFunction = true
    ∧ exPolicy.BlueprintInternalWhitelist.HasFunction ⟨0, true⟩ exLatentFunction = false
    ∧ exGraphActor.length ≤ 2
    ∧ InternalAllowListAsConstructed exNewGenerator
    ∧ (CanExportFunction exPolicy exStart ⟨0, true⟩ exLatentFunction).1 = false
    ∧ ∃ Gen1,
        StartGenerator exHost exGraphActor 2 1 1 [0, 1] exNewGenerator "Generated" = some Gen1
        ∧ Gen1.BlueprintInternalWhitelist
            = { FCSInclusionEntries.Empty with
                Functions := [(AActor_FName, UserConstructionScript_FName)] }
        ∧ (Gen1.Policy exGraphActor).BlueprintInternalWhitelist.HasFunction ⟨0, true⟩
              exLatentFunction
            = (ObjectFName exGraphActor 0 == some AActor_FName
                && exLatentFunction.Name == UserConstructionScript_FName) :=
  ⟨by decide, by decide, by decide, rfl,
   CanExportFunction_internal_allow_list exPolicy exStart ⟨0, true⟩ exLatentFunction exHost
     exGraphActor 2 1 1 [0, 1] exNewGenerator "Generated" (by decide) (by decide) (by decide)
     rfl⟩

/-- After `StartGenerator` on a new generator over the example graph, the internal allow
list admits `UserConstructionScript` of `Actor`, and neither another function of `Actor`
nor a function of that name on another class. -/
theorem StartGenerator_example :
    (StartGenerator exHost exGraphActor 2 1 1 [0, 1] exNewGenerator "Generated").map
        (fun Gen1 =>
          ((Gen1.Policy exGraphActor).BlueprintInternalWhitelist.HasFunction ⟨0, true⟩
              (exFunction "UserConstructionScript" [] []),
           (Gen1.Policy exGraphActor).BlueprintInternalWhitelist.HasFunction ⟨0, true⟩
              exLatentFunction,
           (Gen1.Policy exGraphActor).BlueprintInternalWhitelist.HasFunction ⟨1, true⟩
              (exFunction "UserConstructionScript" [] [])))
      = some (true, false, false) := by
  decide

/-! ## Parameter checks, list precedence, diagnostic counters, termination -/

theorem IncrementCounter_tallied (Kind : FName) (Counters : List (FName × Nat)) :
    TalliedOnce Counters (IncrementCounter Kind Counters) Kind := by
  unfold TalliedOnce CounterValue
  induction Counters with
  | nil =>
    refine ⟨by simp [IncrementCounter, List.lookup], ?_⟩
    intro Other hne
    have : (Other == Kind) = false := by simpa using hne
    simp [IncrementCounter, List.lookup, this]
  | cons p rest ih =>
    obtain ⟨k, n⟩ := p
    unfold IncrementCounter
    by_cases hk : (k == Kind) = true
    · have hk2 : k = Kind := by simpa using hk
      subst hk2
      simp only [hk, if_true]
      refine ⟨by simp [List.lookup], ?_⟩
      intro Other hne
      have : (Other == k) = false := by simpa using hne
      simp [List.lookup, this]
    · have hk1 : (k == Kind) = false := by simpa using hk
      have hk2 : (Kind == k) = false := by
        simp only [beq_eq_false_iff_ne, ne_eq] at hk1 ⊢
        exact fun h => hk1 h.symm
      simp only [hk1, Bool.false_eq_true, if_false]
      refine ⟨by simp only [List.lookup, hk2]; exact ih.1, ?_⟩
      intro Other hne
      cases ho : (Other == k) with
      | true => simp [List.lookup, ho]
      | false => simp only [List.lookup, ho]; exact ih.2 Other hne

theorem CanExportParameterLoop_upToReturn (Params : List FProperty) :
    ∀ st : FCSGenerator, CanExportParameterLoop st Params
      = CanExportParameterLoop st (Params.takeWhile (fun Param => !Param.CPF_ReturnParm)) := by
  induction Params with
  | nil => intro st; rfl
  | cons Param Rest ih =>
    intro st
    cases hr : Param.CPF_ReturnParm with
    | true => simp [CanExportParameterLoop, List.takeWhile_cons, hr]
    | false =>
      simp only [CanExportParameterLoop, List.takeWhile_cons, hr, Bool.not_false, if_true,
        Bool.false_eq_true, if_false]
      split
      · rfl
      · exact ih _

/-- C28: `CanExportFunctionParameters` returns true exactly when the return property is
absent or passes `CanExportReturnValue` and every parameter declared before the first
return-flagged one passes `CanExportParameter`; the parameters from the first return-flagged
one on are not examined: cutting them off changes neither the answer nor the counters; and a
parameter or return value whose array dimension is not 1 is rejected. -/
theorem CanExportFunctionParameters_iff (st : FCSGenerator) (F : UFunction)
    (Property : FProperty) :
    ((CanExportFunctionParameters st F).1 = true ↔
        (∀ R, F.ReturnProperty = some R → (CanExportReturnValue st R).1 = true)
        ∧ ∀ Param ∈ ParametersBeforeReturn F, (CanExportParameter st Param).1 = true)
    ∧ CanExportFunctionParameters st F = CanExportFunctionParameters st F.UpToReturn
    ∧ ((Property.ArrayDim == 1) = false →
        (CanExportParameter st Property).1 = false
        ∧ (CanExportReturnValue st Property).1 = false) := by
  refine ⟨?_, ?_, ?_⟩
  · rw [CanExportFunctionParameters_fst]
    unfold FunctionCapabilityGate
    simp only [CanExportReturnValue_fst, CanExportParameter_fst, Bool.and_eq_true,
      List.all_eq_true]
    cases hR : F.ReturnProperty with
    | none => simp
    | some R => simp
  · unfold CanExportFunctionParameters UFunction.UpToReturn ParametersBeforeReturn
    dsimp only
    cases hR : F.ReturnProperty with
    | none =>
      dsimp only
      exact CanExportParameterLoop_upToReturn _ _
    | some R =>
      dsimp only
      split
      · rfl
      · exact CanExportParameterLoop_upToReturn _ _
  · intro hdim
    rw [CanExportParameter_fst, CanExportReturnValue_fst]
    simp [ParameterIsSupported, ReturnValueIsSupported, hdim]

theorem CanExportFunctionParameters_iff_witness :
    (exStaticArray.ArrayDim == 1) = false
    ∧ (CanExportParameter exStart exStaticArray).1 = false
    ∧ (CanExportReturnValue exStart exStaticArray).1 = false :=
  ⟨by decide,
   (CanExportFunctionParameters_iff exStart exReturnFirst exStaticArray).2.2 (by decide)⟩

/-- A parameter with a fixed array dimension declared after the return value does not
change the answer, and a parameter with array dimension 3 is rejected. -/
theorem CanExportFunctionParameters_example :
    (CanExportFunctionParameters exStart exReturnFirst).1 = true
    ∧ CanExportFunctionParameters exStart exReturnFirst
        = CanExportFunctionParameters exStart exReturnFirst.UpToReturn
    ∧ (CanExportParameter exStart exStaticArray).1 = false := by
  decide

/-- C25: a property that is blacklisted for its owner is rejected by `CanExportProperty`
whatever the whitelist says about the property or the owner, and the generator is left as
it was; a function that is both blacklisted and whitelisted for its owner gets past the
blacklist test of `CanExportFunction`: its answer is the one the remaining tests give. -/
theorem Whitelist_overrides_blacklist_for_functions_only (P : FCSPolicy) (st : FCSGenerator)
    (Struct : UStruct) (Property : FProperty) (F : UFunction)
    (hP : P.Blacklist.HasProperty Struct Property = true)
    (hB : P.Blacklist.HasFunction Struct F = true)
    (hW : P.Whitelist.HasFunction Struct F = true) :
    CanExportProperty P st Struct Property = (false, st)
    ∧ (CanExportFunction P st Struct F).1
        = (F.ShouldExportFunction
            && (if IsLatentOrInternalOnly F then P.BlueprintInternalWhitelist.HasFunction Struct F
                else FunctionCapabilityGate F)) := by
  constructor
  · unfold CanExportProperty
    simp [hP]
  · rw [CanExportFunction_fst]
    unfold CanExportFunctionAnswer
    cases hs : F.ShouldExportFunction <;> simp [hB, hW]

theorem Whitelist_overrides_blacklist_for_functions_only_witness :
    exPolicyBothListed.Blacklist.HasProperty ⟨0, true⟩ (exProperty "Health") = true
    ∧ exPolicyBothListed.Blacklist.HasFunction ⟨0, true⟩ exPlainFunction = true
    ∧ exPolicyBothListed.Whitelist.HasFunction ⟨0, true⟩ exPlainFunction = true
    ∧ CanExportProperty exPolicyBothListed exStart ⟨0, true⟩ (exProperty "Health")
        = (false, exStart)
    ∧ (CanExportFunction exPolicyBothListed exStart ⟨0, true⟩ exPlainFunction).1
        = (exPlainFunction.ShouldExportFunction
            && (if IsLatentOrInternalOnly exPlainFunction then
                  exPolicyBothListed.BlueprintInternalWhitelist.HasFunction ⟨0, true⟩
                    exPlainFunction
                else FunctionCapabilityGate exPlainFunction)) :=
  ⟨by decide, by decide, by decide,
   Whitelist_overrides_blacklist_for_functions_only exPolicyBothListed exStart ⟨0, true⟩
     (exProperty "Health") exPlainFunction (by decide) (by decide) (by decide)⟩

/-- A property and a function that are on both lists: the property is rejected, the
function is exported. -/
theorem Both_listed_example :
    (CanExportProperty exPolicyBothListed exStart ⟨0, true⟩ (exProperty "Health")).1 = false
    ∧ (CanExportFunction exPolicyBothListed exStart ⟨0, true⟩ exPlainFunction).1 = true := by
  decide

theorem CanExportProperty_rejected (P : FCSPolicy) (st : FCSGenerator) (Struct : UStruct)
    (Property : FProperty) (h : (CanExportProperty P st Struct Property).1 = false) :
    CanExportProperty P st Struct Property
      = (false, if PropertyPassesPolicyTest P Struct Property then
                  { st with UnhandledProperties :=
                      IncrementCounter Property.ClassFName st.UnhandledProperties }
                else st) := by
  unfold CanExportProperty PropertyPassesPolicyTest at *
  dsimp only at *
  split
  · rename_i h1
    split
    · rfl
    · rename_i h2
      simp only [h1, h2, if_true, if_false] at h
      cases h
  · rename_i h1
    have h1' := Bool.eq_false_iff.mpr h1
    rw [h1']

theorem CanExportReturnValue_rejected (st : FCSGenerator) (Property : FProperty)
    (h : (CanExportReturnValue st Property).1 = false) :
    CanExportReturnValue st Property
      = (false, if Property.ArrayDim == 1 then
                  { st with UnhandledReturnValues :=
                      IncrementCounter Property.ClassFName st.UnhandledReturnValues }
                else st) := by
  unfold CanExportReturnValue at *
  dsimp only at *
  cases hd : (Property.ArrayDim == 1) with
  | false => simp
  | true =>
    simp only [hd, if_true] at h ⊢
    split
    · rfl
    · rename_i h2
      simp only [h2, if_false] at h
      cases h

theorem CanExportParameter_rejected (st : FCSGenerator) (Property : FProperty)
    (h : (CanExportParameter st Property).1 = false) :
    CanExportParameter st Property
      = (false, { st with UnhandledParameters :=
                    IncrementCounter Property.ClassFName st.UnhandledParameters }) := by
  have h0 := h
  rw [CanExportParameter_fst] at h0
  unfold ParameterIsSupported at h0
  unfold CanExportParameter
  dsimp only
  cases hd : (Property.ArrayDim == 1) <;> cases hs : Property.Handler.IsSupportedAsParameter <;>
    cases hc : Property.Handler.CanHandleProperty <;> simp [hd, hs, hc] at h0 ⊢

theorem CanExportOverridableParameter_rejected (st : FCSGenerator) (Property : FProperty)
    (h : (CanExportOverridableParameter st Property).1 = false) :
    CanExportOverridableParameter st Property
      = (false, { st with UnhandledOverridableParameters :=
                    IncrementCounter Property.ClassFName st.UnhandledOverridableParameters }) := by
  unfold CanExportOverridableParameter at *
  dsimp only at *
  cases hd : (Property.ArrayDim == 1) <;>
    cases hs : Property.Handler.IsSupportedAsOverridableFunctionParameter <;>
    cases hc : Property.Handler.CanHandleProperty <;> simp [hd, hs, hc] at h ⊢

theorem CanExportOverridableReturnValue_rejected (st : FCSGenerator) (Property : FProperty)
    (h : (CanExportOverridableReturnValue st Property).1 = false) :
    CanExportOverridableReturnValue st Property
      = (false, { st with UnhandledOverridableReturnValues :=
          IncrementCounter Property.ClassFName st.UnhandledOverridableReturnValues }) := by
  unfold CanExportOverridableReturnValue at *
  dsimp only at *
  cases hd : (Property.ArrayDim == 1) <;>
    cases hs : Property.Handler.IsSupportedAsOverridableFunctionReturnValue <;>
    cases hc : Property.Handler.CanHandleProperty <;> simp [hd, hs, hc] at h ⊢

/-- C22, as the code has it: whenever `CanExportParameter`, `CanExportOverridableParameter`
or `CanExportOverridableReturnValue` returns false for a property, whenever
`CanExportProperty` returns false for a property that passed its policy test, and whenever
`CanExportReturnValue` returns false for a property of array dimension 1, the counter of the
property's kind in the corresponding map went up by one during the call and no other counter
of that map changed; a property that fails the policy test of `CanExportProperty` is
rejected with the generator unchanged. -/
theorem Capability_rejections_tallied (P : FCSPolicy) (st : FCSGenerator) (Struct : UStruct)
    (Property : FProperty) :
    ((CanExportParameter st Property).1 = false →
        TalliedOnce st.UnhandledParameters
          (CanExportParameter st Property).2.UnhandledParameters Property.ClassFName)
    ∧ ((CanExportOverridableParameter st Property).1 = false →
        TalliedOnce st.UnhandledOverridableParameters
          (CanExportOverridableParameter st Property).2.UnhandledOverridableParameters
          Property.ClassFName)
    ∧ ((CanExportOverridableReturnValue st Property).1 = false →
        TalliedOnce st.UnhandledOverridableReturnValues
          (CanExportOverridableReturnValue st Property).2.UnhandledOverridableReturnValues
          Property.ClassFName)
    ∧ ((CanExportProperty P st Struct Property).1 = false →
        PropertyPassesPolicyTest P Struct Property = true →
        TalliedOnce st.UnhandledProperties
          (CanExportProperty P st Struct Property).2.UnhandledProperties Property.ClassFName)
    ∧ ((CanExportReturnValue st Property).1 = false → (Property.ArrayDim == 1) = true →
        TalliedOnce st.UnhandledReturnValues
          (CanExportReturnValue st Property).2.UnhandledReturnValues Property.ClassFName)
    ∧ (PropertyPassesPolicyTest P Struct Property = false →
        CanExportProperty P st Struct Property = (false, st)) := by
  refine ⟨?_, ?_, ?_, ?_, ?_, ?_⟩
  · intro h
    rw [CanExportParameter_rejected st Property h]
    exact IncrementCounter_tallied _ _
  · intro h
    rw [CanExportOverridableParameter_rejected st Property h]
    exact IncrementCounter_tallied _ _
  · intro h
    rw [CanExportOverridableReturnValue_rejected st Property h]
    exact IncrementCounter_tallied _ _
  · intro h hp
    rw [CanExportProperty_rejected P st Struct Property h, hp]
    exact IncrementCounter_tallied _ _
  · intro h hd
    rw [CanExportReturnValue_rejected st Property h, hd]
    exact IncrementCounter_tallied _ _
  · intro hp
    have h : (CanExportProperty P st Struct Property).1 = false := by
      rw [CanExportProperty_fst]
      unfold PropertyPassesPolicyTest at hp
      rw [hp]
      rfl
    rw [CanExportProperty_rejected P st Struct Property h, hp]
    rfl

theorem Capability_rejections_tallied_witness :
    (CanExportParameter exStart exUnhandledProperty).1 = false
    ∧ TalliedOnce exStart.UnhandledParameters
        (CanExportParameter exStart exUnhandledProperty).2.UnhandledParameters
        exUnhandledProperty.ClassFName
    ∧ (CanExportProperty exPolicy exStart ⟨0, true⟩ exUnhandledProperty).1 = false
    ∧ PropertyPassesPolicyTest exPolicy ⟨0, true⟩ exUnhandledProperty = true
    ∧ TalliedOnce exStart.UnhandledProperties
        (CanExportProperty exPolicy exStart ⟨0, true⟩ exUnhandledProperty).2.UnhandledProperties
        exUnhandledProperty.ClassFName :=
  ⟨by decide,
   (Capability_rejections_tallied exPolicy exStart ⟨0, true⟩ exUnhandledProperty).1 (by decide),
   by decide, by decide,
   (Capability_rejections_tallied exPolicy exStart ⟨0, true⟩ exUnhandledProperty).2.2.2.1
     (by decide) (by decide)⟩

/-- C22 as stated fails: a blacklisted property is rejected by `CanExportProperty` and no
counter changes. -/
theorem Blacklisted_property_is_not_tallied :
    (CanExportProperty exPolicyPropertyBlacklisted exStart ⟨0, true⟩ (exProperty "Health")).1
        = false
    ∧ (CanExportProperty exPolicyPropertyBlacklisted exStart ⟨0, true⟩
        (exProperty "Health")).2.UnhandledProperties = exStart.UnhandledProperties
    ∧ CounterValue (CanExportProperty exPolicyPropertyBlacklisted exStart ⟨0, true⟩
        (exProperty "Health")).2.UnhandledProperties (exProperty "Health").ClassFName
      = CounterValue exStart.UnhandledProperties (exProperty "Health").ClassFName := by
  decide

/-- The tally at work: a property its translator does not accept is counted by each of the
five checks, and a second rejection of the same kind raises the same counter to 2. -/
theorem Rejections_tallied_example :
    (CanExportParameter exStart exUnhandledProperty).2.UnhandledParameters
        = [("ObjectProperty", 1)]
    ∧ (CanExportProperty exPolicy exStart ⟨0, true⟩ exUnhandledProperty).2.UnhandledProperties
        = [("ObjectProperty", 1)]
    ∧ (CanExportReturnValue exStart exUnhandledProperty).2.UnhandledReturnValues
        = [("ObjectProperty", 1)]
    ∧ (CanExportParameter (CanExportParameter exStart exUnhandledProperty).2
        exUnhandledProperty).2.UnhandledParameters = [("ObjectProperty", 2)] := by
  decide

/-- A return value with a fixed array dimension is rejected by `CanExportReturnValue` without
a tally, where `CanExportOverridableReturnValue` and `CanExportParameter` tally it. -/
theorem CanExportReturnValue_array_example :
    CanExportReturnValue exStart exStaticArray = (false, exStart)
    ∧ (CanExportOverridableReturnValue exStart exStaticArray).2.UnhandledOverridableReturnValues
        = [("ObjectProperty", 1)]
    ∧ (CanExportParameter exStart exStaticArray).2.UnhandledParameters
        = [("ObjectProperty", 1)] := by
  decide

theorem ExportClass_congr (P : FCSPolicy) (H : FHost)
    (Call Call2 : FCSGenerator → ObjId → Option FCSGenerator) (st : FCSGenerator) (Id : ObjId)
    (Class : UClass) (Builder : FCSScriptBuilder)
    (h : Id ∉ st.ExportedTypes → ∀ S,
      Call { st with ExportedTypes := st.ExportedTypes ++ [Id] } S
        = Call2 { st with ExportedTypes := st.ExportedTypes ++ [Id] } S) :
    ExportClass P H Call st Id Class Builder = ExportClass P H Call2 st Id Class Builder := by
  by_cases hnew : Id ∈ st.ExportedTypes
  · have hc : st.ExportedTypes.contains Id = true := by simpa using hnew
    simp only [ExportClass, hc, if_true]
  · rw [ExportClass_eq P H Call st Id Class Builder hnew,
      ExportClass_eq P H Call2 st Id Class Builder hnew]
    cases hs : Class.SuperClass with
    | none => rfl
    | some S => simp only [h hnew S]

theorem GenerateGlueForTypeBody_congr (P : FCSPolicy) (H : FHost) (G : ObjectGraph)
    (Call Call2 : FCSGenerator → ObjId → Option FCSGenerator)
    (st : FCSGenerator) (Id : ObjId) (bForceExport : Bool)
    (h : ∀ Class S, G.get? Id = some (UObject.Class Class) → Id ∉ st.ExportedTypes →
      Call (EnterExportClass H st Id Class) S = Call2 (EnterExportClass H st Id Class) S) :
    GenerateGlueForTypeBody P H G Call st Id bForceExport
      = GenerateGlueForTypeBody P H G Call2 st Id bForceExport := by
  by_cases hnew : Id ∈ st.ExportedTypes
  · have hc : st.ExportedTypes.contains Id = true := by simpa using hnew
    simp only [GenerateGlueForTypeBody, hc, if_true]
  have hc : st.ExportedTypes.contains Id = false := by simpa using hnew
  unfold GenerateGlueForTypeBody
  simp only [hc, Bool.false_eq_true, if_false]
  cases hobj : G.get? Id with
  | none => rfl
  | some Obj =>
    cases Obj with
    | Class Class =>
      have hE : ExportClass P H Call (RegisterClassToModule H st Class.Base.ModuleFName) Id
            Class []
          = ExportClass P H Call2 (RegisterClassToModule H st Class.Base.ModuleFName) Id
            Class [] := by
        apply ExportClass_congr
        intro _ S
        exact h Class S hobj hnew
      simp only [hE]
    | ScriptStruct Struct => rfl
    | Enum Enum => rfl
    | Other O => rfl

/-- The result of `GenerateGlueForType` does not depend on the depth bound once the bound is
as large as the number of objects not yet exported. -/
theorem GenerateGlueForType_depth (P : FCSPolicy) (H : FHost) (G : ObjectGraph) :
    ∀ (Depth Depth2 : Nat) (st : FCSGenerator) (Id : ObjId) (bForceExport : Bool),
      Unexported G st.ExportedTypes ≤ Depth → Unexported G st.ExportedTypes ≤ Depth2 →
      GenerateGlueForType P H G Depth st Id bForceExport
        = GenerateGlueForType P H G Depth2 st Id bForceExport := by
  intro Depth
  induction Depth with
  | zero =>
    intro Depth2 st Id f h1 h2
    rw [GenerateGlueForType_eq, GenerateGlueForType_eq]
    apply GenerateGlueForTypeBody_congr
    intro Class S hobj hnew
    have := Unexported_enter H G st Id Class _ hobj hnew
    omega
  | succ D ih =>
    intro Depth2 st Id f h1 h2
    rw [GenerateGlueForType_eq, GenerateGlueForType_eq]
    apply GenerateGlueForTypeBody_congr
    intro Class S hobj hnew
    have hlt := Unexported_enter H G st Id Class _ hobj hnew
    cases Depth2 with
    | zero => omega
    | succ D2 =>
      show GenerateGlueForType P H G D _ S true = GenerateGlueForType P H G D2 _ S true
      exact ih D2 _ S true (by omega) (by omega)

theorem EntersOnce.noEntry (st : FCSGenerator) : EntersOnce st st :=
  ⟨[], by simp, List.nodup_nil, by simp⟩

theorem EntersOnce.followedBy {a b c : FCSGenerator} (h1 : EntersOnce a b) (h2 : EntersOnce b c) :
    EntersOnce a c := by
  obtain ⟨n1, e1, d1, f1⟩ := h1
  obtain ⟨n2, e2, d2, f2⟩ := h2
  refine ⟨n1 ++ n2, by rw [e2, e1, List.append_assoc], ?_, ?_⟩
  · rw [List.nodup_append]
    refine ⟨d1, d2, ?_⟩
    intro T h1 h2
    exact f2 T h2 (by rw [e1]; exact List.mem_append_right _ h1)
  · intro T hT
    rcases List.mem_append.mp hT with h | h
    · exact f1 T h
    · intro hmem
      exact f2 T h (by rw [e1]; exact List.mem_append_left _ hmem)

theorem GenerateGlueForType_enters_once (P : FCSPolicy) (H : FHost) (G : ObjectGraph)
    (Depth : Nat) (st : FCSGenerator) (Id : ObjId) (bForceExport : Bool) (st1 : FCSGenerator)
    (h : GenerateGlueForType P H G Depth st Id bForceExport = some st1) : EntersOnce st st1 := by
  refine GenerateGlueForType_rel P H G EntersOnce EntersOnce.noEntry
    (fun _ _ _ h1 h2 => h1.followedBy h2) ?_ ?_ ?_ Depth st Id bForceExport st1 h
  · intro a b hf
    exact ⟨[], by simp [hf.1], List.nodup_nil, by simp⟩
  · intro st Id Object Builder
    exact ⟨[], by simp [(SaveTypeGlue_spec H st Id Object Builder).1], List.nodup_nil, by simp⟩
  · intro st Id Class _ hnew
    refine ⟨[Id], (EnterExportClass_spec H st Id Class).1, List.nodup_singleton Id, ?_⟩
    intro T hT
    have : T = Id := by simpa using hT
    subst this
    exact hnew

theorem GenerateGlueForTypesLoop_depth (P : FCSPolicy) (H : FHost) (G : ObjectGraph)
    (Depth Depth2 : Nat) (h1 : G.length ≤ Depth) (h2 : G.length ≤ Depth2) :
    ∀ (ObjectsToProcess : List ObjId) (st : FCSGenerator),
      GenerateGlueForTypesLoop P H G Depth st ObjectsToProcess
        = GenerateGlueForTypesLoop P H G Depth2 st ObjectsToProcess := by
  intro Objs
  induction Objs with
  | nil => intro st; rfl
  | cons Obj Rest ih =>
    intro st
    unfold GenerateGlueForTypesLoop
    rw [GenerateGlueForType_depth P H G Depth Depth2 st Obj false
      (le_trans (Unexported_le G st.ExportedTypes) h1)
      (le_trans (Unexported_le G st.ExportedTypes) h2)]
    cases GenerateGlueForType P H G Depth2 st Obj false with
    | none => rfl
    | some st1 => exact ih st1

theorem GenerateGlueForTypesLoop_enters_once (P : FCSPolicy) (H : FHost) (G : ObjectGraph)
    (Depth : Nat) : ∀ (ObjectsToProcess : List ObjId) (st st2 : FCSGenerator),
      GenerateGlueForTypesLoop P H G Depth st ObjectsToProcess = some st2 →
      EntersOnce st st2 := by
  intro Objs
  induction Objs with
  | nil =>
    intro st st2 h
    simp only [GenerateGlueForTypesLoop, Option.some.injEq] at h
    subst h
    exact EntersOnce.noEntry st
  | cons Obj Rest ih =>
    intro st st2 h
    unfold GenerateGlueForTypesLoop at h
    cases h1 : GenerateGlueForType P H G Depth st Obj false with
    | none => simp [h1] at h
    | some st1 =>
      simp only [h1] at h
      exact (GenerateGlueForType_enters_once P H G Depth st Obj false st1 h1).followedBy
        (ih st1 st2 h)

/-- C24: on every object graph, whatever its superclass relation, `GenerateGlueForType`
returns, and returns the same state under every depth bound as large as the graph; the
exported-type set, to which `ExportClass` adds a class as it starts on it and before it
visits the superclass, has grown by types that were not in it, none of them twice: no
class went through `ExportClass` more than once, and none that was in the set before.  The
same holds for a whole batch. -/
theorem GenerateGlueForType_terminates (P : FCSPolicy) (H : FHost) (G : ObjectGraph)
    (st : FCSGenerator) (Id : ObjId) (bForceExport : Bool) (ObjectsToProcess : List ObjId) :
    (∃ st1, (∀ Depth, G.length ≤ Depth →
        GenerateGlueForType P H G Depth st Id bForceExport = some st1)
      ∧ ∃ NewTypes : List ObjId, st1.ExportedTypes = st.ExportedTypes ++ NewTypes
          ∧ NewTypes.Nodup ∧ ∀ T ∈ NewTypes, T ∉ st.ExportedTypes)
    ∧ ∃ st2, (∀ Depth, G.length ≤ Depth →
        GenerateGlueForTypes P H G Depth st ObjectsToProcess = some st2)
      ∧ ∃ NewTypes : List ObjId, st2.ExportedTypes = st.ExportedTypes ++ NewTypes
          ∧ NewTypes.Nodup ∧ ∀ T ∈ NewTypes, T ∉ st.ExportedTypes := by
  constructor
  · obtain ⟨st1, h1⟩ := GenerateGlueForType_some P H G G.length st Id bForceExport (le_refl _)
    refine ⟨st1, ?_, GenerateGlueForType_enters_once P H G G.length st Id bForceExport st1 h1⟩
    intro Depth hD
    rw [← h1]
    exact GenerateGlueForType_depth P H G Depth G.length st Id bForceExport
      (le_trans (Unexported_le G st.ExportedTypes) hD) (Unexported_le G st.ExportedTypes)
  · obtain ⟨st2, h2, _⟩ := GenerateGlueForTypesLoop_writes P H G G.length (le_refl _)
      ObjectsToProcess st
    refine ⟨{ st2 with Persistence := st2.Persistence ++ [PersistenceCall.RenameTempFiles] },
      ?_, GenerateGlueForTypesLoop_enters_once P H G G.length ObjectsToProcess st st2 h2⟩
    intro Depth hD
    unfold GenerateGlueForTypes
    rw [GenerateGlueForTypesLoop_depth P H G Depth G.length hD (le_refl _) ObjectsToProcess st,
      h2]

theorem GenerateGlueForType_terminates_witness :
    exGraphCycle.length ≤ 3
    ∧ ∃ st1, GenerateGlueForType exPolicy exHost exGraphCycle 3 exStart 0 false = some st1
        ∧ ∃ NewTypes : List ObjId, st1.ExportedTypes = exStart.ExportedTypes ++ NewTypes
            ∧ NewTypes.Nodup ∧ ∀ T ∈ NewTypes, T ∉ exStart.ExportedTypes :=
  ⟨by decide,
   (GenerateGlueForType_terminates exPolicy exHost exGraphCycle exStart 0 false [0, 1, 2]).1.imp
     (fun _ h => ⟨h.1 3 (by decide), h.2⟩)⟩

/-- On a graph with a two-class cycle and a self-loop, and on a diamond, every class is
exported once: the cycle is cut where it returns to a class already in the set, and the
shared superclass of the diamond is written once, before the first class that needs it. -/
theorem GenerateGlueForType_cycle_example :
    (GenerateGlueForType exPolicy exHost exGraphCycle 3 exStart 0 false).map
        (fun st => (st.ExportedTypes, SavedUnits st)) = some ([0, 1], [1, 0])
    ∧ (GenerateGlueForType exPolicy exHost exGraphCycle 3 exStart 2 false).map
        (fun st => (st.ExportedTypes, SavedUnits st)) = some ([2], [2])
    ∧ (GenerateGlueForTypes exPolicy exHost exGraphDiamond 3 exStart [0, 1, 2]).map
        (fun st => (st.ExportedTypes, SavedUnits st)) = some ([0, 2, 1], [2, 0, 1]) := by
  decide

/-! ## Exported function sets and extension methods -/

theorem GetExportedInterfaceFunctions_names (P : FCSPolicy) (Class : UStruct) :
    ∀ (Functions : List UFunction) (st : FCSGenerator)
      (ExportedOverridableFunctions : List UFunction),
      ∃ Extra, (GetExportedInterfaceFunctions P Class st Functions
          ExportedOverridableFunctions).1 = ExportedOverridableFunctions ++ Extra
        ∧ Extra.Sublist (Functions.filter (fun F =>
            CanExportFunctionAnswer P Class F && F.FUNC_BlueprintEvent))
        ∧ ((ExportedOverridableFunctions.map (fun F => F.Name)).Nodup →
            ((ExportedOverridableFunctions ++ Extra).map (fun F => F.Name)).Nodup)
        ∧ ∀ F ∈ Functions, CanExportFunctionAnswer P Class F = true →
            F.FUNC_BlueprintEvent = true →
            F.Name ∈ (ExportedOverridableFunctions ++ Extra).map (fun F => F.Name) := by
  intro Functions
  induction Functions with
  | nil =>
    intro st O
    exact ⟨[], by simp [GetExportedInterfaceFunctions], by simp, by simp, by simp⟩
  | cons F Rest ih =>
    intro st O
    unfold GetExportedInterfaceFunctions
    dsimp only
    rw [CanExportFunction_fst]
    by_cases hk : (CanExportFunctionAnswer P Class F && F.FUNC_BlueprintEvent) = true
    · have hk2 : (!CanExportFunctionAnswer P Class F || !F.FUNC_BlueprintEvent) = false := by
        simp only [Bool.and_eq_true] at hk
        simp [hk.1, hk.2]
      simp only [hk2, Bool.false_eq_true, if_false, List.filter_cons, hk, if_true]
      by_cases hov : (O.any (fun E => F.Name == E.Name)) = true
      · simp only [hov, if_true]
        obtain ⟨Extra, h1, h2, h3, h4⟩ := ih (CanExportFunction P st Class F).2 O
        refine ⟨Extra, h1, h2.trans (List.sublist_cons_self _ _), h3, ?_⟩
        intro F2 hF2 ha he
        rcases List.mem_cons.mp hF2 with rfl | hr
        · simp only [List.any_eq_true, beq_iff_eq] at hov
          obtain ⟨E, hE, hEn⟩ := hov
          rw [hEn]
          exact List.mem_map_of_mem (fun F => F.Name) (List.mem_append_left _ hE)
        · exact h4 F2 hr ha he
      · have hov1 : (O.any (fun E => F.Name == E.Name)) = false := by simpa using hov
        simp only [hov1, Bool.false_eq_true, if_false]
        obtain ⟨Extra, h1, h2, h3, h4⟩ := ih (CanExportFunction P st Class F).2 (O ++ [F])
        have hnot : F.Name ∉ O.map (fun F => F.Name) := by
          intro hm
          obtain ⟨E, hE, hEn⟩ := List.mem_map.mp hm
          have : (O.any (fun E => F.Name == E.Name)) = true := by
            simp only [List.any_eq_true, beq_iff_eq]
            exact ⟨E, hE, hEn.symm⟩
          rw [hov1] at this
          cases this
        refine ⟨F :: Extra, by rw [h1]; simp, h2.cons₂ F, ?_, ?_⟩
        · intro hO
          have := h3 (by
            rw [List.map_append, List.nodup_append]
            refine ⟨hO, by simp, ?_⟩
            intro n hn1 hn2
            have : n = F.Name := by simpa using hn2
            subst this
            exact hnot hn1)
          simpa using this
        · intro F2 hF2 ha he
          rcases List.mem_cons.mp hF2 with rfl | hr
          · simp
          · have := h4 F2 hr ha he
            simpa using this
    · have hk1 : (CanExportFunctionAnswer P Class F && F.FUNC_BlueprintEvent) = false := by
        simpa using hk
      have hk2 : (!CanExportFunctionAnswer P Class F || !F.FUNC_BlueprintEvent) = true := by
        cases ha : CanExportFunctionAnswer P Class F <;> cases he : F.FUNC_BlueprintEvent <;>
          simp [ha, he] at hk1 ⊢
      simp only [hk2, if_true, List.filter_cons, hk1, Bool.false_eq_true, if_false]
      obtain ⟨Extra, h1, h2, h3, h4⟩ := ih (CanExportFunction P st Class F).2 O
      refine ⟨Extra, h1, h2, h3, ?_⟩
      intro F2 hF2 ha he
      rcases List.mem_cons.mp hF2 with rfl | hr
      · rw [ha, he] at hk1
        cases hk1
      · exact h4 F2 hr ha he

theorem GetExportedInterfacesFunctions_names (P : FCSPolicy) (Class : UStruct) :
    ∀ (Interfaces : List FImplementedInterface) (st : FCSGenerator)
      (ExportedOverridableFunctions : List UFunction),
      ∃ Extra, (GetExportedInterfacesFunctions P Class st Interfaces
          ExportedOverridableFunctions).1 = ExportedOverridableFunctions ++ Extra
        ∧ Extra.Sublist ((Interfaces.map (fun I => I.Functions)).flatten.filter (fun F =>
            CanExportFunctionAnswer P Class F && F.FUNC_BlueprintEvent))
        ∧ ((ExportedOverridableFunctions.map (fun F => F.Name)).Nodup →
            ((ExportedOverridableFunctions ++ Extra).map (fun F => F.Name)).Nodup)
        ∧ ∀ F ∈ (Interfaces.map (fun I => I.Functions)).flatten,
            CanExportFunctionAnswer P Class F = true → F.FUNC_BlueprintEvent = true →
            F.Name ∈ (ExportedOverridableFunctions ++ Extra).map (fun F => F.Name) := by
  intro Interfaces
  induction Interfaces with
  | nil =>
    intro st O
    exact ⟨[], by simp [GetExportedInterfacesFunctions], by simp, by simp, by simp⟩
  | cons I Rest ih =>
    intro st O
    unfold GetExportedInterfacesFunctions
    dsimp only
    obtain ⟨E1, h1, s1, n1, c1⟩ := GetExportedInterfaceFunctions_names P Class I.Functions st O
    obtain ⟨E2, h2, s2, n2, c2⟩ := ih (GetExportedInterfaceFunctions P Class st I.Functions O).2
      (GetExportedInterfaceFunctions P Class st I.Functions O).1
    rw [h1] at h2 n2 c2
    refine ⟨E1 ++ E2, by rw [h1, h2, List.append_assoc], ?_, ?_, ?_⟩
    · simp only [List.map_cons, List.flatten_cons, List.filter_append]
      exact s1.append s2
    · intro hO
      rw [← List.append_assoc]
      exact n2 (n1 hO)
    · intro F hF ha he
      rw [← List.append_assoc]
      simp only [List.map_cons, List.flatten_cons, List.mem_append] at hF
      rcases hF with hF | hF
      · have := c1 F hF ha he
        rw [List.map_append]
        exact List.mem_append_left _ this
      · exact c2 F hF ha he

/-- C26: for a class whose own functions have pairwise distinct names, the normal set of
`GetExportedFunctions` is the own functions that `CanExportFunction` accepts and that are
not event-flagged, the overridable set is the accepted event-flagged own functions followed
by functions reached through the implemented interfaces, each accepted and event-flagged;
every accepted event-flagged function of an implemented interface has its name in the
overridable set (it is left out only for a function of that name already there); no two
functions of the overridable set share a name; the two sets are disjoint and every member
of either passes `CanExportFunction`. -/
theorem GetExportedFunctions_sets (P : FCSPolicy) (st : FCSGenerator) (Class : UStruct)
    (Functions : List UFunction) (Interfaces : List FImplementedInterface)
    (hnames : (Functions.map (fun F => F.Name)).Nodup) :
    (GetExportedFunctions P st Class Functions Interfaces).1.1
        = Functions.filter (fun F =>
            (CanExportFunction P st Class F).1 && !F.FUNC_BlueprintEvent)
    ∧ (∃ Inherited,
        (GetExportedFunctions P st Class Functions Interfaces).1.2
          = Functions.filter (fun F =>
              (CanExportFunction P st Class F).1 && F.FUNC_BlueprintEvent) ++ Inherited
        ∧ Inherited.Sublist ((Interfaces.map (fun I => I.Functions)).flatten.filter (fun F =>
            (CanExportFunction P st Class F).1 && F.FUNC_BlueprintEvent)))
    ∧ (∀ F ∈ (Interfaces.map (fun I => I.Functions)).flatten,
        (CanExportFunction P st Class F).1 = true → F.FUNC_BlueprintEvent = true →
        F.Name ∈ (GetExportedFunctions P st Class Functions Interfaces).1.2.map
          (fun F => F.Name))
    ∧ ((GetExportedFunctions P st Class Functions Interfaces).1.2.map (fun F => F.Name)).Nodup
    ∧ (∀ F ∈ (GetExportedFunctions P st Class Functions Interfaces).1.1,
        F ∉ (GetExportedFunctions P st Class Functions Interfaces).1.2)
    ∧ ∀ F, F ∈ (GetExportedFunctions P st Class Functions Interfaces).1.1
          ∨ F ∈ (GetExportedFunctions P st Class Functions Interfaces).1.2 →
        (CanExportFunction P st Class F).1 = true := by
  simp only [CanExportFunction_fst]
  unfold GetExportedFunctions
  dsimp only
  simp only [GetExportedOwnFunctions_fst, List.nil_append]
  obtain ⟨Extra, h1, h2, h3, h4⟩ := GetExportedInterfacesFunctions_names P Class Interfaces
    (GetExportedOwnFunctions P Class st Functions [] []).2
    (Functions.filter (fun F => CanExportFunctionAnswer P Class F && F.FUNC_BlueprintEvent))
  have hown : ((Functions.filter (fun F =>
      CanExportFunctionAnswer P Class F && F.FUNC_BlueprintEvent)).map
        (fun F => F.Name)).Nodup :=
    (List.Sublist.map _ (List.filter_sublist _)).nodup hnames
  have hev : ∀ F ∈ Functions.filter (fun F =>
      CanExportFunctionAnswer P Class F && F.FUNC_BlueprintEvent) ++ Extra,
      CanExportFunctionAnswer P Class F = true ∧ F.FUNC_BlueprintEvent = true := by
    intro F hF
    rcases List.mem_append.mp hF with h | h
    · simpa using (List.mem_filter.mp h).2
    · simpa using (List.mem_filter.mp (h2.subset h)).2
  rw [h1]
  refine ⟨trivial, ⟨Extra, rfl, h2⟩, h4, h3 hown, ?_, ?_⟩
  · intro F hF hF2
    have hne := (List.mem_filter.mp hF).2
    have := (hev F hF2).2
    simp [this] at hne
  · intro F hF
    rcases hF with hF | hF
    · have := (List.mem_filter.mp hF).2
      simp only [Bool.and_eq_true] at this
      exact this.1
    · exact (hev F hF).1

theorem GetExportedFunctions_sets_witness :
    (exClassWithInterface.Functions.map (fun F => F.Name)).Nodup
    ∧ ((GetExportedFunctions exPolicy exStart ⟨0, true⟩ exClassWithInterface.Functions
        exClassWithInterface.Interfaces).1.2.map (fun F => F.Name)).Nodup :=
  ⟨by decide,
   (GetExportedFunctions_sets exPolicy exStart ⟨0, true⟩ exClassWithInterface.Functions
      exClassWithInterface.Interfaces (by decide)).2.2.2.1⟩

/-- On the example class the own event and the new event of the interface are overridable,
the interface's event of the same name as the own one and its plain function are left
out, and the own plain function is normal. -/
theorem GetExportedFunctions_example :
    ((GetExportedFunctions exPolicy exStart ⟨0, true⟩ exClassWithInterface.Functions
        exClassWithInterface.Interfaces).1.1.map (fun F => F.Name),
     (GetExportedFunctions exPolicy exStart ⟨0, true⟩ exClassWithInterface.Functions
        exClassWithInterface.Interfaces).1.2.map (fun F => (F.Name, F.NumParms)))
      = (["Describe"], [("OnUse", 1), ("OnTouch", 1)]) := by
  decide

theorem lookup_some_mem {α β : Type} [BEq α] [LawfulBEq α] (l : List (α × β)) (k : α) (v : β)
    (h : l.lookup k = some v) : (k, v) ∈ l := by
  induction l with
  | nil => simp [List.lookup] at h
  | cons p rest ih =>
    obtain ⟨a, b⟩ := p
    simp only [List.lookup] at h
    cases hk : (k == a) with
    | true =>
      simp only [hk, Option.some.injEq] at h
      have : k = a := by simpa using hk
      subst this; subst h
      exact List.mem_cons_self _ _
    | false =>
      simp only [hk] at h
      exact List.mem_cons_of_mem _ (ih h)

theorem FindOrRegisterModule_name (H : FHost) (st : FCSGenerator) (ModuleName : FName)
    (hreg : RegistryKeyed st) :
    (FindOrRegisterModule H st ModuleName).1.ModuleName = ModuleName
    ∧ RegistryKeyed (FindOrRegisterModule H st ModuleName).2
    ∧ (FindOrRegisterModule H st ModuleName).2.ExtensionMethods = st.ExtensionMethods := by
  unfold FindOrRegisterModule
  cases h : st.CSharpBindingsModules.lookup ModuleName with
  | some B =>
    exact ⟨hreg _ (lookup_some_mem _ _ _ h), hreg, rfl⟩
  | none =>
    refine ⟨rfl, ?_, rfl⟩
    intro Entry hE
    rcases List.mem_append.mp hE with hm | hm
    · exact hreg Entry hm
    · have : Entry = (ModuleName, FCSModule.Make H ModuleName
          (ResolveModuleDirectory H st.GeneratedScriptsDirectory ModuleName)) := by
        simpa using hm
      subst this
      rfl

theorem AddExtensionMethod_lookup (ModuleName : FName) (Method : ExtensionMethod)
    (Methods : List (FName × List ExtensionMethod)) :
    (AddExtensionMethod ModuleName Method Methods).lookup ModuleName
        = some ((Methods.lookup ModuleName).getD [] ++ [Method])
    ∧ ∀ Other, Other ≠ ModuleName →
        (AddExtensionMethod ModuleName Method Methods).lookup Other = Methods.lookup Other := by
  induction Methods with
  | nil =>
    refine ⟨by simp [AddExtensionMethod, List.lookup], ?_⟩
    intro Other hne
    have : (Other == ModuleName) = false := by simpa using hne
    simp [AddExtensionMethod, List.lookup, this]
  | cons p rest ih =>
    obtain ⟨k, ms⟩ := p
    unfold AddExtensionMethod
    by_cases hk : (k == ModuleName) = true
    · have hk2 : k = ModuleName := by simpa using hk
      subst hk2
      simp only [hk, if_true]
      refine ⟨by simp [List.lookup], ?_⟩
      intro Other hne
      have : (Other == k) = false := by simpa using hne
      simp [List.lookup, this]
    · have hk1 : (k == ModuleName) = false := by simpa using hk
      have hk2 : (ModuleName == k) = false := by
        simp only [beq_eq_false_iff_ne, ne_eq] at hk1 ⊢
        exact fun h => hk1 h.symm
      simp only [hk1, Bool.false_eq_true, if_false]
      refine ⟨by simp only [List.lookup, hk2]; exact ih.1, ?_⟩
      intro Other hne
      cases ho : (Other == k) with
      | true => simp [List.lookup, ho]
      | false => simp only [List.lookup, ho]; exact ih.2 Other hne

theorem FindOrRegisterModule_registered (H : FHost) (st : FCSGenerator) (ModuleName : FName) :
    (FindOrRegisterModule H st ModuleName).2.CSharpBindingsModules.lookup ModuleName
        = some (FindOrRegisterModule H st ModuleName).1
    ∧ (FindOrRegisterModule H st ModuleName).2.ExtensionMethods = st.ExtensionMethods := by
  unfold FindOrRegisterModule
  cases h : st.CSharpBindingsModules.lookup ModuleName with
  | some B => exact ⟨h, rfl⟩
  | none => exact ⟨lookup_append_new _ _ _ h, rfl⟩

theorem FindOrRegisterModule_of_lookup (H : FHost) (st : FCSGenerator) (ModuleName : FName)
    (BindingsModule : FCSModule)
    (h : st.CSharpBindingsModules.lookup ModuleName = some BindingsModule) :
    FindOrRegisterModule H st ModuleName = (BindingsModule, st) := by
  simp only [FindOrRegisterModule, h]

theorem ExportClassFunctions_methods_of (H : FHost) (ClassModuleFName : FName)
    (IsBlueprintFunctionLibrary : Bool) (BindingsModule : FCSModule) :
    ∀ (ExportedFunctions : List UFunction) (st : FCSGenerator),
      (FindOrRegisterModule H st ClassModuleFName).1 = BindingsModule →
      ModuleExtensionMethods
          (ExportClassFunctions H ClassModuleFName IsBlueprintFunctionLibrary st
            ExportedFunctions).2 BindingsModule.ModuleName
        = ModuleExtensionMethods st BindingsModule.ModuleName
            ++ ExtensionDescriptors IsBlueprintFunctionLibrary ExportedFunctions
      ∧ (∀ Other, Other ≠ BindingsModule.ModuleName →
          (ExportClassFunctions H ClassModuleFName IsBlueprintFunctionLibrary st
            ExportedFunctions).2.ExtensionMethods.lookup Other
            = st.ExtensionMethods.lookup Other)
      ∧ (ExtensionDescriptors IsBlueprintFunctionLibrary ExportedFunctions = [] →
          (ExportClassFunctions H ClassModuleFName IsBlueprintFunctionLibrary st
            ExportedFunctions).2 = st) := by
  intro Fs
  induction Fs with
  | nil =>
    intro st _
    simp [ExportClassFunctions, ExtensionDescriptors]
  | cons F Rest ih =>
    intro st hB
    unfold ExportClassFunctions
    dsimp only
    by_cases hs : (F.FUNC_Static && IsBlueprintFunctionLibrary) = true
    · cases hm : GetExtensionMethodInfo F with
      | none =>
        simp only [hs, if_true, hm, ExtensionDescriptors, List.filterMap_cons]
        exact ih st hB
      | some Method =>
        simp only [hs, if_true, hm, ExtensionDescriptors, List.filterMap_cons]
        obtain ⟨hreg, hext⟩ := FindOrRegisterModule_registered H st ClassModuleFName
        rw [hB] at hreg
        have hst2 : ∀ st2 : FCSGenerator,
            st2.CSharpBindingsModules
              = (FindOrRegisterModule H st ClassModuleFName).2.CSharpBindingsModules →
            (FindOrRegisterModule H st2 ClassModuleFName).1 = BindingsModule :=
          fun st2 h2 => congrArg Prod.fst
            (FindOrRegisterModule_of_lookup H st2 ClassModuleFName BindingsModule (h2 ▸ hreg))
        have hB2 : (FindOrRegisterModule H
            { (FindOrRegisterModule H st ClassModuleFName).2 with
              ExtensionMethods :=
                AddExtensionMethod (FindOrRegisterModule H st ClassModuleFName).1.ModuleName
                  Method (FindOrRegisterModule H st ClassModuleFName).2.ExtensionMethods }
            ClassModuleFName).1 = BindingsModule := hst2 _ rfl
        obtain ⟨i1, i2, _⟩ := ih _ hB2
        obtain ⟨a1, a2⟩ := AddExtensionMethod_lookup BindingsModule.ModuleName Method
          st.ExtensionMethods
        refine ⟨?_, ?_, ?_⟩
        · rw [i1]
          unfold ModuleExtensionMethods
          simp only [hB, hext, a1, Option.getD_some, List.append_assoc,
            List.singleton_append]
          rfl
        · intro Other hne
          rw [i2 Other hne]
          simp only [hB, hext]
          exact a2 Other hne
        · intro hnil
          simp [ExtensionDescriptors] at hnil
    · have hs1 : (F.FUNC_Static && IsBlueprintFunctionLibrary) = false := by simpa using hs
      simp only [hs1, Bool.false_eq_true, if_false, ExtensionDescriptors, List.filterMap_cons]
      exact ih st hB

/-- C21: `ExportClassFunctions` appends to the extension-method list of the class's module,
that is of the module `FindOrRegisterModule` gives for the class, one descriptor for each
exported function that is static, of a function-library class and for which
`GetExtensionMethodInfo` finds a receiver, in the order of the functions, and nothing else;
the lists of all other modules are as before, and when no function qualifies the generator
is unchanged.  In a registry that files every module under its own name that module is
the one named by the class's module name. -/
theorem ExportClassFunctions_extension_methods (H : FHost) (st : FCSGenerator)
    (ClassModuleFName : FName) (IsBlueprintFunctionLibrary : Bool)
    (ExportedFunctions : List UFunction) :
    ModuleExtensionMethods
        (ExportClassFunctions H ClassModuleFName IsBlueprintFunctionLibrary st
          ExportedFunctions).2 (FindOrRegisterModule H st ClassModuleFName).1.ModuleName
      = ModuleExtensionMethods st (FindOrRegisterModule H st ClassModuleFName).1.ModuleName
          ++ ExportedFunctions.filterMap (fun Function =>
              if Function.FUNC_Static && IsBlueprintFunctionLibrary then
                GetExtensionMethodInfo Function
              else none)
    ∧ (∀ Other, Other ≠ (FindOrRegisterModule H st ClassModuleFName).1.ModuleName →
        (ExportClassFunctions H ClassModuleFName IsBlueprintFunctionLibrary st
          ExportedFunctions).2.ExtensionMethods.lookup Other
          = st.ExtensionMethods.lookup Other)
    ∧ ((∀ Function ∈ ExportedFunctions,
          (Function.FUNC_Static && IsBlueprintFunctionLibrary) = false
            ∨ GetExtensionMethodInfo Function = none) →
        (ExportClassFunctions H ClassModuleFName IsBlueprintFunctionLibrary st
          ExportedFunctions).2 = st)
    ∧ (RegistryKeyed st →
        (FindOrRegisterModule H st ClassModuleFName).1.ModuleName = ClassModuleFName) := by
  obtain ⟨h1, h2, h3⟩ := ExportClassFunctions_methods_of H ClassModuleFName
    IsBlueprintFunctionLibrary (FindOrRegisterModule H st ClassModuleFName).1
    ExportedFunctions st rfl
  refine ⟨h1, h2, ?_, fun hreg => (FindOrRegisterModule_name H st ClassModuleFName hreg).1⟩
  intro hall
  apply h3
  unfold ExtensionDescriptors
  rw [List.filterMap_eq_nil_iff]
  intro F hF
  rcases hall F hF with h | h
  · simp [h]
  · simp [h]

/-- The example library, started on an empty registry: the list of module `Engine` is the
descriptor of `GetGameMode`. -/
theorem ExportClassFunctions_extension_methods_witness :
    RegistryKeyed exStart
    ∧ (FindOrRegisterModule exHost exStart "Engine").1.ModuleName = "Engine"
    ∧ (∀ Other, Other ≠ (FindOrRegisterModule exHost exStart "Engine").1.ModuleName →
        (ExportClassFunctions exHost "Engine" true exStart
          exLibraryFunctions).2.ExtensionMethods.lookup Other
          = exStart.ExtensionMethods.lookup Other) :=
  ⟨(fun _ h => by cases h),
   (ExportClassFunctions_extension_methods exHost exStart "Engine" true
      exLibraryFunctions).2.2.2 (fun _ h => by cases h),
   (ExportClassFunctions_extension_methods exHost exStart "Engine" true
      exLibraryFunctions).2.1⟩

/-- On the example library only the static function with a receiver gets a descriptor; in
a class that is no function library none does, and the generator is unchanged. -/
theorem ExportClassFunctions_example :
    ((ExportClassFunctions exHost "Engine" true exStart exLibraryFunctions).2.ExtensionMethods.map
        (fun Entry => (Entry.1, Entry.2.map (fun Method => Method.Function.Name))))
      = [("Engine", ["GetGameMode"])]
    ∧ (ExportClassFunctions exHost "Engine" false exStart exLibraryFunctions).2 = exStart := by
  decide

/-! ## Static constructor: lookups and declarations -/

theorem IsIdentifier_no_assign (Name : FString) (h : IsIdentifier Name = true) :
    ∀ c ∈ Name.data, (c != '=') = true := by
  intro c hc
  unfold IsIdentifier at h
  rw [List.all_eq_true] at h
  have := h c hc
  by_cases he : c = '='
  · subst he
    exact absurd this (by decide)
  · simpa using he

theorem LineTarget_assign (Pre Mid Post : List Char)
    (hPre : ∀ c ∈ Pre, (c != '=') = true) (hMid : ∀ c ∈ Mid, (c != '=') = true) :
    LineTarget (String.mk (Pre ++ (Mid ++ '=' :: Post))) = some (String.mk (Pre ++ Mid)) := by
  unfold LineTarget
  have hc : (Pre ++ (Mid ++ '=' :: Post)).contains '=' = true := by simp
  have ht : (Pre ++ (Mid ++ '=' :: Post)).takeWhile (fun c => c != '=') = Pre ++ Mid := by
    rw [List.takeWhile_append_of_pos hPre, List.takeWhile_append_of_pos hMid]
    simp [List.takeWhile_cons]
  simp only [hc, if_true, ht]

theorem LineTarget_none (Line : FString) (h : ∀ c ∈ Line.data, (c != '=') = true) :
    LineTarget Line = none := by
  unfold LineTarget
  have : Line.data.contains '=' = false := by
    rw [Bool.eq_false_iff]
    intro hc
    simp only [List.contains, List.elem_eq_mem, decide_eq_true_eq] at hc
    have := h _ hc
    simp at this
  simp only [this, Bool.false_eq_true, if_false]

theorem handle_target_true (Pre : List Char) :
    IsFunctionHandleTarget (String.mk (Pre ++ "_NativeFunction ".data)) = true := by
  unfold IsFunctionHandleTarget
  rw [List.isSuffixOf_iff_suffix]
  exact List.suffix_append _ _

theorem size_target_true (Pre : List Char) :
    IsParamsSizeTarget (String.mk (Pre ++ "_ParamsSize ".data)) = true := by
  unfold IsParamsSizeTarget
  rw [List.isSuffixOf_iff_suffix]
  exact List.suffix_append _ _

theorem handle_target_false (Pre : List Char) :
    IsFunctionHandleTarget (String.mk (Pre ++ "_ParamsSize ".data)) = false := by
  unfold IsFunctionHandleTarget
  rw [Bool.eq_false_iff, Ne, List.isSuffixOf_iff_suffix]
  intro h
  have := List.suffix_of_suffix_length_le (List.suffix_append Pre "_ParamsSize ".data) h
    (by decide)
  exact absurd this (by decide)

theorem size_target_false (Pre : List Char) :
    IsParamsSizeTarget (String.mk (Pre ++ "_NativeFunction ".data)) = false := by
  unfold IsParamsSizeTarget
  rw [Bool.eq_false_iff, Ne, List.isSuffixOf_iff_suffix]
  intro h
  have h2 : "_NativeFunction ".data <:+ Pre ++ "_NativeFunction ".data := List.suffix_append _ _
  rcases Nat.le_total "_ParamsSize ".data.length "_NativeFunction ".data.length with hl | hl
  · exact absurd (List.suffix_of_suffix_length_le h h2 hl) (by decide)
  · exact absurd hl (by decide)

theorem LineTarget_eq (Line : FString) (Pre Mid Post : List Char)
    (hLine : Line.data = Pre ++ (Mid ++ '=' :: Post))
    (hPre : ∀ c ∈ Pre, (c != '=') = true) (hMid : ∀ c ∈ Mid, (c != '=') = true) :
    LineTarget Line = some (String.mk (Pre ++ Mid)) := by
  have : Line = String.mk (Pre ++ (Mid ++ '=' :: Post)) := String.ext hLine
  rw [this]
  exact LineTarget_assign Pre Mid Post hPre hMid

theorem mk_append (a b : FString) : String.mk (a.data ++ b.data) = a ++ b :=
  String.ext (by simp)

theorem LineTarget_handle (H : FHost) (F : UFunction) (hF : IsIdentifier F.Name = true) :
    LineTarget (F.Name ++ "_NativeFunction = " ++ H.UClassCallbacks
      ++ ".CallGetNativeFunctionFromClassAndName(NativeClassPtr, \"" ++ F.Name ++ "\");")
      = some (F.Name ++ "_NativeFunction ") := by
  rw [← mk_append]
  refine LineTarget_eq _ F.Name.data "_NativeFunction ".data
    (" ".data ++ (H.UClassCallbacks.data
      ++ (".CallGetNativeFunctionFromClassAndName(NativeClassPtr, \"".data
        ++ (F.Name.data ++ "\");".data)))) ?_ (IsIdentifier_no_assign F.Name hF) (by decide)
  simp only [String.data_append, List.append_assoc]
  rfl

theorem LineTarget_size (H : FHost) (F : UFunction) (hF : IsIdentifier F.Name = true) :
    LineTarget (F.Name ++ "_ParamsSize = " ++ H.UFunctionCallbacks
      ++ ".CallGetNativeFunctionParamsSize(" ++ F.Name ++ "_NativeFunction);")
      = some (F.Name ++ "_ParamsSize ") := by
  rw [← mk_append]
  refine LineTarget_eq _ F.Name.data "_ParamsSize ".data
    (" ".data ++ (H.UFunctionCallbacks.data
      ++ (".CallGetNativeFunctionParamsSize(".data
        ++ (F.Name.data ++ "_NativeFunction);".data)))) ?_ (IsIdentifier_no_assign F.Name hF)
    (by decide)
  simp only [String.data_append, List.append_assoc]
  rfl

theorem LineTarget_overridable_handle (H : FHost) (F : UFunction)
    (hF : IsIdentifier F.Name = true) :
    LineTarget ("IntPtr " ++ F.Name ++ "_NativeFunction = " ++ H.UClassCallbacks
      ++ ".CallGetNativeFunctionFromClassAndName(NativeClassPtr, \"" ++ F.Name ++ "\");")
      = some ("IntPtr " ++ F.Name ++ "_NativeFunction ") := by
  rw [← mk_append ("IntPtr " ++ F.Name)]
  refine LineTarget_eq _ ("IntPtr " ++ F.Name).data "_NativeFunction ".data
    (" ".data ++ (H.UClassCallbacks.data
      ++ (".CallGetNativeFunctionFromClassAndName(NativeClassPtr, \"".data
        ++ (F.Name.data ++ "\");".data)))) ?_ ?_ (by decide)
  · simp only [String.data_append, List.append_assoc]
    rfl
  · intro c hc
    simp only [String.data_append, List.mem_append] at hc
    rcases hc with hc | hc
    · revert c
      decide
    · exact IsIdentifier_no_assign F.Name hF c hc

theorem parameter_ops_no_line (N : FString) (Ps : List FProperty) :
    (Ps.map (fun Property => BuilderOp.ExportParameterStaticConstruction N Property)).filterMap
        BuilderOp.Target = []
    ∧ (Ps.map (fun Property => BuilderOp.ExportParameterStaticConstruction N Property)).filterMap
        BuilderOp.PlainLine = [] := by
  constructor <;>
  · rw [List.filterMap_eq_nil_iff]
    intro op hop
    obtain ⟨Property, _, rfl⟩ := List.mem_map.mp hop
    rfl

theorem AssignmentTargets_function (H : FHost) (F : UFunction)
    (hF : IsIdentifier F.Name = true) :
    AssignmentTargets (ExportClassFunctionStaticConstruction H F)
      = (F.Name ++ "_NativeFunction ")
          :: (if F.HasParms then [F.Name ++ "_ParamsSize "] else [])
    ∧ PlainLines (ExportClassFunctionStaticConstruction H F) = [] := by
  have h1 := LineTarget_handle H F hF
  have h2 := LineTarget_size H F hF
  unfold AssignmentTargets PlainLines ExportClassFunctionStaticConstruction UFunction.HasParms
  dsimp only
  rw [List.filterMap_append, List.filterMap_append, (parameter_ops_no_line _ _).1,
    List.filterMap_append, List.filterMap_append, (parameter_ops_no_line _ _).2]
  by_cases hp : F.NumParms > 0
  · simp only [hp, if_true, List.filterMap_cons, List.filterMap_nil, BuilderOp.Target,
      BuilderOp.PlainLine, h1, h2, decide_True, List.append_nil, List.singleton_append,
      Option.isNone_some, Bool.false_eq_true, if_false, and_self]
  · simp only [hp, if_false, List.filterMap_cons, List.filterMap_nil, BuilderOp.Target,
      BuilderOp.PlainLine, h1, decide_False, List.append_nil, Bool.false_eq_true,
      Option.isNone_some, and_self]

theorem AssignmentTargets_overridable (H : FHost) (F : UFunction)
    (hF : IsIdentifier F.Name = true) :
    AssignmentTargets
        ([BuilderOp.AppendLine ("IntPtr " ++ F.Name ++ "_NativeFunction = "
            ++ H.UClassCallbacks ++ ".CallGetNativeFunctionFromClassAndName(NativeClassPtr, \""
            ++ F.Name ++ "\");"),
          BuilderOp.AppendLine (F.Name ++ "_ParamsSize = " ++ H.UFunctionCallbacks
            ++ ".CallGetNativeFunctionParamsSize(" ++ F.Name ++ "_NativeFunction);")]
        ++ F.ChildProperties.map
            (fun Property => BuilderOp.ExportParameterStaticConstruction F.Name Property)
        ++ [BuilderOp.AppendEmptyLine])
      = ["IntPtr " ++ F.Name ++ "_NativeFunction ", F.Name ++ "_ParamsSize "]
    ∧ PlainLines
        ([BuilderOp.AppendLine ("IntPtr " ++ F.Name ++ "_NativeFunction = "
            ++ H.UClassCallbacks ++ ".CallGetNativeFunctionFromClassAndName(NativeClassPtr, \""
            ++ F.Name ++ "\");"),
          BuilderOp.AppendLine (F.Name ++ "_ParamsSize = " ++ H.UFunctionCallbacks
            ++ ".CallGetNativeFunctionParamsSize(" ++ F.Name ++ "_NativeFunction);")]
        ++ F.ChildProperties.map
            (fun Property => BuilderOp.ExportParameterStaticConstruction F.Name Property)
        ++ [BuilderOp.AppendEmptyLine]) = [] := by
  have h1 := LineTarget_overridable_handle H F hF
  have h2 := LineTarget_size H F hF
  unfold AssignmentTargets PlainLines
  rw [List.filterMap_append, List.filterMap_append, (parameter_ops_no_line _ _).1,
    List.filterMap_append, List.filterMap_append, (parameter_ops_no_line _ _).2]
  simp only [List.filterMap_cons, List.filterMap_nil, BuilderOp.Target, BuilderOp.PlainLine,
    h1, h2, List.append_nil, Option.isNone_some, Bool.false_eq_true, if_false, and_self]

theorem AssignmentTargets_append (A B : FCSScriptBuilder) :
    AssignmentTargets (A ++ B) = AssignmentTargets A ++ AssignmentTargets B :=
  List.filterMap_append A B _

theorem PlainLines_append (A B : FCSScriptBuilder) :
    PlainLines (A ++ B) = PlainLines A ++ PlainLines B :=
  List.filterMap_append A B _

theorem AssignmentTargets_functions (H : FHost) (Fs : List UFunction)
    (hFs : ∀ F ∈ Fs, IsIdentifier F.Name = true) :
    AssignmentTargets (ExportClassFunctionsStaticConstruction H Fs)
      = (Fs.map FunctionTargets).flatten
    ∧ PlainLines (ExportClassFunctionsStaticConstruction H Fs) = [] := by
  unfold ExportClassFunctionsStaticConstruction
  induction Fs with
  | nil => exact ⟨rfl, rfl⟩
  | cons F Rest ih =>
    obtain ⟨i1, i2⟩ := ih (fun G hG => hFs G (List.mem_cons_of_mem _ hG))
    obtain ⟨f1, f2⟩ := AssignmentTargets_function H F (hFs F (List.mem_cons_self _ _))
    simp only [List.map_cons, List.flatten_cons, AssignmentTargets_append, PlainLines_append,
      i1, i2, f1, f2, List.append_nil, true_and, and_true]
    rfl

theorem AssignmentTargets_overridables (H : FHost) (Os : List UFunction)
    (hOs : ∀ F ∈ Os, IsIdentifier F.Name = true) :
    AssignmentTargets (ExportClassOverridableFunctionsStaticConstruction H Os)
      = (Os.map OverridableTargets).flatten
    ∧ PlainLines (ExportClassOverridableFunctionsStaticConstruction H Os) = [] := by
  unfold ExportClassOverridableFunctionsStaticConstruction
  induction Os with
  | nil => exact ⟨rfl, rfl⟩
  | cons F Rest ih =>
    obtain ⟨i1, i2⟩ := ih (fun G hG => hOs G (List.mem_cons_of_mem _ hG))
    simp only [List.map_cons, List.flatten_cons, AssignmentTargets_append, PlainLines_append,
      i1, i2, List.append_nil]
    unfold OverridableTargets UFunction.HasParms
    by_cases hp : F.NumParms = 0
    · simp [hp, AssignmentTargets, PlainLines]
    · have h0 : (F.NumParms == 0) = false := by simpa using hp
      have h1 : 0 < F.NumParms := Nat.pos_of_ne_zero hp
      obtain ⟨f1, f2⟩ := AssignmentTargets_overridable H F (hOs F (List.mem_cons_self _ _))
      simp only [h0, Bool.false_eq_true, if_false, h1, decide_True, if_true, f1, f2, and_self]

theorem AssignmentTargets_properties (Ps : List FProperty) :
    AssignmentTargets (ExportPropertiesStaticConstruction Ps) = []
    ∧ PlainLines (ExportPropertiesStaticConstruction Ps) = [] := by
  unfold AssignmentTargets PlainLines
  constructor <;>
  · rw [List.filterMap_eq_nil_iff]
    intro op hop
    have := mem_ExportPropertiesStaticConstruction Ps op hop
    cases op <;> first | rfl | simp [BuilderOp.IsStaticConstruction] at this

theorem LineTarget_header (TypeScriptName : FString)
    (hT : IsIdentifier TypeScriptName = true) :
    LineTarget ("static " ++ TypeScriptName ++ "()") = none := by
  apply LineTarget_none
  intro c hc
  simp only [String.data_append, List.mem_append] at hc
  rcases hc with (hc | hc) | hc
  · revert c; decide
  · exact IsIdentifier_no_assign _ hT c hc
  · revert c; decide

theorem LineTarget_NativeClassPtr (bHasStaticFunctions : Bool) (A B C D E F : FString) :
    LineTarget ((if bHasStaticFunctions then "" else "IntPtr ") ++ "NativeClassPtr = " ++ A
        ++ B ++ C ++ D ++ E ++ F)
      = some (NativeClassPtrTarget bHasStaticFunctions) := by
  unfold NativeClassPtrTarget
  rw [← mk_append]
  refine LineTarget_eq _ (if bHasStaticFunctions then "" else "IntPtr ").data
    "NativeClassPtr ".data
    (" ".data ++ (A.data ++ (B.data ++ (C.data ++ (D.data ++ (E.data ++ F.data)))))) ?_ ?_
    (by decide)
  · simp only [String.data_append, List.append_assoc]
    rfl
  · cases bHasStaticFunctions <;> decide

theorem LineTarget_NativeDataSize (A B : FString) :
    LineTarget ("NativeDataSize = " ++ A ++ B) = some "NativeDataSize " := by
  have := LineTarget_eq ("NativeDataSize = " ++ A ++ B) [] "NativeDataSize ".data
    (" ".data ++ (A.data ++ B.data))
    (by simp only [String.data_append, List.append_assoc]; rfl) (by simp) (by decide)
  rw [this]
  rfl

theorem AssignmentTargets_ExportStaticConstructor (H : FHost) (Struct : UStructObject)
    (Ps : List FProperty) (Fs Os : List UFunction)
    (hT : IsIdentifier Struct.TypeScriptName = true)
    (hFs : ∀ F ∈ Fs, IsIdentifier F.Name = true)
    (hOs : ∀ F ∈ Os, IsIdentifier F.Name = true) :
    AssignmentTargets (ExportStaticConstructor H Struct Ps Fs Os)
      = if Struct.IsClass && (Ps.isEmpty && Fs.isEmpty && Os.isEmpty) then []
        else NativeClassPtrTarget (Fs.any (fun F => F.FUNC_Static))
          :: (if Struct.IsClass then
                (Fs.map FunctionTargets).flatten ++ (Os.map OverridableTargets).flatten
              else ["NativeDataSize "]) := by
  unfold ExportStaticConstructor
  by_cases hempty : (Struct.IsClass && (Ps.isEmpty && Fs.isEmpty && Os.isEmpty)) = true
  · simp only [hempty, if_true]
    rfl
  · simp only [hempty, Bool.false_eq_true, if_false]
    have hfield : AssignmentTargets
        (if Fs.any (fun F => F.FUNC_Static) = true then
          [BuilderOp.AppendLine "static readonly IntPtr NativeClassPtr;"] else []) = [] := by
      split <;> rfl
    have hsize : AssignmentTargets
        (if (!Struct.IsClass) = true then
          [BuilderOp.AppendLine "public static readonly int NativeDataSize;"] else []) = [] := by
      split <;> rfl
    have hhead : AssignmentTargets
        [BuilderOp.AppendLine ("static " ++ Struct.TypeScriptName ++ "()"),
         BuilderOp.OpenBrace,
         BuilderOp.AppendLine ((if Fs.any (fun F => F.FUNC_Static) = true then "" else "IntPtr ")
           ++ "NativeClassPtr = " ++ H.CoreUObjectCallbacks ++ ".CallGetNative"
           ++ (if Struct.IsClass = true then "Class" else "Struct") ++ "FromName(\""
           ++ Struct.GetName ++ "\");"),
         BuilderOp.AppendEmptyLine]
        = [NativeClassPtrTarget (Fs.any (fun F => F.FUNC_Static))] := by
      simp only [AssignmentTargets, List.filterMap_cons, List.filterMap_nil, BuilderOp.Target,
        LineTarget_header _ hT, LineTarget_NativeClassPtr]
    have hempty1 : AssignmentTargets [BuilderOp.AppendEmptyLine] = [] := rfl
    have hclose : AssignmentTargets [BuilderOp.CloseBrace] = [] := rfl
    have hdata : AssignmentTargets
        [BuilderOp.AppendEmptyLine,
         BuilderOp.AppendLine ("NativeDataSize = " ++ H.UScriptStructCallbacks
           ++ ".CallGetNativeStructSize(NativeClassPtr);")] = ["NativeDataSize "] := by
      simp only [AssignmentTargets, List.filterMap_cons, List.filterMap_nil, BuilderOp.Target,
        LineTarget_NativeDataSize]
    rw [AssignmentTargets_append, AssignmentTargets_append, AssignmentTargets_append,
      AssignmentTargets_append, AssignmentTargets_append, hfield, hsize, hhead, hclose,
      (AssignmentTargets_properties _).1]
    cases hc : Struct.IsClass with
    | true =>
      simp only [if_true]
      rw [AssignmentTargets_append, AssignmentTargets_append, AssignmentTargets_append,
        AssignmentTargets_append, hempty1, (AssignmentTargets_functions H Fs hFs).1,
        (AssignmentTargets_overridables H Os hOs).1]
      simp
    | false =>
      simp only [Bool.false_eq_true, if_false]
      rw [hdata]
      simp

theorem handle_target_name (N : FString) :
    IsFunctionHandleTarget (N ++ "_NativeFunction ") = true
    ∧ IsFunctionHandleTarget (N ++ "_ParamsSize ") = false
    ∧ IsParamsSizeTarget (N ++ "_ParamsSize ") = true
    ∧ IsParamsSizeTarget (N ++ "_NativeFunction ") = false := by
  rw [← mk_append, ← mk_append]
  exact ⟨handle_target_true _, handle_target_false _, size_target_true _, size_target_false _⟩

theorem FunctionTargets_filter (Fs : List UFunction) :
    (Fs.map FunctionTargets).flatten.filter IsFunctionHandleTarget
        = Fs.map (fun F => F.Name ++ "_NativeFunction ")
    ∧ (Fs.map FunctionTargets).flatten.filter IsParamsSizeTarget
        = (Fs.filter (fun F => F.HasParms)).map (fun F => F.Name ++ "_ParamsSize ") := by
  induction Fs with
  | nil => exact ⟨rfl, rfl⟩
  | cons F Rest ih =>
    obtain ⟨h1, h2, h3, h4⟩ := handle_target_name F.Name
    simp only [List.map_cons, List.flatten_cons, List.filter_append, ih.1, ih.2, FunctionTargets,
      List.filter_cons, h1, h4, if_true, Bool.false_eq_true, if_false]
    cases hp : F.HasParms <;>
      simp [h2, h3]

theorem OverridableTargets_filter (Os : List UFunction) :
    (Os.map OverridableTargets).flatten.filter IsFunctionHandleTarget
        = (Os.filter (fun F => F.HasParms)).map
            (fun F => "IntPtr " ++ F.Name ++ "_NativeFunction ")
    ∧ (Os.map OverridableTargets).flatten.filter IsParamsSizeTarget
        = (Os.filter (fun F => F.HasParms)).map (fun F => F.Name ++ "_ParamsSize ") := by
  induction Os with
  | nil => exact ⟨rfl, rfl⟩
  | cons F Rest ih =>
    obtain ⟨_, h2, h3, _⟩ := handle_target_name F.Name
    obtain ⟨h1, _, _, h4⟩ := handle_target_name ("IntPtr " ++ F.Name)
    simp only [List.map_cons, List.flatten_cons, List.filter_append, ih.1, ih.2,
      OverridableTargets, List.filter_cons]
    cases hp : F.HasParms <;>
      simp [h1, h2, h3, h4]

theorem NativeClassPtrTarget_filter (b : Bool) :
    IsFunctionHandleTarget (NativeClassPtrTarget b) = false
    ∧ IsParamsSizeTarget (NativeClassPtrTarget b) = false := by
  cases b <;> decide

theorem ParameterLookups_function (H : FHost) (F : UFunction) :
    (ExportClassFunctionStaticConstruction H F).filterMap BuilderOp.ParameterLookup
      = ParameterLookupsOf F := by
  unfold ExportClassFunctionStaticConstruction ParameterLookupsOf
  dsimp only
  rw [List.filterMap_append, List.filterMap_append, List.filterMap_map]
  have h2 : (if F.NumParms > 0 then
        [BuilderOp.AppendLine (F.Name ++ "_ParamsSize = " ++ H.UFunctionCallbacks
          ++ ".CallGetNativeFunctionParamsSize(" ++ F.Name ++ "_NativeFunction);")]
      else []).filterMap BuilderOp.ParameterLookup = [] := by
    split <;> rfl
  rw [h2]
  simp only [List.filterMap_cons, List.filterMap_nil, BuilderOp.ParameterLookup,
    List.nil_append, List.append_nil]
  induction F.ChildProperties with
  | nil => rfl
  | cons Q Rest ih => simp [List.filterMap_cons, BuilderOp.ParameterLookup, ih]

theorem ParameterLookups_functions (H : FHost) (Fs : List UFunction) :
    (ExportClassFunctionsStaticConstruction H Fs).filterMap BuilderOp.ParameterLookup
      = (Fs.map ParameterLookupsOf).flatten := by
  unfold ExportClassFunctionsStaticConstruction
  induction Fs with
  | nil => rfl
  | cons F Rest ih =>
    simp only [List.map_cons, List.flatten_cons, List.filterMap_append, ih,
      ParameterLookups_function]

theorem ParameterLookups_overridables (H : FHost) (Os : List UFunction) :
    (ExportClassOverridableFunctionsStaticConstruction H Os).filterMap BuilderOp.ParameterLookup
      = ((Os.filter (fun F => F.HasParms)).map ParameterLookupsOf).flatten := by
  unfold ExportClassOverridableFunctionsStaticConstruction
  induction Os with
  | nil => rfl
  | cons F Rest ih =>
    simp only [List.map_cons, List.flatten_cons, List.filterMap_append, ih, List.filter_cons,
      UFunction.HasParms]
    by_cases hp : F.NumParms = 0
    · simp [hp]
    · have h0 : (F.NumParms == 0) = false := by simpa using hp
      have h1 : 0 < F.NumParms := Nat.pos_of_ne_zero hp
      simp only [h0, Bool.false_eq_true, if_false, h1, decide_True, if_true, List.map_cons,
        List.flatten_cons, List.filterMap_append, List.filterMap_cons, List.filterMap_nil,
        BuilderOp.ParameterLookup, List.nil_append, List.append_nil, List.filterMap_map]
      congr 1
      unfold ParameterLookupsOf
      induction F.ChildProperties with
      | nil => rfl
      | cons Q Rest2 ih2 => simp [List.filterMap_cons, BuilderOp.ParameterLookup, ih2]

theorem ParameterLookups_properties (Ps : List FProperty) :
    (ExportPropertiesStaticConstruction Ps).filterMap BuilderOp.ParameterLookup = [] := by
  rw [List.filterMap_eq_nil_iff]
  intro op hop
  have := mem_ExportPropertiesStaticConstruction Ps op hop
  cases op <;> first | rfl | simp [BuilderOp.IsStaticConstruction] at this

theorem ParameterLookups_ExportStaticConstructor (H : FHost) (Class : UClass)
    (Ps : List FProperty) (Fs Os : List UFunction) :
    (ExportStaticConstructor H (UStructObject.Class Class) Ps Fs Os).filterMap
        BuilderOp.ParameterLookup
      = (Fs.map ParameterLookupsOf).flatten
          ++ ((Os.filter (fun F => F.HasParms)).map ParameterLookupsOf).flatten := by
  unfold ExportStaticConstructor
  by_cases hempty : (Ps.isEmpty && Fs.isEmpty && Os.isEmpty) = true
  · simp only [Bool.and_eq_true, List.isEmpty_iff] at hempty
    obtain ⟨⟨h1, h2⟩, h3⟩ := hempty
    subst h1; subst h2; subst h3
    rfl
  · simp only [UStructObject.IsClass, Bool.true_and, hempty, Bool.false_eq_true, if_false,
      Bool.not_true, if_true]
    have hfield : (if Fs.any (fun F => F.FUNC_Static) = true then
          [BuilderOp.AppendLine "static readonly IntPtr NativeClassPtr;"] else []).filterMap
          BuilderOp.ParameterLookup = [] := by
      split <;> rfl
    simp only [List.filterMap_append, hfield, ParameterLookups_properties,
      ParameterLookups_functions, ParameterLookups_overridables, List.filterMap_cons,
      List.filterMap_nil, BuilderOp.ParameterLookup, List.nil_append, List.append_nil]

/-- C23, as the code has it: in the static constructor of a class whose type name and
function names are identifiers, the lines that assign a native-function handle are, in
order, one for each exported normal function and one, declared in place, for each exported
overridable function that has parameters; the lines that assign a parameter-block size are
one for each exported function, normal or overridable, that has parameters; and the
per-parameter lookups are one for each declared property of each normal function and of
each overridable function that has parameters.  An overridable function without parameters
gets no lookup, a normal one without parameters the handle only. -/
theorem ExportStaticConstructor_function_lookups (H : FHost) (Class : UClass)
    (ExportedProperties : List FProperty)
    (ExportedFunctions ExportedOverrideableFunctions : List UFunction)
    (hT : IsIdentifier Class.TypeScriptName = true)
    (hFs : ∀ F ∈ ExportedFunctions, IsIdentifier F.Name = true)
    (hOs : ∀ F ∈ ExportedOverrideableFunctions, IsIdentifier F.Name = true) :
    (AssignmentTargets (ExportStaticConstructor H (UStructObject.Class Class)
        ExportedProperties ExportedFunctions ExportedOverrideableFunctions)).filter
          IsFunctionHandleTarget
      = ExportedFunctions.map (fun F => F.Name ++ "_NativeFunction ")
          ++ (ExportedOverrideableFunctions.filter (fun F => F.HasParms)).map
              (fun F => "IntPtr " ++ F.Name ++ "_NativeFunction ")
    ∧ (AssignmentTargets (ExportStaticConstructor H (UStructObject.Class Class)
        ExportedProperties ExportedFunctions ExportedOverrideableFunctions)).filter
          IsParamsSizeTarget
      = (ExportedFunctions.filter (fun F => F.HasParms)).map (fun F => F.Name ++ "_ParamsSize ")
          ++ (ExportedOverrideableFunctions.filter (fun F => F.HasParms)).map
              (fun F => F.Name ++ "_ParamsSize ")
    ∧ (ExportStaticConstructor H (UStructObject.Class Class) ExportedProperties
        ExportedFunctions ExportedOverrideableFunctions).filterMap BuilderOp.ParameterLookup
      = (ExportedFunctions.map ParameterLookupsOf).flatten
          ++ ((ExportedOverrideableFunctions.filter (fun F => F.HasParms)).map
              ParameterLookupsOf).flatten := by
  refine ⟨?_, ?_, ParameterLookups_ExportStaticConstructor H Class _ _ _⟩
  · rw [AssignmentTargets_ExportStaticConstructor H (UStructObject.Class Class) _ _ _ hT hFs hOs]
    by_cases hempty : (ExportedProperties.isEmpty && ExportedFunctions.isEmpty
        && ExportedOverrideableFunctions.isEmpty) = true
    · simp only [Bool.and_eq_true, List.isEmpty_iff] at hempty
      obtain ⟨⟨h1, h2⟩, h3⟩ := hempty
      subst h1; subst h2; subst h3
      rfl
    · simp only [UStructObject.IsClass, Bool.true_and, hempty, Bool.false_eq_true, if_false,
        if_true, List.filter_cons, (NativeClassPtrTarget_filter _).1, List.filter_append,
        (FunctionTargets_filter _).1, (OverridableTargets_filter _).1]
  · rw [AssignmentTargets_ExportStaticConstructor H (UStructObject.Class Class) _ _ _ hT hFs hOs]
    by_cases hempty : (ExportedProperties.isEmpty && ExportedFunctions.isEmpty
        && ExportedOverrideableFunctions.isEmpty) = true
    · simp only [Bool.and_eq_true, List.isEmpty_iff] at hempty
      obtain ⟨⟨h1, h2⟩, h3⟩ := hempty
      subst h1; subst h2; subst h3
      rfl
    · simp only [UStructObject.IsClass, Bool.true_and, hempty, Bool.false_eq_true, if_false,
        if_true, List.filter_cons, (NativeClassPtrTarget_filter _).2, List.filter_append,
        (FunctionTargets_filter _).2, (OverridableTargets_filter _).2]

theorem ExportStaticConstructor_function_lookups_witness :
    IsIdentifier (exClass "Door" none).TypeScriptName = true
    ∧ (∀ F ∈ exClassWithLookups.1, IsIdentifier F.Name = true)
    ∧ (∀ F ∈ exClassWithLookups.2, IsIdentifier F.Name = true)
    ∧ (AssignmentTargets (ExportStaticConstructor exHost
        (UStructObject.Class (exClass "Door" none)) [] exClassWithLookups.1
        exClassWithLookups.2)).filter IsFunctionHandleTarget
      = exClassWithLookups.1.map (fun F => F.Name ++ "_NativeFunction ")
          ++ (exClassWithLookups.2.filter (fun F => F.HasParms)).map
              (fun F => "IntPtr " ++ F.Name ++ "_NativeFunction ") :=
  ⟨by decide, by decide, by decide,
   (ExportStaticConstructor_function_lookups exHost (exClass "Door" none) []
      exClassWithLookups.1 exClassWithLookups.2 (by decide) (by decide) (by decide)).1⟩

/-- C23 as stated fails: with a normal and an overridable function, both exported and
both without parameters, the static constructor has one handle lookup and no
parameter-block-size lookup, and no line of it is about the overridable function. -/
theorem Zero_parameter_functions_lack_lookups :
    exZeroParmFunctions.1.length + exZeroParmFunctions.2.length = 2
    ∧ (AssignmentTargets (ExportStaticConstructor exHost
        (UStructObject.Class (exClass "Door" none)) [] exZeroParmFunctions.1
        exZeroParmFunctions.2)).filter IsFunctionHandleTarget = ["Now_NativeFunction "]
    ∧ (AssignmentTargets (ExportStaticConstructor exHost
        (UStructObject.Class (exClass "Door" none)) [] exZeroParmFunctions.1
        exZeroParmFunctions.2)).filter IsParamsSizeTarget = []
    ∧ ExportStaticConstructor exHost (UStructObject.Class (exClass "Door" none)) []
        exZeroParmFunctions.1 exZeroParmFunctions.2
      = [BuilderOp.AppendLine "static readonly IntPtr NativeClassPtr;",
         BuilderOp.AppendLine "static Door()",
         BuilderOp.OpenBrace,
         BuilderOp.AppendLine
           "NativeClassPtr = CoreUObjectExporter.CallGetNativeClassFromName(\"Door\");",
         BuilderOp.AppendEmptyLine,
         BuilderOp.AppendEmptyLine,
         BuilderOp.AppendLine ("Now_NativeFunction = UClassExporter"
           ++ ".CallGetNativeFunctionFromClassAndName(NativeClassPtr, \"Now\");"),
         BuilderOp.AppendEmptyLine,
         BuilderOp.AppendEmptyLine,
         BuilderOp.CloseBrace] := by
  decide

theorem PlainLines_ExportStaticConstructor (H : FHost) (Struct : UStructObject)
    (Ps : List FProperty) (Fs Os : List UFunction)
    (hT : IsIdentifier Struct.TypeScriptName = true)
    (hFs : ∀ F ∈ Fs, IsIdentifier F.Name = true)
    (hOs : ∀ F ∈ Os, IsIdentifier F.Name = true) :
    PlainLines (ExportStaticConstructor H Struct Ps Fs Os)
      = if StaticConstructorIsEmpty Struct Ps Fs Os then []
        else StaticConstructorFields Struct (Fs.any (fun F => F.FUNC_Static))
          ++ ["static " ++ Struct.TypeScriptName ++ "()"] := by
  unfold ExportStaticConstructor StaticConstructorIsEmpty StaticConstructorFields
  by_cases hempty : (Struct.IsClass && (Ps.isEmpty && Fs.isEmpty && Os.isEmpty)) = true
  · simp only [hempty, if_true]
    rfl
  · simp only [hempty, Bool.false_eq_true, if_false]
    have hfield : PlainLines
        (if Fs.any (fun F => F.FUNC_Static) = true then
          [BuilderOp.AppendLine "static readonly IntPtr NativeClassPtr;"] else [])
        = (if Fs.any (fun F => F.FUNC_Static) = true then [NativeClassPtrFieldLine] else []) := by
      split <;> rfl
    have hsize : PlainLines
        (if (!Struct.IsClass) = true then
          [BuilderOp.AppendLine "public static readonly int NativeDataSize;"] else [])
        = (if Struct.IsClass = true then [] else [NativeDataSizeFieldLine]) := by
      cases Struct.IsClass <;> rfl
    have hhead : PlainLines
        [BuilderOp.AppendLine ("static " ++ Struct.TypeScriptName ++ "()"),
         BuilderOp.OpenBrace,
         BuilderOp.AppendLine ((if Fs.any (fun F => F.FUNC_Static) = true then "" else "IntPtr ")
           ++ "NativeClassPtr = " ++ H.CoreUObjectCallbacks ++ ".CallGetNative"
           ++ (if Struct.IsClass = true then "Class" else "Struct") ++ "FromName(\""
           ++ Struct.GetName ++ "\");"),
         BuilderOp.AppendEmptyLine]
        = ["static " ++ Struct.TypeScriptName ++ "()"] := by
      simp only [PlainLines, List.filterMap_cons, List.filterMap_nil, BuilderOp.PlainLine,
        LineTarget_header _ hT, LineTarget_NativeClassPtr, Option.isNone_none,
        Option.isNone_some, if_true, Bool.false_eq_true, if_false]
    have hempty1 : PlainLines [BuilderOp.AppendEmptyLine] = [] := rfl
    have hclose : PlainLines [BuilderOp.CloseBrace] = [] := rfl
    have hdata : PlainLines
        [BuilderOp.AppendEmptyLine,
         BuilderOp.AppendLine ("NativeDataSize = " ++ H.UScriptStructCallbacks
           ++ ".CallGetNativeStructSize(NativeClassPtr);")] = [] := by
      simp only [PlainLines, List.filterMap_cons, List.filterMap_nil, BuilderOp.PlainLine,
        LineTarget_NativeDataSize, Option.isNone_some, Bool.false_eq_true, if_false]
    rw [PlainLines_append, PlainLines_append, PlainLines_append, PlainLines_append,
      PlainLines_append, hfield, hsize, hhead, hclose, (AssignmentTargets_properties _).2]
    cases hc : Struct.IsClass with
    | true =>
      simp only [if_true]
      rw [PlainLines_append, PlainLines_append, PlainLines_append, PlainLines_append, hempty1,
        (AssignmentTargets_functions H Fs hFs).2, (AssignmentTargets_overridables H Os hOs).2]
      simp
    | false =>
      simp only [Bool.false_eq_true, if_false]
      rw [hdata]
      simp

theorem function_targets_kind (Fs Os : List UFunction) :
    ∀ t ∈ (Fs.map FunctionTargets).flatten ++ (Os.map OverridableTargets).flatten,
      (IsFunctionHandleTarget t || IsParamsSizeTarget t) = true := by
  intro t ht
  simp only [List.mem_append, List.mem_flatten, List.mem_map] at ht
  rcases ht with ⟨l, ⟨F, _, rfl⟩, hl⟩ | ⟨l, ⟨F, _, rfl⟩, hl⟩
  · obtain ⟨h1, _, h3, _⟩ := handle_target_name F.Name
    unfold FunctionTargets at hl
    rcases List.mem_cons.mp hl with rfl | hl
    · simp [h1]
    · split at hl
      · have : t = F.Name ++ "_ParamsSize " := by simpa using hl
        subst this
        simp [h3]
      · cases hl
  · obtain ⟨_, _, h3, _⟩ := handle_target_name F.Name
    obtain ⟨h1, _, _, _⟩ := handle_target_name ("IntPtr " ++ F.Name)
    unfold OverridableTargets at hl
    split at hl
    · simp only [List.mem_cons, List.mem_singleton, List.not_mem_nil, or_false] at hl
      rcases hl with rfl | rfl
      · simp [h1]
      · simp [h3]
    · cases hl

theorem count_other_target (Fs Os : List UFunction) (Target : FString)
    (h : (IsFunctionHandleTarget Target || IsParamsSizeTarget Target) = false) :
    ((Fs.map FunctionTargets).flatten ++ (Os.map OverridableTargets).flatten).count Target
      = 0 := by
  rw [List.count_eq_zero]
  intro hm
  have := function_targets_kind Fs Os Target hm
  rw [h] at this
  cases this

theorem header_ne_field (TypeScriptName : FString) :
    ("static " ++ TypeScriptName ++ "()" == NativeClassPtrFieldLine) = false
    ∧ ("static " ++ TypeScriptName ++ "()" == NativeDataSizeFieldLine) = false := by
  have key : ∀ Lit : FString, ¬ ("()".data <:+ Lit.data) →
      ("static " ++ TypeScriptName ++ "()" == Lit) = false := by
    intro Lit hLit
    rw [beq_eq_false_iff_ne]
    intro h
    apply hLit
    rw [← h]
    simp only [String.data_append]
    exact List.suffix_append _ _
  exact ⟨key _ (by decide), key _ (by decide)⟩

theorem ExportStaticConstructor_eq_nil (H : FHost) (Struct : UStructObject)
    (Ps : List FProperty) (Fs Os : List UFunction) :
    ExportStaticConstructor H Struct Ps Fs Os = []
      ↔ StaticConstructorIsEmpty Struct Ps Fs Os = true := by
  unfold ExportStaticConstructor StaticConstructorIsEmpty
  by_cases hempty : (Struct.IsClass && (Ps.isEmpty && Fs.isEmpty && Os.isEmpty)) = true
  · simp only [hempty, if_true]
  · simp only [hempty, Bool.false_eq_true, if_false, iff_false]
    intro h
    have := congrArg List.length h
    simp at this

theorem ExportStaticConstructor_shape (H : FHost) (Struct : UStructObject)
    (Ps : List FProperty) (Fs Os : List UFunction)
    (hne : StaticConstructorIsEmpty Struct Ps Fs Os = false) :
    ∃ Body, ExportStaticConstructor H Struct Ps Fs Os
      = (StaticConstructorFields Struct (Fs.any (fun F => F.FUNC_Static))).map
            BuilderOp.AppendLine
          ++ [BuilderOp.AppendLine ("static " ++ Struct.TypeScriptName ++ "()"),
              BuilderOp.OpenBrace,
              NativeClassPtrLine H Struct (Fs.any (fun F => F.FUNC_Static))]
          ++ Body ++ [BuilderOp.CloseBrace] := by
  unfold StaticConstructorIsEmpty at hne
  unfold ExportStaticConstructor StaticConstructorFields NativeClassPtrLine
  simp only [hne, Bool.false_eq_true, if_false]
  refine ⟨[BuilderOp.AppendEmptyLine] ++ ExportPropertiesStaticConstruction Ps
    ++ (if Struct.IsClass then
          [BuilderOp.AppendEmptyLine]
          ++ ExportClassFunctionsStaticConstruction H Fs
          ++ [BuilderOp.AppendEmptyLine]
          ++ ExportClassOverridableFunctionsStaticConstruction H Os
          ++ [BuilderOp.AppendEmptyLine]
        else
          [BuilderOp.AppendEmptyLine,
           BuilderOp.AppendLine ("NativeDataSize = " ++ H.UScriptStructCallbacks
             ++ ".CallGetNativeStructSize(NativeClassPtr);")]), ?_⟩
  cases Fs.any (fun F => F.FUNC_Static) <;> cases Struct.IsClass <;>
    simp [NativeClassPtrFieldLine, NativeDataSizeFieldLine]

theorem ExportStaticConstructor_struct_shape (H : FHost) (Struct : UStructObject)
    (Ps : List FProperty) (Fs Os : List UFunction) (hs : Struct.IsClass = false) :
    ∃ Pre, ExportStaticConstructor H Struct Ps Fs Os
      = Pre ++ ExportPropertiesStaticConstruction Ps
          ++ [BuilderOp.AppendEmptyLine,
              BuilderOp.AppendLine ("NativeDataSize = " ++ H.UScriptStructCallbacks
                ++ ".CallGetNativeStructSize(NativeClassPtr);"),
              BuilderOp.CloseBrace] := by
  unfold ExportStaticConstructor
  simp only [hs, Bool.false_and, Bool.false_eq_true, if_false, Bool.not_false, if_true]
  refine ⟨(if Fs.any (fun F => F.FUNC_Static) = true then
        [BuilderOp.AppendLine "static readonly IntPtr NativeClassPtr;"] else [])
      ++ [BuilderOp.AppendLine "public static readonly int NativeDataSize;"]
      ++ [BuilderOp.AppendLine ("static " ++ Struct.TypeScriptName ++ "()"),
          BuilderOp.OpenBrace,
          BuilderOp.AppendLine
            ((if Fs.any (fun F => F.FUNC_Static) = true then "" else "IntPtr ")
              ++ "NativeClassPtr = " ++ H.CoreUObjectCallbacks ++ ".CallGetNative"
              ++ "Struct" ++ "FromName(\"" ++ Struct.GetName ++ "\");"),
          BuilderOp.AppendEmptyLine], ?_⟩
  simp only [List.append_assoc, List.cons_append, List.nil_append]

/-- C27, as the code has it: for a struct or class whose type name and exported function
names are identifiers, `ExportStaticConstructor` emits nothing exactly for a class without
exported properties, functions and overridable functions.  When it emits, `NativeClassPtr` is declared once:
with a static exported function, by the field line in front of the constructor, and the
constructor opens with the one assignment to it, which has no type; otherwise there is no
field line and the constructor opens with the one line `IntPtr NativeClassPtr = ...`.  For
a struct the `NativeDataSize` field is declared once, in front of the constructor, and
assigned once, from `NativeClassPtr`, after the property lookups and last in the
constructor. -/
theorem ExportStaticConstructor_declares_NativeClassPtr (H : FHost) (Struct : UStructObject)
    (ExportedProperties : List FProperty)
    (ExportedFunctions ExportedOverrideableFunctions : List UFunction)
    (Emitted : FCSScriptBuilder)
    (hEmitted : Emitted = ExportStaticConstructor H Struct ExportedProperties ExportedFunctions
      ExportedOverrideableFunctions)
    (hT : IsIdentifier Struct.TypeScriptName = true)
    (hFs : ∀ F ∈ ExportedFunctions, IsIdentifier F.Name = true)
    (hOs : ∀ F ∈ ExportedOverrideableFunctions, IsIdentifier F.Name = true) :
    (Emitted = [] ↔ (Struct.IsClass = true ∧ ExportedProperties = [] ∧ ExportedFunctions = []
        ∧ ExportedOverrideableFunctions = []))
    ∧ (Emitted ≠ [] →
        (PlainLines Emitted).count NativeClassPtrFieldLine
            = (if ExportedFunctions.any (fun F => F.FUNC_Static) then 1 else 0)
        ∧ (AssignmentTargets Emitted).count "NativeClassPtr "
            = (if ExportedFunctions.any (fun F => F.FUNC_Static) then 1 else 0)
        ∧ (AssignmentTargets Emitted).count "IntPtr NativeClassPtr "
            = (if ExportedFunctions.any (fun F => F.FUNC_Static) then 0 else 1)
        ∧ (∃ Body, Emitted
            = (StaticConstructorFields Struct
                  (ExportedFunctions.any (fun F => F.FUNC_Static))).map BuilderOp.AppendLine
                ++ [BuilderOp.AppendLine ("static " ++ Struct.TypeScriptName ++ "()"),
                    BuilderOp.OpenBrace,
                    NativeClassPtrLine H Struct
                      (ExportedFunctions.any (fun F => F.FUNC_Static))]
                ++ Body ++ [BuilderOp.CloseBrace]))
    ∧ (Struct.IsClass = false →
        (PlainLines Emitted).count NativeDataSizeFieldLine = 1
        ∧ (AssignmentTargets Emitted).count "NativeDataSize " = 1
        ∧ ∃ Pre, Emitted
            = Pre ++ ExportPropertiesStaticConstruction ExportedProperties
                ++ [BuilderOp.AppendEmptyLine,
                    BuilderOp.AppendLine ("NativeDataSize = " ++ H.UScriptStructCallbacks
                      ++ ".CallGetNativeStructSize(NativeClassPtr);"),
                    BuilderOp.CloseBrace]) := by
  subst hEmitted
  have hnil := ExportStaticConstructor_eq_nil H Struct ExportedProperties ExportedFunctions
    ExportedOverrideableFunctions
  have hplain := PlainLines_ExportStaticConstructor H Struct ExportedProperties
    ExportedFunctions ExportedOverrideableFunctions hT hFs hOs
  have htargets := AssignmentTargets_ExportStaticConstructor H Struct ExportedProperties
    ExportedFunctions ExportedOverrideableFunctions hT hFs hOs
  have hh1 : ¬ ("static " ++ Struct.TypeScriptName ++ "()"
      = "static readonly IntPtr NativeClassPtr;") := by
    simpa [NativeClassPtrFieldLine] using (header_ne_field Struct.TypeScriptName).1
  have hh2 : ¬ ("static " ++ Struct.TypeScriptName ++ "()"
      = "public static readonly int NativeDataSize;") := by
    simpa [NativeDataSizeFieldLine] using (header_ne_field Struct.TypeScriptName).2
  refine ⟨?_, ?_, ?_⟩
  · rw [hnil]
    unfold StaticConstructorIsEmpty
    simp only [Bool.and_eq_true, List.isEmpty_iff]
    tauto
  · intro hne
    have hne2 : StaticConstructorIsEmpty Struct ExportedProperties ExportedFunctions
        ExportedOverrideableFunctions = false := by
      rw [Bool.eq_false_iff]
      exact fun h => hne (hnil.mpr h)
    rw [hplain, htargets]
    have hne3 := hne2
    unfold StaticConstructorIsEmpty at hne3
    simp only [hne2, hne3, Bool.false_eq_true, if_false]
    refine ⟨?_, ?_, ?_, ExportStaticConstructor_shape H Struct _ _ _ hne2⟩
    · unfold StaticConstructorFields
      cases ExportedFunctions.any (fun F => F.FUNC_Static) <;> cases Struct.IsClass <;>
        simp [List.count_cons, hh1, NativeClassPtrFieldLine, NativeDataSizeFieldLine]
    · have h0 := count_other_target ExportedFunctions ExportedOverrideableFunctions
        "NativeClassPtr " (by decide)
      cases ExportedFunctions.any (fun F => F.FUNC_Static) <;> cases Struct.IsClass <;>
        simp [List.count_cons, h0, NativeClassPtrTarget]
    · have h0 := count_other_target ExportedFunctions ExportedOverrideableFunctions
        "IntPtr NativeClassPtr " (by decide)
      cases ExportedFunctions.any (fun F => F.FUNC_Static) <;> cases Struct.IsClass <;>
        simp [List.count_cons, h0, NativeClassPtrTarget]
  · intro hs
    rw [hplain, htargets]
    unfold StaticConstructorIsEmpty StaticConstructorFields
    simp only [hs, Bool.false_and, Bool.false_eq_true, if_false]
    refine ⟨?_, ?_, ExportStaticConstructor_struct_shape H Struct _ _ _ hs⟩
    · cases ExportedFunctions.any (fun F => F.FUNC_Static) <;>
        simp [List.count_cons, hh2, NativeClassPtrFieldLine, NativeDataSizeFieldLine]
    · cases ExportedFunctions.any (fun F => F.FUNC_Static) <;>
        simp [List.count_cons, NativeClassPtrTarget]

theorem ExportStaticConstructor_declares_NativeClassPtr_witness :
    IsIdentifier (exClass "Door" none).TypeScriptName = true
    ∧ (∀ F ∈ exClassWithLookups.1, IsIdentifier F.Name = true)
    ∧ (∀ F ∈ exClassWithLookups.2, IsIdentifier F.Name = true)
    ∧ ((PlainLines (ExportStaticConstructor exHost (UStructObject.Class (exClass "Door" none))
          [] exClassWithLookups.1 exClassWithLookups.2)).count NativeClassPtrFieldLine = 1
      ∧ (AssignmentTargets (ExportStaticConstructor exHost
          (UStructObject.Class (exClass "Door" none)) [] exClassWithLookups.1
          exClassWithLookups.2)).count "NativeClassPtr " = 1
      ∧ (AssignmentTargets (ExportStaticConstructor exHost
          (UStructObject.Class (exClass "Door" none)) [] exClassWithLookups.1
          exClassWithLookups.2)).count "IntPtr NativeClassPtr " = 0)
    ∧ ((PlainLines (ExportStaticConstructor exHost (UStructObject.Class (exClass "Door" none))
          [] [] exClassWithLookups.2)).count NativeClassPtrFieldLine = 0
      ∧ (AssignmentTargets (ExportStaticConstructor exHost
          (UStructObject.Class (exClass "Door" none)) [] [] exClassWithLookups.2)).count
            "NativeClassPtr " = 0
      ∧ (AssignmentTargets (ExportStaticConstructor exHost
          (UStructObject.Class (exClass "Door" none)) [] [] exClassWithLookups.2)).count
            "IntPtr NativeClassPtr " = 1)
    ∧ (ExportStaticConstructor exHost (UStructObject.Class (exClass "Door" none)) [] [] [] = [])
    ∧ IsIdentifier (UStructObject.ScriptStruct exStruct).TypeScriptName = true
    ∧ (PlainLines (ExportStaticConstructor exHost (UStructObject.ScriptStruct exStruct)
        exStruct.Properties [] [])).count NativeDataSizeFieldLine = 1
    ∧ (AssignmentTargets (ExportStaticConstructor exHost (UStructObject.ScriptStruct exStruct)
        exStruct.Properties [] [])).count "NativeDataSize " = 1 := by
  have hStatic := (ExportStaticConstructor_declares_NativeClassPtr exHost
    (UStructObject.Class (exClass "Door" none)) [] exClassWithLookups.1 exClassWithLookups.2
    _ rfl (by decide) (by decide) (by decide)).2.1 (by decide)
  have hLocal := (ExportStaticConstructor_declares_NativeClassPtr exHost
    (UStructObject.Class (exClass "Door" none)) [] [] exClassWithLookups.2
    _ rfl (by decide) (by decide) (by decide)).2.1 (by decide)
  have hNone := (ExportStaticConstructor_declares_NativeClassPtr exHost
    (UStructObject.Class (exClass "Door" none)) [] [] []
    _ rfl (by decide) (by decide) (by decide)).1.mpr ⟨rfl, rfl, rfl, rfl⟩
  have hStruct := (ExportStaticConstructor_declares_NativeClassPtr exHost
    (UStructObject.ScriptStruct exStruct) exStruct.Properties [] []
    _ rfl (by decide) (by decide) (by decide)).2.2 rfl
  exact ⟨by decide, by decide, by decide, ⟨hStatic.1, hStatic.2.1, hStatic.2.2.1⟩,
    ⟨hLocal.1, hLocal.2.1, hLocal.2.2.1⟩, hNone, by decide, hStruct.1, hStruct.2.1⟩

/-- C27 as stated fails: a class without static functions exports one overridable function
with a parameter, whose name is no identifier; the static constructor then has two lines
that declare a local `IntPtr NativeClassPtr`. -/
theorem Function_name_declares_NativeClassPtr_again :
    ExportStaticConstructor exHost (UStructObject.Class (exClass "Door" none)) [] []
        [exRedeclaringFunction]
      = [BuilderOp.AppendLine "static Door()",
         BuilderOp.OpenBrace,
         BuilderOp.AppendLine
           "IntPtr NativeClassPtr = CoreUObjectExporter.CallGetNativeClassFromName(\"Door\");",
         BuilderOp.AppendEmptyLine,
         BuilderOp.AppendEmptyLine,
         BuilderOp.AppendEmptyLine,
         BuilderOp.AppendLine ("IntPtr NativeClassPtr = IntPtr.Zero; IntPtr OnHit_NativeFunction"
           ++ " = UClassExporter.CallGetNativeFunctionFromClassAndName(NativeClassPtr, "
           ++ "\"NativeClassPtr = IntPtr.Zero; IntPtr OnHit\");"),
         BuilderOp.AppendLine ("NativeClassPtr = IntPtr.Zero; IntPtr OnHit_ParamsSize"
           ++ " = UFunctionExporter.CallGetNativeFunctionParamsSize("
           ++ "NativeClassPtr = IntPtr.Zero; IntPtr OnHit_NativeFunction);"),
         BuilderOp.ExportParameterStaticConstruction
           "NativeClassPtr = IntPtr.Zero; IntPtr OnHit" (exProperty "Other"),
         BuilderOp.AppendEmptyLine,
         BuilderOp.AppendEmptyLine,
         BuilderOp.CloseBrace]
    ∧ (AssignmentTargets (ExportStaticConstructor exHost
        (UStructObject.Class (exClass "Door" none)) [] [] [exRedeclaringFunction])).count
          "IntPtr NativeClassPtr " = 2
    ∧ (AssignmentTargets (ExportStaticConstructor exHost
        (UStructObject.Class (exClass "Door" none)) [] [] [exRedeclaringFunction])).count
          "NativeClassPtr " = 1
    ∧ IsIdentifier exRedeclaringFunction.Name = false := by
  refine ⟨?_, ?_, ?_, ?_⟩
  · rfl
  · decide
  · decide
  · decide

/-- The static constructor of the example struct, of a class with a static function, and
of a class with nothing exported. -/
theorem ExportStaticConstructor_example :
    ExportStaticConstructor exHost (UStructObject.ScriptStruct exStruct) exStruct.Properties
        [] []
      = [BuilderOp.AppendLine "public static readonly int NativeDataSize;",
         BuilderOp.AppendLine "static Vector()",
         BuilderOp.OpenBrace,
         BuilderOp.AppendLine
           "IntPtr NativeClassPtr = CoreUObjectExporter.CallGetNativeStructFromName(\"Vector\");",
         BuilderOp.AppendEmptyLine,
         BuilderOp.ExportPropertyStaticConstruction (exProperty "X") "X",
         BuilderOp.AppendEmptyLine,
         BuilderOp.AppendLine
           "NativeDataSize = UScriptStructExporter.CallGetNativeStructSize(NativeClassPtr);",
         BuilderOp.CloseBrace]
    ∧ (ExportStaticConstructor exHost (UStructObject.Class (exClass "Door" none)) []
        exZeroParmFunctions.1 []).take 4
      = [BuilderOp.AppendLine "static readonly IntPtr NativeClassPtr;",
         BuilderOp.AppendLine "static Door()",
         BuilderOp.OpenBrace,
         BuilderOp.AppendLine
           "NativeClassPtr = CoreUObjectExporter.CallGetNativeClassFromName(\"Door\");"]
    ∧ ExportStaticConstructor exHost (UStructObject.Class (exClass "Door" none)) [] [] []
      = [] := by
  decide

end GlueGenerator
